import Mathlib

/-!
# Policy decision service: evaluation, validation and lock control

A shallow embedding of `internal/service/policy/service.go`.

* Go `error` values, JSON-shaped `interface{}` values and the request and
  result records are plain inductive types.
* The ports the service consumes (Storage, RegoCache, Cache), the rule
  engine, the JSON codec and the UUID generator are fields of `Service`;
  each port is a function on an abstract backend state `σ`.
* Every port call made by the service is appended to a call log kept in
  `World`, so that "is called exactly once" and "is never called" are
  statements about that log.
-/

namespace PolicyAgent

/-! ## Error values -/

/-- Error kinds, in the order of the error library's enumeration. -/
inductive Kind
  | Unknown
  | BadRequest
  | Unauthorized
  | Forbidden
  | Exist
  | NotFound
  | Timeout
  | Internal
  | ServiceUnavailable
  deriving DecidableEq, Repr

/-- Modelled from the spec: the error library (package `err` of
microservice-core-go, imported as `errors`) is not part of the sources. A Go
`error` is either a structured error carrying `Kind`, `Message` and an
optional wrapped `Err`, or some other error value (`foreign`), which has no
kind. The identifier a structured error also carries is left out: no
operation of the service reads it. -/
inductive Error
  | foreign (text : String)
  | leaf (Kind : Kind) (Message : String)
  | wrap (Kind : Kind) (Message : String) (Err : Error)
  deriving DecidableEq, Repr

namespace Error

/-- The `Kind` field of a structured error; a foreign error has no kind and
reads as `Unknown`. -/
def kind : Error → Kind
  | foreign _ => Kind.Unknown
  | leaf k _ => k
  | wrap k _ _ => k

/-- The `Message` field of a structured error. -/
def message : Error → String
  | foreign _ => ""
  | leaf _ m => m
  | wrap _ m _ => m

/-- A copy of a structured error with its `Kind` field cleared. -/
def clearKind : Error → Error
  | foreign t => foreign t
  | leaf _ m => leaf Kind.Unknown m
  | wrap _ m e => wrap Kind.Unknown m e

/-- The messages along the chain of wrapped errors, outermost first. -/
def messages : Error → List String
  | foreign t => [t]
  | leaf _ m => [m]
  | wrap _ m e => m :: messages e

end Error

namespace errors

/-- Modelled from the spec: `errors.New(kind?, message?, err?)`. "Kinds are
preserved through wrapping; the outermost wrap sets the kind": a wrap that
names no kind (`Unknown`) takes the kind of the structured error it wraps,
whose copy is stored with the kind cleared; a wrap that names a kind keeps
it. An absent kind is `Unknown`, an absent message is the empty string. -/
def New (k : Kind) (msg : String) (err : Option Error) : Error :=
  match err with
  | none => Error.leaf k msg
  | some (Error.foreign t) => Error.wrap k msg (Error.foreign t)
  | some prev =>
    if k = Kind.Unknown then Error.wrap prev.kind msg prev.clearKind
    else Error.wrap k msg prev

/-- Modelled from the spec: `errors.Is(kind, err)`. A foreign error is of no
kind; a structured error whose kind is set is of exactly that kind; one whose
kind is `Unknown` is of the kind of the error it wraps. -/
def Is (k : Kind) : Error → Bool
  | Error.foreign _ => false
  | Error.leaf k0 _ => if k0 ≠ Kind.Unknown then k0 = k else false
  | Error.wrap k0 _ e => if k0 ≠ Kind.Unknown then k0 = k else Is k e

end errors

/-! ## Data model -/

/-- JSON-shaped Go values (`interface{}`): what the rule engine returns and
what requests carry as input. An object is the list of its entries. -/
inductive Value
  | null
  | bool (b : Bool)
  | number (literal : String)
  | string (s : String)
  | array (items : List Value)
  | object (entries : List (String × Value))

/-- The stored policy record (`storage.Policy`), with the fields the service
reads. -/
structure Policy where
  Repository : String
  Filename : String
  Name : String
  Group : String
  Version : String
  Rego : String
  Data : String
  DataConfig : String
  ExportConfig : String
  OutputSchema : String
  Locked : Bool
  LastUpdate : Int
  deriving DecidableEq, Repr

/-- Request headers carried by the context (`map[string]string`). -/
abbrev Headers := List (String × String)

/-- The request of Evaluate and Validate; pointer fields are options. -/
structure EvaluateRequest where
  Repository : String
  Group : String
  PolicyName : String
  Version : String
  Input : Option Value
  TTL : Option Int
  EvaluationID : Option String

/-- The result of Evaluate and Validate. -/
structure EvaluateResult where
  Result : Value
  ETag : String

/-- The request of Lock. -/
structure LockRequest where
  Repository : String
  Group : String
  PolicyName : String
  Version : String
  deriving DecidableEq, Repr

/-- The request of Unlock. -/
structure UnlockRequest where
  Repository : String
  Group : String
  PolicyName : String
  Version : String
  deriving DecidableEq, Repr

/-- Byte slices (`[]byte`). -/
abbrev Bytes := List UInt8

/-- The value of `sha256.Sum256`, an array of 32 bytes (`[32]byte`). -/
abbrev Digest := { d : Bytes // d.length = 32 }

/-- A file of a ZIP archive (`ZipFile`). -/
structure ZipFile where
  Name : String
  Content : Bytes
  deriving DecidableEq, Repr

/-- The export configuration of a policy: the signing namespace and key. -/
structure ExportConfig where
  Namespace : String
  Key : String
  deriving DecidableEq, Repr

/-- A subscriber for policy changes (`storage.Subscriber`); times are
instants in nanoseconds since the Unix epoch. -/
structure Subscriber where
  Name : String
  WebhookURL : String
  PolicyRepository : String
  PolicyName : String
  PolicyGroup : String
  PolicyVersion : String
  CreatedAt : Int
  UpdatedAt : Int
  deriving DecidableEq, Repr

/-- The request of ListPolicies; pointer fields are options. -/
structure PoliciesRequest where
  Locked : Option Bool
  PolicyName : Option String
  Rego : Option Bool
  Data : Option Bool
  DataConfig : Option Bool
  deriving DecidableEq, Repr

/-- A row of the result of ListPolicies (the generated type `policy.Policy`);
pointer fields are options. -/
structure policy.Policy where
  Repository : String
  PolicyName : String
  Group : String
  Version : String
  Rego : Option String
  Data : Option String
  DataConfig : Option String
  Locked : Bool
  LastUpdate : Int
  deriving DecidableEq, Repr

/-- The result of ListPolicies. -/
structure PoliciesResult where
  Policies : List policy.Policy
  deriving DecidableEq, Repr

/-- The request of SubscribeForPolicyChange. -/
structure SubscribeRequest where
  WebhookURL : String
  Subscriber : String
  Repository : String
  PolicyName : String
  Group : String
  Version : String
  deriving DecidableEq, Repr

/-- The request of ExportBundle. -/
structure ExportBundleRequest where
  Repository : String
  Group : String
  PolicyName : String
  Version : String
  deriving DecidableEq, Repr

/-- The result of ExportBundle, next to the archive itself. -/
structure ExportBundleResult where
  ContentType : String
  ContentLength : Nat
  ContentDisposition : String
  deriving DecidableEq, Repr

/-- The request of PolicyPublicKey. -/
structure PolicyPublicKeyRequest where
  Repository : String
  Group : String
  PolicyName : String
  Version : String
  deriving DecidableEq, Repr

/-- The summary ImportBundle returns (a map with these six keys). -/
structure ImportBundleResult where
  repository : String
  group : String
  name : String
  version : String
  locked : Bool
  lastUpdate : Int
  deriving DecidableEq, Repr

/-- The request of SetPolicyAutoImport. -/
structure SetPolicyAutoImportRequest where
  PolicyURL : String
  Interval : String
  deriving DecidableEq, Repr

/-- An automatic import configuration (`storage.PolicyAutoImport`): the
interval is a duration in nanoseconds, the next import an instant in
nanoseconds since the Unix epoch. -/
structure PolicyAutoImport where
  PolicyURL : String
  Interval : Int
  NextImport : Int
  deriving DecidableEq, Repr

/-- The result of SetPolicyAutoImport (a map with these two keys). -/
structure SetPolicyAutoImportResult where
  policyURL : String
  interval : String
  deriving DecidableEq, Repr

/-- One option handed to the rule engine (`func(*rego.Rego)`). -/
inductive RegoArg
  | Module (filename : String) (input : String)
  | Query (q : String)
  | StrictBuiltinErrors (yes : Bool)
  | Extension (name : String)
  | Store (data : Value)
  | Function1 (headers : Headers)

/-- The result set of a query: per result, the values of its expressions. -/
abbrev ResultSet := List (List Value)

/-- A call made by the service on one of its ports. -/
inductive Call
  | storagePolicy (repository group name version : String)
  | storageSetPolicyLock (repository group name version : String) (lock : Bool)
  | storageSavePolicy (p : Policy)
  | policyCacheGet (key : String)
  | policyCacheSet (key : String) (p : Policy)
  | cacheSet (key ns scope : String) (value : String) (ttl : Int)
  | uuidNewString
  | regoEval (query : List RegoArg) (input : Option Value)
  | storageGetPolicies (locked : Option Bool) (policyName : Option String)
  | storageSubscriber (repository group name version webhook subscriber : String)
  | storageCreateSubscriber (subscriber : Subscriber)
  | signerKey (ns key : String)
  | signerSign (ns key : String) (data : Bytes)
  | verifyBundle (files : List ZipFile)
  | storageSaveAutoImportConfig (importConfig : PolicyAutoImport)

/-- The service: its ports over a backend state `σ`, the libraries it calls
and its configuration. A port returns its Go result and the next state.

The functions of `bundle.go`, which is not part of the sources
(`policyExportConfig`, `createPolicyBundle`, `createZipArchive`, `unzip`,
`verifyBundle`, `policyFromBundle`), are fields as well, and so are the text
`errorString` that `Error()` gives for an error, the duration parser
`time.ParseDuration` and the clock `time.Now`. -/
structure Service (σ : Type) where
  storagePolicy : σ → String → String → String → String → Except Error Policy × σ
  storageSetPolicyLock : σ → String → String → String → String → Bool → Option Error × σ
  storageSavePolicy : σ → Policy → Option Error × σ
  policyCacheGet : σ → String → Option Policy × σ
  policyCacheSet : σ → String → Policy → σ
  cacheSet : σ → String → String → String → String → Int → Option Error × σ
  uuidNewString : σ → String × σ
  regofuncList : List String
  jsonUnmarshalObject : String → Except Error Value
  jsonMarshal : Value → Except Error String
  regoPrepareForEval : List RegoArg → Option Error
  regoEval : σ → List RegoArg → Option Value → Except Error ResultSet × σ
  jsonschemaCompileString : String → Option Error
  jsonschemaValidate : String → Value → Option Error
  validationLock : Bool
  externalHostname : String
  storageGetPolicies : σ → Option Bool → Option String → Except Error (List Policy) × σ
  storageSubscriber : σ → String → String → String → String → String → String →
    (Option Subscriber × Option Error) × σ
  storageCreateSubscriber : σ → Subscriber → Except Error Subscriber × σ
  signerKey : σ → String → String → Except Error Value × σ
  signerSign : σ → String → String → Bytes → Except Error Bytes × σ
  policyExportConfig : Policy → Except Error ExportConfig
  createPolicyBundle : Policy → Except Error Bytes
  createZipArchive : List ZipFile → Except Error Bytes
  unzip : Bytes → Except Error (List ZipFile)
  verifyBundle : σ → List ZipFile → Option Error × σ
  policyFromBundle : Bytes → Except Error Policy
  sha256Sum256 : Bytes → Digest
  errorString : Error → String
  timeParseDuration : String → Except Error Int
  timeNow : σ → Int × σ
  storageSaveAutoImportConfig : σ → PolicyAutoImport → Option Error × σ

/-- The backend state together with the log of port calls, oldest first. -/
structure World (σ : Type) where
  st : σ
  calls : List Call

/-! ## Port calls, each recorded in the log -/

section Ports

variable {σ : Type}

/-- Call `Storage.Policy`. -/
def callStoragePolicy (s : Service σ) (w : World σ) (repository group name version : String) :
    Except Error Policy × World σ :=
  let r := s.storagePolicy w.st repository group name version
  (r.1, { st := r.2, calls := w.calls ++ [Call.storagePolicy repository group name version] })

/-- Call `Storage.SetPolicyLock`. -/
def callSetPolicyLock (s : Service σ) (w : World σ) (repository group name version : String)
    (lock : Bool) : Option Error × World σ :=
  let r := s.storageSetPolicyLock w.st repository group name version lock
  (r.1, { st := r.2,
          calls := w.calls ++ [Call.storageSetPolicyLock repository group name version lock] })

/-- Call `Storage.SavePolicy`. -/
def callSavePolicy (s : Service σ) (w : World σ) (p : Policy) : Option Error × World σ :=
  let r := s.storageSavePolicy w.st p
  (r.1, { st := r.2, calls := w.calls ++ [Call.storageSavePolicy p] })

/-- Call `RegoCache.Get`. -/
def callPolicyCacheGet (s : Service σ) (w : World σ) (key : String) : Option Policy × World σ :=
  let r := s.policyCacheGet w.st key
  (r.1, { st := r.2, calls := w.calls ++ [Call.policyCacheGet key] })

/-- Call `RegoCache.Set`. -/
def callPolicyCacheSet (s : Service σ) (w : World σ) (key : String) (p : Policy) : World σ :=
  { st := s.policyCacheSet w.st key p, calls := w.calls ++ [Call.policyCacheSet key p] }

/-- Call `Cache.Set`. -/
def callCacheSet (s : Service σ) (w : World σ) (key ns scope value : String) (ttl : Int) :
    Option Error × World σ :=
  let r := s.cacheSet w.st key ns scope value ttl
  (r.1, { st := r.2, calls := w.calls ++ [Call.cacheSet key ns scope value ttl] })

/-- Call `uuid.NewString`. -/
def callUuidNewString (s : Service σ) (w : World σ) : String × World σ :=
  let r := s.uuidNewString w.st
  (r.1, { st := r.2, calls := w.calls ++ [Call.uuidNewString] })

/-- Run the prepared query (`query.Eval`). -/
def callRegoEval (s : Service σ) (w : World σ) (query : List RegoArg) (input : Option Value) :
    Except Error ResultSet × World σ :=
  let r := s.regoEval w.st query input
  (r.1, { st := r.2, calls := w.calls ++ [Call.regoEval query input] })

/-- Call `Storage.GetPolicies`. -/
def callGetPolicies (s : Service σ) (w : World σ) (locked : Option Bool)
    (policyName : Option String) : Except Error (List Policy) × World σ :=
  let r := s.storageGetPolicies w.st locked policyName
  (r.1, { st := r.2, calls := w.calls ++ [Call.storageGetPolicies locked policyName] })

/-- Call `Storage.Subscriber`. -/
def callSubscriber (s : Service σ) (w : World σ)
    (repository group name version webhook subscriber : String) :
    (Option Subscriber × Option Error) × World σ :=
  let r := s.storageSubscriber w.st repository group name version webhook subscriber
  (r.1, { st := r.2,
          calls := w.calls ++
            [Call.storageSubscriber repository group name version webhook subscriber] })

/-- Call `Storage.CreateSubscriber`. -/
def callCreateSubscriber (s : Service σ) (w : World σ) (subscriber : Subscriber) :
    Except Error Subscriber × World σ :=
  let r := s.storageCreateSubscriber w.st subscriber
  (r.1, { st := r.2, calls := w.calls ++ [Call.storageCreateSubscriber subscriber] })

/-- Call `Signer.Key`. -/
def callSignerKey (s : Service σ) (w : World σ) (ns key : String) :
    Except Error Value × World σ :=
  let r := s.signerKey w.st ns key
  (r.1, { st := r.2, calls := w.calls ++ [Call.signerKey ns key] })

/-- Call `Signer.Sign`. -/
def callSignerSign (s : Service σ) (w : World σ) (ns key : String) (data : Bytes) :
    Except Error Bytes × World σ :=
  let r := s.signerSign w.st ns key data
  (r.1, { st := r.2, calls := w.calls ++ [Call.signerSign ns key data] })

/-- Run the verification of a bundle (`verifyBundle`), which fetches the
verification key over the network. -/
def callVerifyBundle (s : Service σ) (w : World σ) (files : List ZipFile) :
    Option Error × World σ :=
  let r := s.verifyBundle w.st files
  (r.1, { st := r.2, calls := w.calls ++ [Call.verifyBundle files] })

/-- Call `Storage.SaveAutoImportConfig`. -/
def callSaveAutoImportConfig (s : Service σ) (w : World σ) (importConfig : PolicyAutoImport) :
    Option Error × World σ :=
  let r := s.storageSaveAutoImportConfig w.st importConfig
  (r.1, { st := r.2, calls := w.calls ++ [Call.storageSaveAutoImportConfig importConfig] })

end Ports

/-! ## The service operations -/

section Operations

variable {σ : Type}

/-- The fingerprint under which a policy is cached:
`fmt.Sprintf("%s,%s,%s,%s", repository, group, policyName, version)`. -/
def queryCacheKey (repository group policyName version : String) : String :=
  repository ++ "," ++ group ++ "," ++ policyName ++ "," ++ version

/-- Take the policy from the compiled-policy cache, or on a miss from
storage, caching what storage returned. -/
def retrievePolicy (s : Service σ) (w : World σ) (repository group policyName version : String) :
    Except Error Policy × World σ :=
  let key := queryCacheKey repository group policyName version
  match callPolicyCacheGet s w key with
  | (some p, w1) => (Except.ok p, w1)
  | (none, w1) =>
    match callStoragePolicy s w1 repository group policyName version with
    | (Except.error err, w2) =>
      if errors.Is Kind.NotFound err then (Except.error err, w2)
      else (Except.error (errors.New Kind.Unknown "error getting policy from storage" (some err)), w2)
    | (Except.ok p, w2) => (Except.ok p, callPolicyCacheSet s w2 key p)

/-- The engine options built from a policy: module, query, strict built-in
errors, the registered extension functions, and the static data as store when
there is any. -/
def buildRegoArgs (s : Service σ) (filename regoPolicy regoQuery regoData : String) :
    Except Error (List RegoArg) :=
  let availableFuncs :=
    [RegoArg.Module filename regoPolicy, RegoArg.Query regoQuery, RegoArg.StrictBuiltinErrors true]
      ++ s.regofuncList.map RegoArg.Extension
  if regoData ≠ "" then
    match s.jsonUnmarshalObject regoData with
    | Except.error err => Except.error err
    | Except.ok data => Except.ok (availableFuncs ++ [RegoArg.Store data])
  else Except.ok availableFuncs

/-- Retrieve the policy, refuse a locked one, and prepare its query
`data.<group>.<policyName>` with the header function of this request. -/
def prepareQuery (s : Service σ) (w : World σ) (repository group policyName version : String)
    (headers : Headers) : Except Error (List RegoArg) × World σ :=
  match retrievePolicy s w repository group policyName version with
  | (Except.error err, w1) => (Except.error err, w1)
  | (Except.ok pol, w1) =>
    if pol.Locked then
      (Except.error (errors.New Kind.Forbidden "policy is locked" none), w1)
    else
      let regoQuery := "data." ++ group ++ "." ++ policyName
      match buildRegoArgs s pol.Filename pol.Rego regoQuery pol.Data with
      | Except.error err =>
        (Except.error (errors.New Kind.Unknown "error building rego runtime functions" (some err)), w1)
      | Except.ok regoArgs =>
        let regoArgs := regoArgs ++ [RegoArg.Function1 headers]
        match s.regoPrepareForEval regoArgs with
        | some err =>
          (Except.error (errors.New Kind.Unknown "error preparing rego query" (some err)), w1)
        | none => (Except.ok regoArgs, w1)

/-- The unwrapping of a blank assignment: a map of length one is ranged over
and an entry with key `$0` replaces the result by its value. -/
def normalizeResult (result : Value) : Value :=
  match result with
  | Value.object resultMap =>
    if resultMap.length = 1 then
      resultMap.foldl (fun acc kv => if kv.1 = "$0" then kv.2 else acc) result
    else result
  | _ => result

/-- The evaluation ID: the one of the request when present and non-empty,
otherwise a new UUID. -/
def evaluationID (s : Service σ) (w : World σ) (req : EvaluateRequest) : String × World σ :=
  match req.EvaluationID with
  | some id => if id ≠ "" then (id, w) else callUuidNewString s w
  | none => callUuidNewString s w

/-- The TTL handed to the result cache: the one of the request, or zero. -/
def ttlOf (req : EvaluateRequest) : Int :=
  match req.TTL with
  | some t => t
  | none => 0

/-- Evaluate executes a policy with the given input. -/
def Evaluate (s : Service σ) (ctx : Headers) (req : EvaluateRequest) (w : World σ) :
    Except Error EvaluateResult × World σ :=
  let id := evaluationID s w req
  match prepareQuery s id.2 req.Repository req.Group req.PolicyName req.Version ctx with
  | (Except.error err, w1) =>
    (Except.error (errors.New Kind.Unknown "error evaluating policy" (some err)), w1)
  | (Except.ok query, w1) =>
    match callRegoEval s w1 query req.Input with
    | (Except.error err, w2) =>
      (Except.error (errors.New Kind.Unknown "error evaluating rego query" (some err)), w2)
    | (Except.ok [], w2) =>
      (Except.error (errors.New Kind.Unknown "policy evaluation results are empty" none), w2)
    | (Except.ok ([] :: _), w2) =>
      (Except.error
        (errors.New Kind.Unknown "policy evaluation result expressions are empty" none), w2)
    | (Except.ok ((value :: _) :: _), w2) =>
      let result := normalizeResult value
      match s.jsonMarshal result with
      | Except.error _ =>
        (Except.error (errors.New Kind.Unknown "error encoding result to json" none), w2)
      | Except.ok jsonValue =>
        match callCacheSet s w2 id.1 "" "" jsonValue (ttlOf req) with
        | (some err, w3) =>
          if !errors.Is Kind.ServiceUnavailable err then
            (Except.error
              (errors.New Kind.Unknown "error storing policy result in cache" none), w3)
          else (Except.ok { Result := result, ETag := id.1 }, w3)
        | (none, w3) => (Except.ok { Result := result, ETag := id.1 }, w3)

/-- The unexported lock: refuse an already locked policy, otherwise set the
lock on the coordinates of the policy. -/
def lock (s : Service σ) (w : World σ) (p : Policy) : Option Error × World σ :=
  if p.Locked then (some (errors.New Kind.Forbidden "policy is already locked" none), w)
  else
    match callSetPolicyLock s w p.Repository p.Group p.Name p.Version true with
    | (some err, w1) => (some (errors.New Kind.Unknown "error locking policy" (some err)), w1)
    | (none, w1) => (none, w1)

/-- Lock a policy so that it cannot be evaluated. -/
def Lock (s : Service σ) (req : LockRequest) (w : World σ) : Option Error × World σ :=
  match callStoragePolicy s w req.Repository req.Group req.PolicyName req.Version with
  | (Except.error err, w1) =>
    if errors.Is Kind.NotFound err then (some err, w1)
    else (some (errors.New Kind.Unknown "error locking policy" (some err)), w1)
  | (Except.ok pol, w1) =>
    match lock s w1 pol with
    | (some err, w2) => (some err, w2)
    | (none, w2) => (none, w2)

/-- Unlock a policy so it can be evaluated again. -/
def Unlock (s : Service σ) (req : UnlockRequest) (w : World σ) : Option Error × World σ :=
  match callStoragePolicy s w req.Repository req.Group req.PolicyName req.Version with
  | (Except.error err, w1) =>
    if errors.Is Kind.NotFound err then (some err, w1)
    else (some (errors.New Kind.Unknown "error unlocking policy" (some err)), w1)
  | (Except.ok pol, w1) =>
    if !pol.Locked then (some (errors.New Kind.Forbidden "policy is unlocked" none), w1)
    else
      match callSetPolicyLock s w1 req.Repository req.Group req.PolicyName req.Version false with
      | (some err, w2) => (some (errors.New Kind.Unknown "error unlocking policy" (some err)), w2)
      | (none, w2) => (none, w2)

/-- Validate executes a policy with given input and then validates the output
against the policy's output schema. -/
def Validate (s : Service σ) (ctx : Headers) (req : EvaluateRequest) (w : World σ) :
    Except Error EvaluateResult × World σ :=
  match retrievePolicy s w req.Repository req.Group req.PolicyName req.Version with
  | (Except.error err, w1) =>
    (Except.error (errors.New Kind.Unknown "error retrieving policy" (some err)), w1)
  | (Except.ok pol, w1) =>
    if pol.OutputSchema = "" then
      (Except.error
        (errors.New Kind.BadRequest "validation schema for policy output is not found" none), w1)
    else
      match Evaluate s ctx req w1 with
      | (Except.error err, w2) => (Except.error err, w2)
      | (Except.ok res, w2) =>
        match s.jsonschemaCompileString pol.OutputSchema with
        | some _ =>
          (Except.error
            (errors.New Kind.Unknown "error compiling output validation schema" none), w2)
        | none =>
          match s.jsonschemaValidate pol.OutputSchema res.Result with
          | some err =>
            let w3 := if s.validationLock then (lock s w2 pol).2 else w2
            (Except.error
              (errors.New Kind.Unknown "policy output schema validation failed" (some err)), w3)
          | none => (Except.ok res, w2)

end Operations

/-! ## Listing, subscriptions and bundles -/

section BundleOperations

variable {σ : Type}

/-- The name of the inner bundle in the exported archive. -/
def BundleFilename : String := "policy_bundle.zip"

/-- The name of the signature in the exported archive. -/
def BundleSignatureFilename : String := "signature.raw"

/-- Modelled from the spec: the error `errExportConfigNotFound` of `bundle.go`,
which is not part of the sources, the error that `policyExportConfig` returns
for a policy without export configuration; its text is the one the tests
expect. -/
def errExportConfigNotFound : Error :=
  errors.New Kind.Unknown "policy export configuration is not defined" none

/-- The Unix time of an instant (`Time.Unix`): its whole seconds since the
epoch, the instant being given in nanoseconds since the epoch. -/
def timeUnix (t : Int) : Int :=
  Int.fdiv t 1000000000

/-- The zero value of `time.Time`, January 1 of year 1, in nanoseconds since
the Unix epoch. -/
def zeroTime : Int := -62135596800000000000

/-- White space as Unicode has it (`unicode.IsSpace`). -/
def unicodeIsSpace (c : Char) : Bool :=
  let r := c.toNat
  (9 ≤ r && r ≤ 13) || r == 32 || r == 133 || r == 160 || r == 5760 ||
    (8192 ≤ r && r ≤ 8202) || r == 8232 || r == 8233 || r == 8239 || r == 8287 || r == 12288

/-- The text without its leading and trailing white space
(`strings.TrimSpace`). -/
def stringsTrimSpace (text : String) : String :=
  String.mk ((text.data.dropWhile unicodeIsSpace).reverse.dropWhile unicodeIsSpace).reverse

/-- The row ListPolicies returns for a policy: the large fields are set only
when the request asks for them. -/
def listRow (req : PoliciesRequest) (p : Policy) : policy.Policy :=
  let row : policy.Policy :=
    { Repository := p.Repository, PolicyName := p.Name, Group := p.Group, Version := p.Version,
      Rego := none, Data := none, DataConfig := none,
      Locked := p.Locked, LastUpdate := timeUnix p.LastUpdate }
  let row := if req.Rego = some true then { row with Rego := some p.Rego } else row
  let row := if req.Data = some true then { row with Data := some p.Data } else row
  let row :=
    if req.DataConfig = some true then { row with DataConfig := some p.DataConfig } else row
  row

/-- ListPolicies returns the policies storage selects, one row appended per
policy. -/
def ListPolicies (s : Service σ) (req : PoliciesRequest) (w : World σ) :
    Except Error PoliciesResult × World σ :=
  match callGetPolicies s w req.Locked req.PolicyName with
  | (Except.error err, w1) =>
    (Except.error (errors.New Kind.Unknown "error retrieving policies" (some err)), w1)
  | (Except.ok policies, w1) =>
    let policiesResult := policies.foldl (fun acc p => acc ++ [listRow req p]) []
    (Except.ok { Policies := policiesResult }, w1)

/-- SubscribeForPolicyChange records a subscriber for the changes of a policy
that exists, unless the subscriber is recorded already. -/
def SubscribeForPolicyChange (s : Service σ) (req : SubscribeRequest) (w : World σ) :
    Except Error Subscriber × World σ :=
  match callStoragePolicy s w req.Repository req.Group req.PolicyName req.Version with
  | (Except.error err, w1) => (Except.error err, w1)
  | (Except.ok _, w1) =>
    match callSubscriber s w1 req.Repository req.Group req.PolicyName req.Version
      req.WebhookURL req.Subscriber with
    | (r, w2) =>
      if (match r.2 with
          | some err => !errors.Is Kind.NotFound err
          | none => false) then
        (Except.error (errors.New Kind.Unknown "error while retrieving subscriber" r.2), w2)
      else if r.1.isSome then
        (Except.error (errors.New Kind.Exist "subscriber already exist" none), w2)
      else
        match callCreateSubscriber s w2
          { Name := req.Subscriber, WebhookURL := req.WebhookURL,
            PolicyRepository := req.Repository, PolicyName := req.PolicyName,
            PolicyGroup := req.Group, PolicyVersion := req.Version,
            CreatedAt := zeroTime, UpdatedAt := zeroTime } with
        | (Except.error err, w3) => (Except.error err, w3)
        | (Except.ok subscriber, w3) => (Except.ok subscriber, w3)

/-- ExportBundle returns the signed bundle of a policy: the description of the
archive and the bytes its reader yields. -/
def ExportBundle (s : Service σ) (req : ExportBundleRequest) (w : World σ) :
    Except Error (ExportBundleResult × Bytes) × World σ :=
  match callStoragePolicy s w req.Repository req.Group req.PolicyName req.Version with
  | (Except.error err, w1) => (Except.error err, w1)
  | (Except.ok pol, w1) =>
    match s.policyExportConfig pol with
    | Except.error err =>
      if err = errExportConfigNotFound then
        (Except.error (errors.New Kind.Forbidden "" (some err)), w1)
      else (Except.error err, w1)
    | Except.ok exportConfig =>
      match s.createPolicyBundle pol with
      | Except.error err => (Except.error err, w1)
      | Except.ok bundle =>
        let bundleDigest := s.sha256Sum256 bundle
        match callSignerSign s w1 exportConfig.Namespace exportConfig.Key bundleDigest.val with
        | (Except.error err, w2) => (Except.error err, w2)
        | (Except.ok signature, w2) =>
          let files : List ZipFile :=
            [{ Name := BundleFilename, Content := bundle },
             { Name := BundleSignatureFilename, Content := signature }]
          match s.createZipArchive files with
          | Except.error err => (Except.error err, w2)
          | Except.ok signedBundle =>
            let filename :=
              pol.Repository ++ "_" ++ pol.Group ++ "_" ++ pol.Name ++ "_" ++ pol.Version ++ ".zip"
            let filename := stringsTrimSpace filename
            (Except.ok
              ({ ContentType := "application/zip",
                 ContentLength := signedBundle.length,
                 ContentDisposition := "attachment; filename=\"" ++ filename ++ "\"" },
               signedBundle), w2)

/-- PolicyPublicKey returns the public key with which a signed bundle of the
policy is verified. -/
def PolicyPublicKey (s : Service σ) (req : PolicyPublicKeyRequest) (w : World σ) :
    Except Error Value × World σ :=
  match callStoragePolicy s w req.Repository req.Group req.PolicyName req.Version with
  | (Except.error err, w1) => (Except.error err, w1)
  | (Except.ok pol, w1) =>
    match s.policyExportConfig pol with
    | Except.error err =>
      if err = errExportConfigNotFound then
        (Except.error (errors.New Kind.Forbidden "" (some err)), w1)
      else (Except.error err, w1)
    | Except.ok exportConfig =>
      match callSignerKey s w1 exportConfig.Namespace exportConfig.Key with
      | (Except.error err, w2) => (Except.error err, w2)
      | (Except.ok key, w2) => (Except.ok key, w2)

/-- ImportBundle imports a signed policy bundle; `payload` is what reading the
request body to its end gives. -/
def ImportBundle (s : Service σ) (payload : Except Error Bytes) (w : World σ) :
    Except Error ImportBundleResult × World σ :=
  match payload with
  | Except.error err =>
    (Except.error (errors.New Kind.BadRequest ""
      (some (Error.foreign ("error reading bundle payload: " ++ s.errorString err)))), w)
  | Except.ok archive =>
    match s.unzip archive with
    | Except.error err =>
      (Except.error (errors.New Kind.BadRequest ""
        (some (Error.foreign ("failed to unzip bundle: " ++ s.errorString err)))), w)
    | Except.ok files =>
      match files with
      | [bundleFile, signatureFile] =>
        match callVerifyBundle s w [bundleFile, signatureFile] with
        | (some err, w1) =>
          (Except.error (errors.New Kind.Forbidden "failed to verify bundle" (some err)), w1)
        | (none, w1) =>
          match s.policyFromBundle bundleFile.Content with
          | Except.error err =>
            (Except.error
              (errors.New Kind.Unknown "cannot make policy from bundle" (some err)), w1)
          | Except.ok policy =>
            match callSavePolicy s w1 policy with
            | (some err, w2) =>
              (Except.error
                (errors.New Kind.Unknown "error saving imported policy bundle" (some err)), w2)
            | (none, w2) =>
              (Except.ok
                { repository := policy.Repository, group := policy.Group, name := policy.Name,
                  version := policy.Version, locked := policy.Locked,
                  lastUpdate := policy.LastUpdate }, w2)
      | _ =>
        (Except.error (errors.New Kind.BadRequest "invalid bundle"
          (some (Error.foreign
            ("expected to contain two files, but has: " ++ toString files.length)))), w)

/-- SetPolicyAutoImport enables the automatic import of a policy bundle on a
given time interval: the interval is parsed as a duration (`time.ParseDuration`)
and saved with the URL and the next import, the current time
(`time.Now`) plus the interval. -/
def SetPolicyAutoImport (s : Service σ) (req : SetPolicyAutoImportRequest) (w : World σ) :
    Except Error SetPolicyAutoImportResult × World σ :=
  match s.timeParseDuration req.Interval with
  | Except.error err =>
    (Except.error
      (errors.New Kind.BadRequest ("invalid interval definition: " ++ s.errorString err) none),
     w)
  | Except.ok interval =>
    let now := s.timeNow w.st
    match callSaveAutoImportConfig s { st := now.2, calls := w.calls }
      { PolicyURL := req.PolicyURL, Interval := interval, NextImport := now.1 + interval } with
    | (some err, w1) =>
      (Except.error
        (errors.New Kind.Unknown "error saving auto import configuration" (some err)), w1)
    | (none, w1) =>
      (Except.ok { policyURL := req.PolicyURL, interval := req.Interval }, w1)

/-- The given number of subscribe requests, all the same, one after the
other: their results, first to last, and the world after the last. -/
def subscribeTimes (s : Service σ) (req : SubscribeRequest) :
    Nat → World σ → List (Except Error Subscriber) × World σ
  | 0, w => ([], w)
  | n + 1, w =>
    let first := SubscribeForPolicyChange s req w
    let later := subscribeTimes s req n first.2
    (first.1 :: later.1, later.2)

namespace spec

/-- Modelled from the spec: the metadata document of the inner bundle
(`bundle.go` is not part of the sources), "a `metadata.json` including fields
`{repository, group, name, version, verification_key_url}`". The list is an
open one, and the export configuration, which the spec has the round trip of
export and import preserve while it names no entry of the bundle for it, is
taken to be a field of this document as well. -/
structure Metadata where
  repository : String
  group : String
  name : String
  version : String
  verification_key_url : String
  export_config : String
  deriving DecidableEq, Repr

/-- Modelled from the spec: the metadata of a policy (`bundle.go` is not part
of the sources), with the verification-key URL
`https://<externalHostname>/policy/<repo>/<group>/<name>/<version>/key`. -/
def metadataOf (externalHostname : String) (pol : Policy) : Metadata where
  repository := pol.Repository
  group := pol.Group
  name := pol.Name
  version := pol.Version
  verification_key_url :=
    "https://" ++ externalHostname ++ "/policy/" ++ pol.Repository ++ "/" ++ pol.Group ++ "/" ++
      pol.Name ++ "/" ++ pol.Version ++ "/key"
  export_config := pol.ExportConfig

/-- Modelled from the spec: the files of the inner bundle (`bundle.go` is not
part of the sources), a "ZIP with entries for the rule source (using the
policy's filename), `data.json`, `data-config.json`, and a `metadata.json`";
`toBytes` is the conversion of a text to bytes. -/
def bundleFiles (toBytes : String → Bytes) (pol : Policy) (metadata : Bytes) : List ZipFile :=
  [{ Name := pol.Filename, Content := toBytes pol.Rego },
   { Name := "data.json", Content := toBytes pol.Data },
   { Name := "data-config.json", Content := toBytes pol.DataConfig },
   { Name := "metadata.json", Content := metadata }]

/-- Modelled from the spec: `createPolicyBundle` (`bundle.go` is not part of
the sources): the archive of the files of the inner bundle; `zip` makes an
archive and `marshal` encodes the metadata document. -/
def createPolicyBundle (zip : List ZipFile → Except Error Bytes)
    (marshal : Metadata → Except Error Bytes) (toBytes : String → Bytes)
    (externalHostname : String) (pol : Policy) : Except Error Bytes :=
  match marshal (metadataOf externalHostname pol) with
  | Except.error err => Except.error err
  | Except.ok metadata => zip (bundleFiles toBytes pol metadata)

/-- Modelled from the spec: `policyFromBundle` (`bundle.go` is not part of the
sources), "parse the inner bundle into a Policy value": the files are read in
the order in which `createPolicyBundle` writes them. The spec does not say
what the fields are that the bundle does not carry (output schema, lock,
time of the last update): they are those of `blank`, a parameter; `unzip`
reads an archive, `unmarshal` decodes the metadata document and `toText`
converts bytes to a text. -/
def policyFromBundle (unzip : Bytes → Except Error (List ZipFile))
    (unmarshal : Bytes → Except Error Metadata) (toText : Bytes → String) (blank : Policy)
    (bundle : Bytes) : Except Error Policy :=
  match unzip bundle with
  | Except.error err => Except.error err
  | Except.ok [source, data, dataConfig, metadata] =>
    match unmarshal metadata.Content with
    | Except.error err => Except.error err
    | Except.ok m =>
      Except.ok
        { blank with
          Repository := m.repository, Filename := source.Name, Name := m.name,
          Group := m.group, Version := m.version, Rego := toText source.Content,
          Data := toText data.Content, DataConfig := toText dataConfig.Content,
          ExportConfig := m.export_config }
  | Except.ok _ => Except.error (Error.foreign "invalid policy bundle")

end spec

end BundleOperations

/-! ## Observing the call log -/

/-- Is this a call of `Cache.Set`? -/
def Call.isCacheSet : Call → Bool
  | Call.cacheSet _ _ _ _ _ => true
  | _ => false

/-- Is this a call of `Storage.SetPolicyLock`? -/
def Call.isSetPolicyLock : Call → Bool
  | Call.storageSetPolicyLock _ _ _ _ _ => true
  | _ => false

/-- Is this a run of the rule engine? -/
def Call.isRegoEval : Call → Bool
  | Call.regoEval _ _ => true
  | _ => false

/-- Is this a call of `Storage.Policy`? -/
def Call.isStoragePolicy : Call → Bool
  | Call.storagePolicy _ _ _ _ => true
  | _ => false

/-- Is this a call of the signer? -/
def Call.isSigner : Call → Bool
  | Call.signerKey _ _ => true
  | Call.signerSign _ _ _ => true
  | _ => false

/-- Is this a call of `Storage.CreateSubscriber`? -/
def Call.isCreateSubscriber : Call → Bool
  | Call.storageCreateSubscriber _ => true
  | _ => false

/-- Is this a call of `Storage.SavePolicy`? -/
def Call.isSavePolicy : Call → Bool
  | Call.storageSavePolicy _ => true
  | _ => false

/-- Is this a run of the verification of a bundle? -/
def Call.isVerifyBundle : Call → Bool
  | Call.verifyBundle _ => true
  | _ => false

/-- Is this a call of `Storage.SaveAutoImportConfig`? -/
def Call.isSaveAutoImportConfig : Call → Bool
  | Call.storageSaveAutoImportConfig _ => true
  | _ => false

/-- The calls logged between two worlds of one run. -/
def newCalls {σ : Type} (before after : World σ) : List Call :=
  after.calls.drop before.calls.length

/-- The calls a step adds to the log, none of which reaches the result cache,
the policy lock or the rule engine. -/
def Quiet (l : List Call) : Prop :=
  ∀ c ∈ l, c.isCacheSet = false ∧ c.isSetPolicyLock = false ∧ c.isRegoEval = false

/-! ## An in-memory backend

A concrete backend on which the operations can be run: storage is a list of
policies, the compiled-policy cache and the result cache are association
lists, and UUIDs are drawn from a supply. -/

/-- The state of the in-memory backend. -/
structure Mem where
  policies : List Policy
  compiled : List (String × Policy)
  results : List (String × String × Int)
  uuids : List String
  subscribers : List Subscriber
  autoImports : List PolicyAutoImport
  clock : Int

namespace regocache

/-- Modelled from the spec: the compiled-policy cache (`regocache.go` is not
part of the sources), "a mapping from fingerprint string to a Policy
snapshot". `Get(key)` returns the snapshot and whether it was found. -/
def Get (m : List (String × Policy)) (key : String) : Option Policy :=
  (m.find? (fun kv => kv.1 == key)).map Prod.snd

/-- Modelled from the spec: `Set(key, policy)` maps the key to the policy,
replacing an earlier entry. -/
def Set (m : List (String × Policy)) (key : String) (p : Policy) : List (String × Policy) :=
  (key, p) :: m.filter (fun kv => kv.1 != key)

/-- Modelled from the spec: "Purge atomically empties the map". -/
def Purge (_m : List (String × Policy)) : List (String × Policy) := []

/-- Modelled from the spec: `PolicyDataChange(ctx, repo, group, name, version)`
of the compiled-policy cache (`regocache.go` is not part of the sources),
which "always purges and returns nil in current design; parameters are
informational". It returns its error and the map it leaves. -/
def PolicyDataChange (m : List (String × Policy)) (_repository _group _name _version : String) :
    Option Error × List (String × Policy) :=
  (none, Purge m)

end regocache

namespace Mem

/-- The stored policy with the given coordinates. -/
def find (st : Mem) (repository group name version : String) : Option Policy :=
  st.policies.find? (fun p =>
    p.Repository == repository && p.Group == group && p.Name == name && p.Version == version)

/-- Does the policy have other coordinates than the given ones? -/
def differs (repository group name version : String) (p : Policy) : Bool :=
  !(p.Repository == repository && p.Group == group && p.Name == name && p.Version == version)

/-- In-memory `Storage.Policy`: a missing policy is a `NotFound` error. -/
def policy (st : Mem) (repository group name version : String) : Except Error Policy × Mem :=
  match st.find repository group name version with
  | some p => (Except.ok p, st)
  | none => (Except.error (errors.New Kind.NotFound "policy not found" none), st)

/-- In-memory `Storage.SetPolicyLock`. -/
def setPolicyLock (st : Mem) (repository group name version : String) (lock : Bool) :
    Option Error × Mem :=
  match st.find repository group name version with
  | some p =>
    (none, { st with policies := { p with Locked := lock } ::
      st.policies.filter (differs repository group name version) })
  | none => (some (errors.New Kind.NotFound "policy not found" none), st)

/-- In-memory `Storage.SavePolicy`: insert or replace by coordinates. -/
def savePolicy (st : Mem) (p : Policy) : Option Error × Mem :=
  (none, { st with policies := p ::
    st.policies.filter (differs p.Repository p.Group p.Name p.Version) })

/-- In-memory `Cache.Set`. -/
def cacheSet (st : Mem) (key _ns _scope value : String) (ttl : Int) : Option Error × Mem :=
  (none, { st with results := (key, value, ttl) :: st.results })

/-- The next UUID of the supply. -/
def uuid (st : Mem) : String × Mem :=
  match st.uuids with
  | id :: rest => (id, { st with uuids := rest })
  | [] => ("00000000-0000-0000-0000-000000000000", st)

/-- The rule text among the engine options. -/
def moduleOf : List RegoArg → String
  | RegoArg.Module _ input :: _ => input
  | _ :: rest => moduleOf rest
  | [] => ""

/-- The static data among the engine options. -/
def storeOf : List RegoArg → Value
  | RegoArg.Store data :: _ => data
  | _ :: rest => storeOf rest
  | [] => Value.null

/-- A stand-in rule engine: the rule text names the single variable of the
result, which is bound to the input, or to the static data when there is no
input. -/
def eval (st : Mem) (query : List RegoArg) (input : Option Value) : Except Error ResultSet × Mem :=
  match input with
  | some v => (Except.ok [[Value.object [(moduleOf query, v)]]], st)
  | none => (Except.ok [[Value.object [(moduleOf query, storeOf query)]]], st)

/-- A stand-in JSON encoder for scalars; containers are encoded by their
brackets only. -/
def marshal : Value → Except Error String
  | Value.null => Except.ok "null"
  | Value.bool true => Except.ok "true"
  | Value.bool false => Except.ok "false"
  | Value.number literal => Except.ok literal
  | Value.string s => Except.ok ("\"" ++ s ++ "\"")
  | Value.array _ => Except.ok "[]"
  | Value.object _ => Except.ok "\x7b\x7d"

/-- A stand-in JSON decoder for static data: an object holding the text. -/
def unmarshalObject (data : String) : Except Error Value :=
  Except.ok (Value.object [("text", Value.string data)])

/-- Does the list of characters start with the given characters? -/
def startsWith : List Char → List Char → Bool
  | [], _ => true
  | _ :: _, [] => false
  | a :: as, b :: bs => a == b && startsWith as bs

/-- Do the given characters occur in the list of characters, in a row? -/
def occursIn (part : List Char) : List Char → Bool
  | [] => part.isEmpty
  | c :: cs => startsWith part (c :: cs) || occursIn part cs

/-- In-memory `Storage.GetPolicies`: the stored policies with the given lock
state, if one is given, whose name contains the given text, if one is
given. -/
def getPolicies (st : Mem) (locked : Option Bool) (policyName : Option String) :
    Except Error (List Policy) × Mem :=
  (Except.ok (st.policies.filter fun p =>
    (match locked with
      | some l => p.Locked == l
      | none => true) &&
    (match policyName with
      | some n => occursIn n.data p.Name.data
      | none => true)), st)

/-- Is the subscriber the one of the given subscription? -/
def sameSubscription (repository group name version webhook subscriber : String)
    (x : Subscriber) : Bool :=
  x.PolicyRepository == repository && x.PolicyGroup == group && x.PolicyName == name &&
    x.PolicyVersion == version && x.WebhookURL == webhook && x.Name == subscriber

/-- In-memory `Storage.Subscriber`: the recorded subscriber of the given
subscription, or a `NotFound` error. -/
def subscriber (st : Mem) (repository group name version webhook subscriber : String) :
    (Option Subscriber × Option Error) × Mem :=
  match st.subscribers.find? (sameSubscription repository group name version webhook subscriber)
  with
  | some x => ((some x, none), st)
  | none => ((none, some (errors.New Kind.NotFound "subscriber not found" none)), st)

/-- In-memory `Storage.CreateSubscriber`: the subscriber is recorded. -/
def createSubscriber (st : Mem) (sub : Subscriber) : Except Error Subscriber × Mem :=
  (Except.ok sub, { st with subscribers := st.subscribers ++ [sub] })

/-- A stand-in conversion of a text to bytes: each character is the three
bytes of its number. -/
def bytes (text : String) : Bytes :=
  text.data.foldr (fun c acc =>
    UInt8.ofNat (c.toNat / 65536) :: UInt8.ofNat (c.toNat / 256 % 256) ::
      UInt8.ofNat (c.toNat % 256) :: acc) []

/-- The characters that groups of three bytes stand for. -/
def chars : Bytes → List Char
  | a :: b :: c :: rest => Char.ofNat (a.toNat * 65536 + b.toNat * 256 + c.toNat) :: chars rest
  | _ => []

/-- The stand-in conversion of bytes to a text. -/
def text (b : Bytes) : String :=
  String.mk (chars b)

/-- Bytes written so that their end can be found: each byte follows a one, and
a zero ends them. -/
def frame : Bytes → Bytes
  | [] => [0]
  | b :: rest => 1 :: b :: frame rest

/-- The bytes that were framed and the bytes after them. -/
def unframe : Bytes → Option (Bytes × Bytes)
  | [] => none
  | [t] => if t = 0 then some ([], []) else none
  | t :: b :: rest =>
    if t = 0 then some ([], b :: rest)
    else
      match unframe rest with
      | some r => some (b :: r.1, r.2)
      | none => none

/-- A stand-in archive format: each file follows a one and is its framed name
and its framed content, and a zero ends the archive. -/
def zipEntries : List ZipFile → Bytes
  | [] => [0]
  | f :: rest => 1 :: (frame (bytes f.Name) ++ (frame f.Content ++ zipEntries rest))

/-- The files of a stand-in archive, read with the given number of steps. -/
def unzipEntries : Nat → Bytes → Except Error (List ZipFile)
  | 0, _ => Except.error (Error.foreign "zip: not a valid zip file")
  | _ + 1, [] => Except.error (Error.foreign "zip: not a valid zip file")
  | fuel + 1, t :: rest =>
    if t = 0 then
      (if rest = [] then Except.ok [] else Except.error (Error.foreign "zip: not a valid zip file"))
    else
      match unframe rest with
      | none => Except.error (Error.foreign "zip: not a valid zip file")
      | some (name, rest1) =>
        match unframe rest1 with
        | none => Except.error (Error.foreign "zip: not a valid zip file")
        | some (content, rest2) =>
          match unzipEntries fuel rest2 with
          | Except.error e => Except.error e
          | Except.ok files => Except.ok ({ Name := text name, Content := content } :: files)

/-- The stand-in `createZipArchive`. -/
def zip (files : List ZipFile) : Except Error Bytes :=
  Except.ok (zipEntries files)

/-- The stand-in `unzip`. -/
def unzip (archive : Bytes) : Except Error (List ZipFile) :=
  unzipEntries archive.length archive

/-- A stand-in encoding of the metadata document: the archive of its
fields. -/
def marshalMetadata (m : spec.Metadata) : Except Error Bytes :=
  zip [{ Name := "repository", Content := bytes m.repository },
       { Name := "group", Content := bytes m.group },
       { Name := "name", Content := bytes m.name },
       { Name := "version", Content := bytes m.version },
       { Name := "verification_key_url", Content := bytes m.verification_key_url },
       { Name := "export_config", Content := bytes m.export_config }]

/-- The stand-in decoding of the metadata document. -/
def unmarshalMetadata (b : Bytes) : Except Error spec.Metadata :=
  match unzip b with
  | Except.error e => Except.error e
  | Except.ok [repository, group, name, version, url, exportConfig] =>
    Except.ok
      { repository := text repository.Content, group := text group.Content,
        name := text name.Content, version := text version.Content,
        verification_key_url := text url.Content,
        export_config := text exportConfig.Content }
  | Except.ok _ => Except.error (Error.foreign "invalid metadata")

/-- The signature of the stand-in signer, the bytes of `signature`. -/
def signature : Bytes := bytes "signature"

/-- A stand-in `policyExportConfig`: no configuration is the error
`errExportConfigNotFound`, the text `invalid` does not parse, and every other
text names a key in the namespace `transit`. -/
def exportConfig (p : Policy) : Except Error ExportConfig :=
  if p.ExportConfig = "" then Except.error errExportConfigNotFound
  else if p.ExportConfig = "invalid" then
    Except.error (errors.New Kind.Unknown "cannot unmarshal policy export configuration" none)
  else Except.ok { Namespace := "transit", Key := p.ExportConfig }

/-- A stand-in `verifyBundle`: the second file must hold the signature of the
stand-in signer. -/
def verify (st : Mem) (files : List ZipFile) : Option Error × Mem :=
  match files with
  | [_, sig] => if sig.Content = signature then (none, st)
    else (some (Error.foreign "invalid signature"), st)
  | _ => (some (Error.foreign "invalid number of files in bundle"), st)

/-- The length of a unit of duration in nanoseconds (`unitMap` of the
library). -/
def unitOf (u : String) : Option Nat :=
  if u = "ns" then some 1
  else if u = "us" ∨ u = "µs" ∨ u = "μs" then some 1000
  else if u = "ms" then some 1000000
  else if u = "s" then some 1000000000
  else if u = "m" then some 60000000000
  else if u = "h" then some 3600000000000
  else none

/-- The text in double quotes, a double quote and a backslash in it
escaped. -/
def quote (t : String) : String :=
  String.mk (Char.ofNat 34 ::
    t.data.foldr (fun c acc =>
      if c = Char.ofNat 34 ∨ c = Char.ofNat 92 then Char.ofNat 92 :: c :: acc else c :: acc)
      [Char.ofNat 34])

/-- The leading digits as a number, continued from `x`, and the rest; nothing
when the number exceeds `2 ^ 63` (`leadingInt` of the library). -/
def leadingInt : List Char → Nat → Option (Nat × List Char)
  | [], x => some (x, [])
  | c :: rest, x =>
    if c.isDigit then
      if x > 2 ^ 63 / 10 then none
      else
        let y := x * 10 + (c.toNat - 48)
        if y > 2 ^ 63 then none else leadingInt rest y
    else some (x, c :: rest)

/-- The leading digits as the numerator of a fraction and its denominator,
continued from `x` and `scale`, and the rest; digits beyond the precision are
skipped (`leadingFraction` of the library). -/
def leadingFraction : List Char → Nat → Nat → Bool → Nat × Nat × List Char
  | [], x, scale, _ => (x, scale, [])
  | c :: rest, x, scale, overflow =>
    if c.isDigit then
      if overflow then leadingFraction rest x scale true
      else if x > (2 ^ 63 - 1) / 10 then leadingFraction rest x scale true
      else
        let y := x * 10 + (c.toNat - 48)
        if y > 2 ^ 63 then leadingFraction rest x scale true
        else leadingFraction rest y (scale * 10) false
    else (x, scale, c :: rest)

/-- Why a text is no duration. -/
inductive DurationError
  | invalid
  | missingUnit
  | unknownUnit (u : String)
  deriving DecidableEq, Repr

/-- Does a unit end at this character, a digit or a period? -/
def endsUnit (c : Char) : Bool :=
  c = '.' || c.isDigit

/-- The groups of a duration, each a number with a unit, added up in
nanoseconds from `d`; the number of steps bounds the number of groups. -/
def parseGroups : Nat → List Char → Nat → Except DurationError Nat
  | 0, _, _ => Except.error DurationError.invalid
  | _ + 1, [], d => Except.ok d
  | fuel + 1, c :: rest, d =>
    if !endsUnit c then Except.error DurationError.invalid
    else
      match leadingInt (c :: rest) 0 with
      | none => Except.error DurationError.invalid
      | some (v, s1) =>
        let pre := decide (s1.length ≠ (c :: rest).length)
        let fraction : Nat × Nat × List Char × Bool :=
          match s1 with
          | p :: s2 =>
            if p = '.' then
              let r := leadingFraction s2 0 1 false
              (r.1, r.2.1, r.2.2, decide (r.2.2.length ≠ s2.length))
            else (0, 1, s1, false)
          | [] => (0, 1, s1, false)
        let f := fraction.1
        let scale := fraction.2.1
        let s3 := fraction.2.2.1
        let post := fraction.2.2.2
        if !pre && !post then Except.error DurationError.invalid
        else
          let u := s3.takeWhile (fun x => !endsUnit x)
          if u = [] then Except.error DurationError.missingUnit
          else
            match unitOf (String.mk u) with
            | none => Except.error (DurationError.unknownUnit (String.mk u))
            | some unit =>
              if v > 2 ^ 63 / unit then Except.error DurationError.invalid
              else
                let v1 := if f > 0 then v * unit + f * unit / scale else v * unit
                if v1 > 2 ^ 63 then Except.error DurationError.invalid
                else
                  let d1 := (d + v1) % 2 ^ 64
                  if d1 > 2 ^ 63 then Except.error DurationError.invalid
                  else parseGroups fuel (s3.drop u.length) d1

/-- The text of the error of the duration parser. -/
def durationErrorText (orig : String) : DurationError → String
  | DurationError.invalid => "time: invalid duration " ++ quote orig
  | DurationError.missingUnit => "time: missing unit in duration " ++ quote orig
  | DurationError.unknownUnit u =>
    "time: unknown unit " ++ quote u ++ " in duration " ++ quote orig

/-- A stand-in for `time.ParseDuration`, which follows the library: an
optional sign, then `0` alone or a sequence of decimal numbers, each with an
optional fraction and a unit; the value is in nanoseconds. The part a
fraction adds is computed in whole numbers where the library computes it in
floating point. -/
def parseDuration (orig : String) : Except Error Int :=
  let signed : Bool × List Char :=
    match orig.data with
    | c :: rest => if c = '-' ∨ c = '+' then (decide (c = '-'), rest) else (false, c :: rest)
    | [] => (false, [])
  let neg := signed.1
  let s := signed.2
  if s = ['0'] then Except.ok 0
  else if s = [] then
    Except.error (Error.foreign (durationErrorText orig DurationError.invalid))
  else
    match parseGroups (s.length + 1) s 0 with
    | Except.error e => Except.error (Error.foreign (durationErrorText orig e))
    | Except.ok d =>
      if neg then Except.ok (-(d : Int))
      else if d > 2 ^ 63 - 1 then
        Except.error (Error.foreign (durationErrorText orig DurationError.invalid))
      else Except.ok (d : Int)

/-- In-memory `time.Now`: the clock of the backend. -/
def now (st : Mem) : Int × Mem :=
  (st.clock, st)

/-- In-memory `Storage.SaveAutoImportConfig`: the configuration is
recorded. -/
def saveAutoImportConfig (st : Mem) (importConfig : PolicyAutoImport) : Option Error × Mem :=
  (none, { st with autoImports := st.autoImports ++ [importConfig] })

/-- A stand-in `Error()`: the messages of the error, joined. -/
def errorText (e : Error) : String :=
  ": ".intercalate e.messages

end Mem

/-- The zero value of a policy record. -/
def zeroPolicy : Policy where
  Repository := ""
  Filename := ""
  Name := ""
  Group := ""
  Version := ""
  Rego := ""
  Data := ""
  DataConfig := ""
  ExportConfig := ""
  OutputSchema := ""
  Locked := false
  LastUpdate := zeroTime

/-- The service over the in-memory backend. -/
def memService : Service Mem where
  storagePolicy := Mem.policy
  storageSetPolicyLock := Mem.setPolicyLock
  storageSavePolicy := Mem.savePolicy
  policyCacheGet := fun st key => (regocache.Get st.compiled key, st)
  policyCacheSet := fun st key p => { st with compiled := regocache.Set st.compiled key p }
  cacheSet := Mem.cacheSet
  uuidNewString := Mem.uuid
  regofuncList := []
  jsonUnmarshalObject := Mem.unmarshalObject
  jsonMarshal := Mem.marshal
  regoPrepareForEval := fun _ => none
  regoEval := Mem.eval
  jsonschemaCompileString := fun _ => none
  jsonschemaValidate := fun _ _ => none
  validationLock := false
  externalHostname := "hostname.com"
  storageGetPolicies := Mem.getPolicies
  storageSubscriber := Mem.subscriber
  storageCreateSubscriber := Mem.createSubscriber
  signerKey := fun st _ _ =>
    (Except.ok (Value.object [("key", Value.string "ed25519")]), st)
  signerSign := fun st _ _ _ => (Except.ok Mem.signature, st)
  policyExportConfig := Mem.exportConfig
  createPolicyBundle :=
    spec.createPolicyBundle Mem.zip Mem.marshalMetadata Mem.bytes "hostname.com"
  createZipArchive := Mem.zip
  unzip := Mem.unzip
  verifyBundle := Mem.verify
  policyFromBundle :=
    spec.policyFromBundle Mem.unzip Mem.unmarshalMetadata Mem.text zeroPolicy
  sha256Sum256 := fun b => ⟨List.replicate 32 (UInt8.ofNat b.length), by simp⟩
  errorString := Mem.errorText
  timeParseDuration := Mem.parseDuration
  timeNow := Mem.now
  storageSaveAutoImportConfig := Mem.saveAutoImportConfig

/-- The policy of the tests, with the rule text of the stand-in engine. -/
def testPolicy : Policy where
  Repository := "policies"
  Filename := "policy.rego"
  Name := "example"
  Group := "testgroup"
  Version := "1.0"
  Rego := "allow"
  Data := ""
  DataConfig := ""
  ExportConfig := ""
  OutputSchema := ""
  Locked := false
  LastUpdate := 0

/-- The request of the tests. -/
def testReq : EvaluateRequest where
  Repository := "policies"
  Group := "testgroup"
  PolicyName := "example"
  Version := "1.0"
  Input := some (Value.string "yes")
  TTL := some 30
  EvaluationID := none

/-- An in-memory backend holding the given policies and nothing else. -/
def memWith (ps : List Policy) : World Mem :=
  { st := { policies := ps, compiled := [], results := [], uuids := ["id-1", "id-2"],
            subscribers := [], autoImports := [], clock := 1700000000000000000 },
    calls := [] }


/-- The in-memory service with a storage whose `Policy` fails with an error
of no particular kind, as in the tests. -/
def storageDownService : Service Mem :=
  { memService with
    storagePolicy := fun st _ _ _ _ => (Except.error (errors.New Kind.Unknown "some error" none), st) }

/-- The in-memory service with a storage whose `SetPolicyLock` fails with an
`Internal` error, as in the tests. -/
def lockFailsService : Service Mem :=
  { memService with
    storageSetPolicyLock := fun st _ _ _ _ _ =>
      (some (errors.New Kind.Internal "error setting policy lock" none), st) }

/-- The lock request for the policy of the tests. -/
def testLockReq : LockRequest where
  Repository := "policies"
  Group := "testgroup"
  PolicyName := "example"
  Version := "1.0"

/-- The unlock request for the policy of the tests. -/
def testUnlockReq : UnlockRequest where
  Repository := "policies"
  Group := "testgroup"
  PolicyName := "example"
  Version := "1.0"

/-- The policy of the tests, locked. -/
def lockedPolicy : Policy := { testPolicy with Locked := true }

/-- The policy of the tests written as a blank assignment: the variable of
its result is `$0`. -/
def blankPolicy : Policy := { testPolicy with Rego := "$0" }

/-- The request of the tests carrying its own evaluation ID. -/
def testReqWithID : EvaluateRequest := { testReq with EvaluationID := some "my-evaluation" }

/-- The same service with a result cache that reports success where the
given one may fail. -/
def workingCache {σ : Type} (s : Service σ) : Service σ :=
  { s with cacheSet := fun st key ns scope value ttl => (none, (s.cacheSet st key ns scope value ttl).2) }

/-- The in-memory service with a result cache that is not available. -/
def cacheUnavailableService : Service Mem :=
  { memService with
    cacheSet := fun st _ _ _ _ _ =>
      (some (errors.New Kind.ServiceUnavailable "cache is not available" none), st) }

/-- The in-memory service with a result cache that fails with an error of
no particular kind, as in the tests. -/
def cacheBrokenService : Service Mem :=
  { memService with
    cacheSet := fun st _ _ _ _ _ => (some (errors.New Kind.Unknown "some error" none), st) }

/-- The policy of the tests with a new rule text. -/
def newPolicy : Policy := { testPolicy with Rego := "deny" }

/-- The in-memory backend after the policy of the tests was evaluated once,
which cached it, and the policy with the new rule text was then saved. -/
def afterSave : World Mem :=
  (callSavePolicy memService (Evaluate memService [] testReq (memWith [testPolicy])).2 newPolicy).2

/-- The same backend after the compiled-policy cache has been purged. -/
def purgedAfterSave : World Mem :=
  { afterSave with st := { afterSave.st with compiled := regocache.Purge afterSave.st.compiled } }

/-- The same service with the configuration option `validationLock` set as
given. -/
def withValidationLock {σ : Type} (s : Service σ) (b : Bool) : Service σ :=
  { s with validationLock := b }

/-- The in-memory service with a schema validator that rejects every
result. -/
def schemaViolationService : Service Mem :=
  { memService with
    jsonschemaValidate := fun _ _ => some (Error.foreign "missing properties: foo") }

/-- The policy of the tests with an output schema. -/
def schemaPolicy : Policy := { testPolicy with OutputSchema := "schema" }

/-- The policy of the export tests. -/
def exportPolicy : Policy :=
  { testPolicy with
    Repository := "myrepo", Group := "mygroup", Name := "myname", Version := "1.52",
    Rego := "package test", ExportConfig := "key1" }

/-- The export request for the policy of the export tests. -/
def exportReq : ExportBundleRequest where
  Repository := "myrepo"
  Group := "mygroup"
  PolicyName := "myname"
  Version := "1.52"

/-- The public-key request for the policy of the export tests. -/
def keyReq : PolicyPublicKeyRequest where
  Repository := "myrepo"
  Group := "mygroup"
  PolicyName := "myname"
  Version := "1.52"

/-- The policy of the export tests without export configuration. -/
def unexportablePolicy : Policy := { exportPolicy with ExportConfig := "" }

/-- A request to list policies with their rule text, and explicitly without
their data configuration. -/
def listReq : PoliciesRequest where
  Locked := none
  PolicyName := none
  Rego := some true
  Data := none
  DataConfig := some false

/-- The description ExportBundle returns for the policy of the export tests on
the in-memory backend. -/
def exportedResult : ExportBundleResult :=
  match (ExportBundle memService exportReq (memWith [exportPolicy])).1 with
  | Except.ok r => r.1
  | Except.error _ => { ContentType := "", ContentLength := 0, ContentDisposition := "" }

/-- The archive ExportBundle returns for the policy of the export tests on the
in-memory backend. -/
def exportedArchive : Bytes :=
  match (ExportBundle memService exportReq (memWith [exportPolicy])).1 with
  | Except.ok r => r.2
  | Except.error _ => []

/-- The inner bundle of the policy of the export tests on the in-memory
backend. -/
def exportedBundle : Bytes :=
  match memService.createPolicyBundle exportPolicy with
  | Except.ok bundle => bundle
  | Except.error _ => []

/-- The in-memory service with a signer whose `Sign` fails, as in the
tests. -/
def signFailsService : Service Mem :=
  { memService with
    signerSign := fun st _ _ _ => (Except.error (Error.foreign "error signing data"), st) }

/-- The policy of the export tests in a repository whose name begins with a
blank. -/
def spacedPolicy : Policy := { exportPolicy with Repository := " myrepo" }

/-- The export request for the policy in the repository whose name begins
with a blank. -/
def spacedReq : ExportBundleRequest := { exportReq with Repository := " myrepo" }

/-- The subscriber a subscribe request asks to record. -/
def subscriberOf (req : SubscribeRequest) : Subscriber where
  Name := req.Subscriber
  WebhookURL := req.WebhookURL
  PolicyRepository := req.Repository
  PolicyName := req.PolicyName
  PolicyGroup := req.Group
  PolicyVersion := req.Version
  CreatedAt := zeroTime
  UpdatedAt := zeroTime

/-- The error of a subscribe request whose subscriber is recorded already. -/
def subscriberExists : Error := Error.leaf Kind.Exist "subscriber already exist"

/-- The subscribe request of the tests, for the policy of the tests. -/
def testSubscribeReq : SubscribeRequest where
  WebhookURL := "http://some.url/example"
  Subscriber := "Subscriber Name"
  Repository := "policies"
  PolicyName := "example"
  Group := "testgroup"
  Version := "1.0"

/-- The in-memory service with a storage that reports a subscriber for every
subscription, as in the tests. -/
def subscriberFoundService : Service Mem :=
  { memService with
    storageSubscriber := fun st _ _ _ _ _ _ =>
      ((some { subscriberOf testSubscribeReq with Name := "subscriber" }, none), st) }

/-- The policy that the import of the exported archive saves on the in-memory
backend. -/
def importedPolicy : Policy where
  Repository := "myrepo"
  Filename := "policy.rego"
  Name := "myname"
  Group := "mygroup"
  Version := "1.52"
  Rego := "package test"
  Data := ""
  DataConfig := ""
  ExportConfig := "key1"
  OutputSchema := ""
  Locked := false
  LastUpdate := zeroTime

/-- The encoded metadata of the policy of the export tests on the in-memory
backend. -/
def exportedMetadata : Bytes :=
  match Mem.marshalMetadata (spec.metadataOf "hostname.com" exportPolicy) with
  | Except.ok metadata => metadata
  | Except.error _ => []

/-- The world of the in-memory backend after the import of the exported
archive into an empty storage. -/
def afterImport : World Mem :=
  { st := { (memWith []).st with policies := [importedPolicy] },
    calls := [Call.verifyBundle
                [{ Name := BundleFilename, Content := exportedBundle },
                 { Name := BundleSignatureFilename, Content := Mem.signature }],
              Call.storageSavePolicy importedPolicy] }

/-- Is this a call of `RegoCache.Set`? -/
def Call.isPolicyCacheSet : Call → Bool
  | Call.policyCacheSet _ _ => true
  | _ => false

/-- The signature of the stand-in signer with the lowest bit of its last byte
flipped: the bytes of `signaturd`. -/
def tamperedSignature : Bytes := Mem.bytes "signaturd"

/-- The files of a signed bundle whose signature was tampered with. -/
def tamperedFiles : List ZipFile :=
  [{ Name := BundleFilename, Content := [80, 75, 5, 6] },
   { Name := BundleSignatureFilename, Content := tamperedSignature }]

/-- The archive of the files of the tampered bundle. -/
def tamperedArchive : Bytes := Mem.zipEntries tamperedFiles

/-- The in-memory service with a schema compiler that rejects every
schema. -/
def invalidSchemaService : Service Mem :=
  { memService with
    jsonschemaCompileString := fun _ => some (Error.foreign "jsonschema: invalid json") }

/-- The policy of the tests with an output schema that is no JSON schema, as in
the tests. -/
def invalidSchemaPolicy : Policy := { testPolicy with OutputSchema := "invalid JSON schema" }

/-- The in-memory backend in which the policy of the tests is locked in
storage while the compiled-policy cache still holds its unlocked snapshot. -/
def staleUnlocked : World Mem :=
  { st := { (memWith [lockedPolicy]).st with
            compiled := [(queryCacheKey "policies" "testgroup" "example" "1.0", testPolicy)] },
    calls := [] }

namespace header

/-- Modelled from the spec: an inbound HTTP request as the header middleware
reads it (the package `header` is not part of the sources, only its test is):
its headers, each name with its values, and its host. -/
structure Request where
  Header : List (String × List String)
  Host : String
  deriving DecidableEq, Repr

/-- Modelled from the spec: the request context, which carries the header map
once the middleware has attached it. -/
structure Context where
  headers : Option Headers
  deriving DecidableEq, Repr

/-- Modelled from the spec: the first value of each header name; a name
without values reads as the empty text. -/
def firstValues : List (String × List String) → Headers
  | [] => []
  | (name, values) :: rest => (name, values.headD "") :: firstValues rest

/-- Modelled from the spec: the assignment `headers[key] = value` on the
header map. -/
def setHeader (m : Headers) (key value : String) : Headers :=
  (key, value) :: m.filter (fun kv => kv.1 != key)

/-- Modelled from the spec: "Inbound HTTP headers are attached to the request
context at the boundary as a `map[string]string` (first value per header
name, with `Host` synthesized from the request)". -/
def ToContext (r : Request) : Context :=
  { headers := some (setHeader (firstValues r.Header) "Host" r.Host) }

/-- Modelled from the spec: `FromContext` gives the header map of a context
and whether the context carries one. -/
def FromContext (ctx : Context) : Headers × Bool :=
  match ctx.headers with
  | some m => (m, true)
  | none => ([], false)

/-- Modelled from the spec: the middleware hands the request to the next
handler with the headers attached to its context; `next` is what the handler
computes from that context. -/
def Middleware {α : Type} (next : Context → α) (r : Request) : α :=
  next (ToContext r)

end header

/-- The request of the middleware test: `Authorization: my-token` on the host
`example.com`. -/
def testHTTPRequest : header.Request where
  Header := [("Authorization", ["my-token"])]
  Host := "example.com"

/-- The request of the tests to import a bundle automatically, with the given
interval. -/
def autoImportReq (interval : String) : SetPolicyAutoImportRequest where
  PolicyURL := "http://example.com"
  Interval := interval

/-- The in-memory service with a storage whose `SaveAutoImportConfig` fails,
as in the tests. -/
def saveConfigFailsService : Service Mem :=
  { memService with
    storageSaveAutoImportConfig := fun st _ => (some (Error.foreign "some error"), st) }

/-- The in-memory backend after the policy of the tests was evaluated once,
which cached it, and was then locked by Lock. -/
def afterLock : World Mem :=
  (Lock memService testLockReq (Evaluate memService [] testReq (memWith [testPolicy])).2).2

/-- The in-memory backend in which the policy of the tests, with an output
schema, is locked in storage while the compiled-policy cache still holds its
unlocked snapshot. -/
def staleUnlockedSchema : World Mem :=
  { st := { (memWith [{ schemaPolicy with Locked := true }]).st with
            compiled := [(queryCacheKey "policies" "testgroup" "example" "1.0", schemaPolicy)] },
    calls := [] }

/-! ## Facts about the error library model -/

/-- Wrapping without naming a kind keeps, for every kind, whether the error
is of that kind. -/
theorem errors.Is_New_unknown (k : Kind) (msg : String) (e : Error) :
    errors.Is k (errors.New Kind.Unknown msg (some e)) = errors.Is k e := by
  cases e with
  | foreign t => simp [errors.New, errors.Is]
  | leaf k0 m =>
    by_cases h : k0 = Kind.Unknown <;> simp [errors.New, errors.Is, Error.kind, Error.clearKind, h]
  | wrap k0 m e0 =>
    by_cases h : k0 = Kind.Unknown <;> simp [errors.New, errors.Is, Error.kind, Error.clearKind, h]

/-- Wrapping without naming a kind keeps the `Kind` field. -/
theorem errors.kind_New_unknown (msg : String) (e : Error) :
    (errors.New Kind.Unknown msg (some e)).kind = e.kind := by
  cases e <;> simp [errors.New, Error.kind]

/-- Wrapping puts the new message in front of the chain of messages. -/
theorem errors.messages_New (k : Kind) (msg : String) (e : Error) :
    (errors.New k msg (some e)).messages = msg :: e.messages := by
  cases e with
  | foreign t => simp [errors.New, Error.messages]
  | leaf k0 m =>
    by_cases h : k = Kind.Unknown <;> simp [errors.New, Error.messages, Error.clearKind, h]
  | wrap k0 m e0 =>
    by_cases h : k = Kind.Unknown <;> simp [errors.New, Error.messages, Error.clearKind, h]

/-- An error whose `Kind` field is set is of exactly that kind. -/
theorem errors.Is_of_kind (k : Kind) (e : Error) (h : e.kind = k) (hk : k ≠ Kind.Unknown) :
    errors.Is k e = true := by
  cases e <;> simp_all [Error.kind, errors.Is]

/-! ## Lock and Unlock -/

section LockUnlock

variable {σ : Type}

/-- C8: the case table of Lock. -/
theorem Lock_case_table (s : Service σ) (req : LockRequest) (w : World σ) :
    (∀ e st1,
      s.storagePolicy w.st req.Repository req.Group req.PolicyName req.Version
        = (Except.error e, st1) →
      errors.Is Kind.NotFound e = true →
      (Lock s req w).1 = some e ∧
      newCalls w (Lock s req w).2
        = [Call.storagePolicy req.Repository req.Group req.PolicyName req.Version]) ∧
    (∀ e st1,
      s.storagePolicy w.st req.Repository req.Group req.PolicyName req.Version
        = (Except.error e, st1) →
      errors.Is Kind.NotFound e = false →
      (Lock s req w).1 = some (errors.New Kind.Unknown "error locking policy" (some e)) ∧
      newCalls w (Lock s req w).2
        = [Call.storagePolicy req.Repository req.Group req.PolicyName req.Version]) ∧
    (∀ p st1,
      s.storagePolicy w.st req.Repository req.Group req.PolicyName req.Version
        = (Except.ok p, st1) →
      p.Locked = true →
      (Lock s req w).1 = some (Error.leaf Kind.Forbidden "policy is already locked") ∧
      newCalls w (Lock s req w).2
        = [Call.storagePolicy req.Repository req.Group req.PolicyName req.Version]) ∧
    (∀ p st1,
      s.storagePolicy w.st req.Repository req.Group req.PolicyName req.Version
        = (Except.ok p, st1) →
      p.Locked = false →
      newCalls w (Lock s req w).2
        = [Call.storagePolicy req.Repository req.Group req.PolicyName req.Version,
           Call.storageSetPolicyLock p.Repository p.Group p.Name p.Version true] ∧
      ((Lock s req w).1 = none ↔
        (s.storageSetPolicyLock st1 p.Repository p.Group p.Name p.Version true).1 = none) ∧
      (∀ e, (s.storageSetPolicyLock st1 p.Repository p.Group p.Name p.Version true).1 = some e →
        (Lock s req w).1 = some (errors.New Kind.Unknown "error locking policy" (some e)) ∧
        (errors.New Kind.Unknown "error locking policy" (some e)).kind = e.kind ∧
        ∀ k, errors.Is k (errors.New Kind.Unknown "error locking policy" (some e))
          = errors.Is k e)) := by
  refine ⟨?_, ?_, ?_, ?_⟩
  · intro e st1 h hnf
    simp [Lock, callStoragePolicy, h, hnf, newCalls]
  · intro e st1 h hnf
    simp [Lock, callStoragePolicy, h, hnf, newCalls]
  · intro p st1 h hl
    simp [Lock, lock, callStoragePolicy, h, hl, newCalls, errors.New]
  · intro p st1 h hl
    rcases hset : s.storageSetPolicyLock st1 p.Repository p.Group p.Name p.Version true
      with ⟨r, st2⟩
    cases r with
    | none =>
      simp [Lock, lock, callStoragePolicy, callSetPolicyLock, h, hl, hset, newCalls]
    | some e0 =>
      simp [Lock, lock, callStoragePolicy, callSetPolicyLock, h, hl, hset, newCalls,
        errors.kind_New_unknown, errors.Is_New_unknown]

/-- The case table of Lock at four runs: no such policy, storage down, policy
already locked, and an unlocked policy with a failing `SetPolicyLock`. -/
theorem Lock_case_table_witness :
    ((Lock memService testLockReq (memWith [])).1
        = some (Error.leaf Kind.NotFound "policy not found") ∧
      newCalls (memWith []) (Lock memService testLockReq (memWith [])).2
        = [Call.storagePolicy "policies" "testgroup" "example" "1.0"]) ∧
    ((Lock storageDownService testLockReq (memWith [])).1
        = some (Error.wrap Kind.Unknown "error locking policy"
            (Error.leaf Kind.Unknown "some error")) ∧
      newCalls (memWith []) (Lock storageDownService testLockReq (memWith [])).2
        = [Call.storagePolicy "policies" "testgroup" "example" "1.0"]) ∧
    ((Lock memService testLockReq (memWith [lockedPolicy])).1
        = some (Error.leaf Kind.Forbidden "policy is already locked") ∧
      newCalls (memWith [lockedPolicy]) (Lock memService testLockReq (memWith [lockedPolicy])).2
        = [Call.storagePolicy "policies" "testgroup" "example" "1.0"]) ∧
    (newCalls (memWith [testPolicy]) (Lock lockFailsService testLockReq (memWith [testPolicy])).2
        = [Call.storagePolicy "policies" "testgroup" "example" "1.0",
           Call.storageSetPolicyLock "policies" "testgroup" "example" "1.0" true] ∧
      (Lock lockFailsService testLockReq (memWith [testPolicy])).1
        = some (Error.wrap Kind.Internal "error locking policy"
            (Error.leaf Kind.Unknown "error setting policy lock"))) :=
  ⟨(Lock_case_table memService testLockReq (memWith [])).1
      (Error.leaf Kind.NotFound "policy not found") (memWith []).st rfl rfl,
   (Lock_case_table storageDownService testLockReq (memWith [])).2.1
      (Error.leaf Kind.Unknown "some error") (memWith []).st rfl rfl,
   (Lock_case_table memService testLockReq (memWith [lockedPolicy])).2.2.1
      lockedPolicy (memWith [lockedPolicy]).st rfl rfl,
   ((Lock_case_table lockFailsService testLockReq (memWith [testPolicy])).2.2.2
      testPolicy (memWith [testPolicy]).st rfl rfl).1,
   (((Lock_case_table lockFailsService testLockReq (memWith [testPolicy])).2.2.2
      testPolicy (memWith [testPolicy]).st rfl rfl).2.2
      (Error.leaf Kind.Internal "error setting policy lock") rfl).1⟩

/-- C9: the case table of Unlock. -/
theorem Unlock_case_table (s : Service σ) (req : UnlockRequest) (w : World σ) :
    (∀ e st1,
      s.storagePolicy w.st req.Repository req.Group req.PolicyName req.Version
        = (Except.error e, st1) →
      errors.Is Kind.NotFound e = true →
      (Unlock s req w).1 = some e ∧
      newCalls w (Unlock s req w).2
        = [Call.storagePolicy req.Repository req.Group req.PolicyName req.Version]) ∧
    (∀ e st1,
      s.storagePolicy w.st req.Repository req.Group req.PolicyName req.Version
        = (Except.error e, st1) →
      errors.Is Kind.NotFound e = false →
      (Unlock s req w).1 = some (errors.New Kind.Unknown "error unlocking policy" (some e)) ∧
      newCalls w (Unlock s req w).2
        = [Call.storagePolicy req.Repository req.Group req.PolicyName req.Version]) ∧
    (∀ p st1,
      s.storagePolicy w.st req.Repository req.Group req.PolicyName req.Version
        = (Except.ok p, st1) →
      p.Locked = false →
      (Unlock s req w).1 = some (Error.leaf Kind.Forbidden "policy is unlocked") ∧
      newCalls w (Unlock s req w).2
        = [Call.storagePolicy req.Repository req.Group req.PolicyName req.Version]) ∧
    (∀ p st1,
      s.storagePolicy w.st req.Repository req.Group req.PolicyName req.Version
        = (Except.ok p, st1) →
      p.Locked = true →
      newCalls w (Unlock s req w).2
        = [Call.storagePolicy req.Repository req.Group req.PolicyName req.Version,
           Call.storageSetPolicyLock req.Repository req.Group req.PolicyName req.Version false] ∧
      ((Unlock s req w).1 = none ↔
        (s.storageSetPolicyLock st1 req.Repository req.Group req.PolicyName req.Version false).1
          = none) ∧
      (∀ e,
        (s.storageSetPolicyLock st1 req.Repository req.Group req.PolicyName req.Version false).1
          = some e →
        (Unlock s req w).1 = some (errors.New Kind.Unknown "error unlocking policy" (some e)) ∧
        (errors.New Kind.Unknown "error unlocking policy" (some e)).kind = e.kind ∧
        ∀ k, errors.Is k (errors.New Kind.Unknown "error unlocking policy" (some e))
          = errors.Is k e)) := by
  refine ⟨?_, ?_, ?_, ?_⟩
  · intro e st1 h hnf
    simp [Unlock, callStoragePolicy, h, hnf, newCalls]
  · intro e st1 h hnf
    simp [Unlock, callStoragePolicy, h, hnf, newCalls]
  · intro p st1 h hl
    simp [Unlock, callStoragePolicy, h, hl, newCalls, errors.New]
  · intro p st1 h hl
    rcases hset :
      s.storageSetPolicyLock st1 req.Repository req.Group req.PolicyName req.Version false
      with ⟨r, st2⟩
    cases r with
    | none =>
      simp [Unlock, callStoragePolicy, callSetPolicyLock, h, hl, hset, newCalls]
    | some e0 =>
      simp [Unlock, callStoragePolicy, callSetPolicyLock, h, hl, hset, newCalls,
        errors.kind_New_unknown, errors.Is_New_unknown]

/-- The case table of Unlock at four runs: no such policy, storage down,
policy not locked, and a locked policy that is unlocked. -/
theorem Unlock_case_table_witness :
    ((Unlock memService testUnlockReq (memWith [])).1
        = some (Error.leaf Kind.NotFound "policy not found") ∧
      newCalls (memWith []) (Unlock memService testUnlockReq (memWith [])).2
        = [Call.storagePolicy "policies" "testgroup" "example" "1.0"]) ∧
    ((Unlock storageDownService testUnlockReq (memWith [])).1
        = some (Error.wrap Kind.Unknown "error unlocking policy"
            (Error.leaf Kind.Unknown "some error")) ∧
      newCalls (memWith []) (Unlock storageDownService testUnlockReq (memWith [])).2
        = [Call.storagePolicy "policies" "testgroup" "example" "1.0"]) ∧
    ((Unlock memService testUnlockReq (memWith [testPolicy])).1
        = some (Error.leaf Kind.Forbidden "policy is unlocked") ∧
      newCalls (memWith [testPolicy]) (Unlock memService testUnlockReq (memWith [testPolicy])).2
        = [Call.storagePolicy "policies" "testgroup" "example" "1.0"]) ∧
    (newCalls (memWith [lockedPolicy])
        (Unlock memService testUnlockReq (memWith [lockedPolicy])).2
        = [Call.storagePolicy "policies" "testgroup" "example" "1.0",
           Call.storageSetPolicyLock "policies" "testgroup" "example" "1.0" false] ∧
      ((Unlock memService testUnlockReq (memWith [lockedPolicy])).1 = none ↔
        (memService.storageSetPolicyLock (memWith [lockedPolicy]).st
          "policies" "testgroup" "example" "1.0" false).1 = none)) :=
  ⟨(Unlock_case_table memService testUnlockReq (memWith [])).1
      (Error.leaf Kind.NotFound "policy not found") (memWith []).st rfl rfl,
   (Unlock_case_table storageDownService testUnlockReq (memWith [])).2.1
      (Error.leaf Kind.Unknown "some error") (memWith []).st rfl rfl,
   (Unlock_case_table memService testUnlockReq (memWith [testPolicy])).2.2.1
      testPolicy (memWith [testPolicy]).st rfl rfl,
   ((Unlock_case_table memService testUnlockReq (memWith [lockedPolicy])).2.2.2
      lockedPolicy (memWith [lockedPolicy]).st rfl rfl).1,
   ((Unlock_case_table memService testUnlockReq (memWith [lockedPolicy])).2.2.2
      lockedPolicy (memWith [lockedPolicy]).st rfl rfl).2.1⟩

end LockUnlock

/-! ## Evaluate -/

section Evaluation

variable {σ : Type}

/-- Evaluate, once the query is prepared, has run with a first value and the
result is encoded: what remains is the call of the result cache. -/
theorem Evaluate_of_steps (s : Service σ) (ctx : Headers) (req : EvaluateRequest) (w : World σ)
    (query : List RegoArg) (w1 w2 : World σ) (value : Value) (rest : List Value)
    (more : ResultSet) (jsonValue : String)
    (hq : prepareQuery s (evaluationID s w req).2 req.Repository req.Group req.PolicyName
      req.Version ctx = (Except.ok query, w1))
    (he : callRegoEval s w1 query req.Input = (Except.ok ((value :: rest) :: more), w2))
    (hm : s.jsonMarshal (normalizeResult value) = Except.ok jsonValue) :
    Evaluate s ctx req w =
      match callCacheSet s w2 (evaluationID s w req).1 "" "" jsonValue (ttlOf req) with
      | (some err, w3) =>
        if !errors.Is Kind.ServiceUnavailable err then
          (Except.error
            (errors.New Kind.Unknown "error storing policy result in cache" none), w3)
        else
          (Except.ok { Result := normalizeResult value, ETag := (evaluationID s w req).1 }, w3)
      | (none, w3) =>
        (Except.ok { Result := normalizeResult value, ETag := (evaluationID s w req).1 }, w3) := by
  simp only [Evaluate, hq, he, hm]

/-- A successful Evaluate went through every step. -/
theorem Evaluate_ok_inv (s : Service σ) (ctx : Headers) (req : EvaluateRequest) (w w3 : World σ)
    (res : EvaluateResult) (h : Evaluate s ctx req w = (Except.ok res, w3)) :
    ∃ query w1 value rest more w2 jsonValue,
      prepareQuery s (evaluationID s w req).2 req.Repository req.Group req.PolicyName
        req.Version ctx = (Except.ok query, w1) ∧
      callRegoEval s w1 query req.Input = (Except.ok ((value :: rest) :: more), w2) ∧
      s.jsonMarshal (normalizeResult value) = Except.ok jsonValue ∧
      res = { Result := normalizeResult value, ETag := (evaluationID s w req).1 } ∧
      w3 = (callCacheSet s w2 (evaluationID s w req).1 "" "" jsonValue (ttlOf req)).2 ∧
      (∀ e, (callCacheSet s w2 (evaluationID s w req).1 "" "" jsonValue (ttlOf req)).1 = some e →
        errors.Is Kind.ServiceUnavailable e = true) := by
  rcases hq : prepareQuery s (evaluationID s w req).2 req.Repository req.Group req.PolicyName
    req.Version ctx with ⟨rq, w1⟩
  cases rq with
  | error err => simp [Evaluate, hq] at h
  | ok query =>
    rcases he : callRegoEval s w1 query req.Input with ⟨re, w2⟩
    cases re with
    | error err => simp [Evaluate, hq, he] at h
    | ok rs =>
      match rs, he with
      | [], he => simp [Evaluate, hq, he] at h
      | [] :: _, he => simp [Evaluate, hq, he] at h
      | (value :: rest) :: more, he =>
        cases hm : s.jsonMarshal (normalizeResult value) with
        | error err => simp [Evaluate, hq, he, hm] at h
        | ok jsonValue =>
          rw [Evaluate_of_steps s ctx req w query w1 w2 value rest more jsonValue hq he hm] at h
          refine ⟨query, w1, value, rest, more, w2, jsonValue, rfl, he, hm, ?_⟩
          rcases hc : callCacheSet s w2 (evaluationID s w req).1 "" "" jsonValue (ttlOf req)
            with ⟨rc, w4⟩
          rw [hc] at h
          cases rc with
          | none =>
            simp only [Prod.mk.injEq, Except.ok.injEq] at h
            exact ⟨h.1.symm, h.2.symm, by simp⟩
          | some e =>
            by_cases hIs : errors.Is Kind.ServiceUnavailable e = true
            · simp only [hIs, Bool.not_true, Bool.false_eq_true, if_false, Prod.mk.injEq,
                Except.ok.injEq] at h
              exact ⟨h.1.symm, h.2.symm, by simpa using hIs⟩
            · simp [hIs] at h

theorem retrievePolicy_calls (s : Service σ) (w : World σ) (r g n v : String) :
    ∃ l, (retrievePolicy s w r g n v).2.calls = w.calls ++ l ∧ Quiet l := by
  rcases hget : s.policyCacheGet w.st (queryCacheKey r g n v) with ⟨og, st1⟩
  cases og with
  | some p =>
    refine ⟨[Call.policyCacheGet (queryCacheKey r g n v)], ?_, ?_⟩
    · simp [retrievePolicy, callPolicyCacheGet, hget]
    · simp [Quiet, Call.isCacheSet, Call.isSetPolicyLock, Call.isRegoEval]
  | none =>
    rcases hst : s.storagePolicy st1 r g n v with ⟨rs, st2⟩
    cases rs with
    | error e =>
      refine ⟨[Call.policyCacheGet (queryCacheKey r g n v), Call.storagePolicy r g n v], ?_, ?_⟩
      · by_cases hnf : errors.Is Kind.NotFound e = true <;>
          simp [retrievePolicy, callPolicyCacheGet, callStoragePolicy, hget, hst, hnf]
      · simp [Quiet, Call.isCacheSet, Call.isSetPolicyLock, Call.isRegoEval]
    | ok p =>
      refine ⟨[Call.policyCacheGet (queryCacheKey r g n v), Call.storagePolicy r g n v,
        Call.policyCacheSet (queryCacheKey r g n v) p], ?_, ?_⟩
      · simp [retrievePolicy, callPolicyCacheGet, callStoragePolicy, callPolicyCacheSet, hget, hst]
      · simp [Quiet, Call.isCacheSet, Call.isSetPolicyLock, Call.isRegoEval]

/-- Preparing the query makes no port call beyond retrieving the policy. -/
theorem prepareQuery_world (s : Service σ) (w : World σ) (r g n v : String) (h : Headers) :
    (prepareQuery s w r g n v h).2 = (retrievePolicy s w r g n v).2 := by
  unfold prepareQuery
  rcases retrievePolicy s w r g n v with ⟨rp, w1⟩
  cases rp with
  | error e => rfl
  | ok pol =>
    by_cases hl : pol.Locked = true
    · simp [hl]
    · simp only [hl]
      cases buildRegoArgs s pol.Filename pol.Rego ("data." ++ g ++ "." ++ n) pol.Data with
      | error e => rfl
      | ok args =>
        simp only
        cases s.regoPrepareForEval (args ++ [RegoArg.Function1 h]) <;> rfl

theorem evaluationID_calls (s : Service σ) (w : World σ) (req : EvaluateRequest) :
    ∃ l, (evaluationID s w req).2.calls = w.calls ++ l ∧ Quiet l := by
  have hq : Quiet [Call.uuidNewString] := by
    simp [Quiet, Call.isCacheSet, Call.isSetPolicyLock, Call.isRegoEval]
  have hn : Quiet [] := by simp [Quiet]
  unfold evaluationID
  cases req.EvaluationID with
  | none => exact ⟨[Call.uuidNewString], by simp [callUuidNewString], hq⟩
  | some id =>
    by_cases hid : id = ""
    · exact ⟨[Call.uuidNewString], by simp [callUuidNewString, hid], hq⟩
    · exact ⟨[], by simp [hid], hn⟩

/-- C1, as the code has it: the policy Evaluate retrieves is not evaluated
when it is locked: when the policy retrieved for the coordinates of the
request (the cached snapshot, or on a miss the stored policy) has its locked
flag set, Evaluate fails with an error of kind Forbidden whose cause is
"policy is locked", returns no result, and calls nothing after retrieving the
policy. -/
theorem Evaluate_locked_forbidden (s : Service σ) (ctx : Headers) (req : EvaluateRequest)
    (w w1 : World σ) (pol : Policy)
    (hret : retrievePolicy s (evaluationID s w req).2 req.Repository req.Group req.PolicyName
      req.Version = (Except.ok pol, w1))
    (hlocked : pol.Locked = true) :
    ((∃ st1, s.policyCacheGet (evaluationID s w req).2.st
          (queryCacheKey req.Repository req.Group req.PolicyName req.Version)
        = (some pol, st1)) ∨
      (∃ st1 st2, s.policyCacheGet (evaluationID s w req).2.st
          (queryCacheKey req.Repository req.Group req.PolicyName req.Version) = (none, st1) ∧
        s.storagePolicy st1 req.Repository req.Group req.PolicyName req.Version
          = (Except.ok pol, st2))) ∧
    ∃ err, Evaluate s ctx req w = (Except.error err, w1) ∧
      err.kind = Kind.Forbidden ∧
      errors.Is Kind.Forbidden err = true ∧
      err.messages = ["error evaluating policy", "policy is locked"] := by
  constructor
  · rcases hget : s.policyCacheGet (evaluationID s w req).2.st
      (queryCacheKey req.Repository req.Group req.PolicyName req.Version) with ⟨og, st1⟩
    cases og with
    | some p =>
      left
      simp only [retrievePolicy, callPolicyCacheGet, hget, Prod.mk.injEq,
        Except.ok.injEq] at hret
      exact ⟨st1, by rw [hret.1]⟩
    | none =>
      right
      rcases hst : s.storagePolicy st1 req.Repository req.Group req.PolicyName req.Version
        with ⟨rs, st2⟩
      cases rs with
      | error e =>
        by_cases hnf : errors.Is Kind.NotFound e = true <;>
          simp [retrievePolicy, callPolicyCacheGet, callStoragePolicy, hget, hst, hnf] at hret
      | ok p =>
        simp only [retrievePolicy, callPolicyCacheGet, callStoragePolicy, hget, hst,
          Prod.mk.injEq, Except.ok.injEq] at hret
        exact ⟨st1, st2, rfl, by rw [← hret.1]; exact hst⟩
  · refine ⟨Error.wrap Kind.Forbidden "error evaluating policy"
      (Error.leaf Kind.Unknown "policy is locked"), ?_, rfl, rfl, rfl⟩
    simp [Evaluate, prepareQuery, hret, hlocked, errors.New, Error.kind, Error.clearKind]

/-- A locked policy in the in-memory storage is refused by Evaluate. -/
theorem Evaluate_locked_forbidden_witness :
    ∃ err, Evaluate memService [] testReq (memWith [lockedPolicy])
        = (Except.error err,
            (retrievePolicy memService (evaluationID memService (memWith [lockedPolicy]) testReq).2
              "policies" "testgroup" "example" "1.0").2) ∧
      err.kind = Kind.Forbidden ∧
      errors.Is Kind.Forbidden err = true ∧
      err.messages = ["error evaluating policy", "policy is locked"] :=
  (Evaluate_locked_forbidden memService [] testReq (memWith [lockedPolicy]) _ lockedPolicy
    rfl rfl).2

/-- C1, as stated, fails: the policy of the tests is evaluated once, which
caches its unlocked snapshot; Lock then succeeds and the policy is locked in
storage; the next Evaluate on its coordinates does not ask storage and
returns a result, not a Forbidden error. -/
theorem Evaluate_after_lock_stale :
    (Lock memService testLockReq
        (Evaluate memService [] testReq (memWith [testPolicy])).2).1 = none ∧
    (memService.storagePolicy afterLock.st "policies" "testgroup" "example" "1.0").1
      = Except.ok lockedPolicy ∧
    lockedPolicy.Locked = true ∧
    (Evaluate memService [] testReq afterLock).1
      = Except.ok { Result := Value.object [("allow", Value.string "yes")], ETag := "id-2" } ∧
    (newCalls afterLock (Evaluate memService [] testReq afterLock).2).filter
      Call.isStoragePolicy = [] :=
  ⟨rfl, rfl, rfl, rfl, rfl⟩

/-- The unwrapping on its own: a map whose single entry has key `$0` gives
the value of that entry, every other value is returned as it is. -/
theorem normalizeResult_spec (r : Value) :
    (∀ v, r = Value.object [("$0", v)] → normalizeResult r = v) ∧
    ((∀ v, r ≠ Value.object [("$0", v)]) → normalizeResult r = r) := by
  constructor
  · intro v hv
    subst hv
    simp [normalizeResult]
  · intro hne
    cases r with
    | object entries =>
      match entries, hne with
      | [], _ => simp [normalizeResult]
      | [(k, v)], hne =>
        by_cases hk : k = "$0"
        · exact absurd (by rw [hk]) (hne v)
        · simp [normalizeResult, hk]
      | _ :: _ :: _, _ => simp [normalizeResult]
    | _ => rfl

/-- C2: result normalization in Evaluate. With `raw` the first expression
value of the first result of the query, a successful Evaluate returns `v` when
`raw` is the object with the single entry `$0 ↦ v`, and `raw` itself in every
other case. -/
theorem Evaluate_result_normalization (s : Service σ) (ctx : Headers) (req : EvaluateRequest)
    (w w1 w2 w3 : World σ) (query : List RegoArg) (raw : Value) (rest : List Value)
    (more : ResultSet) (res : EvaluateResult)
    (hq : prepareQuery s (evaluationID s w req).2 req.Repository req.Group req.PolicyName
      req.Version ctx = (Except.ok query, w1))
    (he : callRegoEval s w1 query req.Input = (Except.ok ((raw :: rest) :: more), w2))
    (h : Evaluate s ctx req w = (Except.ok res, w3)) :
    (∀ v, raw = Value.object [("$0", v)] → res.Result = v) ∧
    ((∀ v, raw ≠ Value.object [("$0", v)]) → res.Result = raw) := by
  obtain ⟨query0, w10, value, rest0, more0, w20, jsonValue, hq0, he0, _, hres, _, _⟩ :=
    Evaluate_ok_inv s ctx req w w3 res h
  rw [hq] at hq0
  simp only [Prod.mk.injEq, Except.ok.injEq] at hq0
  obtain ⟨hq1, hw1⟩ := hq0
  subst hq1 hw1
  rw [he] at he0
  simp only [Prod.mk.injEq, Except.ok.injEq, List.cons.injEq] at he0
  obtain ⟨⟨⟨hv, _⟩, _⟩, _⟩ := he0
  subst hv
  rw [hres]
  exact normalizeResult_spec raw

/-- Two runs on the in-memory backend: a blank assignment is unwrapped, and
the result of the policy of the tests is passed through. -/
theorem Evaluate_result_normalization_witness :
    ((Evaluate memService [] testReq (memWith [blankPolicy])).1
        = Except.ok { Result := Value.string "yes", ETag := "id-1" } ∧
      ∀ v, Value.object [("$0", Value.string "yes")] = Value.object [("$0", v)] →
        Value.string "yes" = v) ∧
    ((Evaluate memService [] testReq (memWith [testPolicy])).1
        = Except.ok { Result := Value.object [("allow", Value.string "yes")], ETag := "id-1" } ∧
      ((∀ v, Value.object [("allow", Value.string "yes")] ≠ Value.object [("$0", v)]) →
        Value.object [("allow", Value.string "yes")]
          = Value.object [("allow", Value.string "yes")])) :=
  ⟨⟨rfl, (Evaluate_result_normalization memService [] testReq (memWith [blankPolicy]) _ _ _
      _ (Value.object [("$0", Value.string "yes")]) [] []
      { Result := Value.string "yes", ETag := "id-1" } rfl rfl rfl).1⟩,
   ⟨rfl, (Evaluate_result_normalization memService [] testReq (memWith [testPolicy]) _ _ _
      _ (Value.object [("allow", Value.string "yes")]) [] []
      { Result := Value.object [("allow", Value.string "yes")], ETag := "id-1" }
      rfl rfl rfl).2⟩⟩

/-- C3: the eTag of a successful Evaluate is the evaluation ID: the
EvaluationID of the request when that is present and non-empty, otherwise the
identifier returned by a call of the UUID generator made first in this run;
it is non-empty, given that the generator returns a non-empty identifier. -/
theorem Evaluate_eTag (s : Service σ) (ctx : Headers) (req : EvaluateRequest)
    (w w3 : World σ) (res : EvaluateResult)
    (huuid : (s.uuidNewString w.st).1 ≠ "")
    (h : Evaluate s ctx req w = (Except.ok res, w3)) :
    (∀ id, req.EvaluationID = some id → id ≠ "" → res.ETag = id) ∧
    ((req.EvaluationID = none ∨ req.EvaluationID = some "") →
      res.ETag = (s.uuidNewString w.st).1 ∧
      (newCalls w w3).head? = some Call.uuidNewString) ∧
    res.ETag ≠ "" := by
  obtain ⟨query, w1, value, rest, more, w2, jsonValue, hq, he, _, hres, hw3, _⟩ :=
    Evaluate_ok_inv s ctx req w w3 res h
  have hETag : res.ETag = (evaluationID s w req).1 := by rw [hres]
  have hw1 : w1 = (retrievePolicy s (evaluationID s w req).2 req.Repository req.Group
      req.PolicyName req.Version).2 := by
    have := prepareQuery_world s (evaluationID s w req).2 req.Repository req.Group
      req.PolicyName req.Version ctx
    rw [hq] at this
    exact this
  obtain ⟨l, hl, _⟩ := retrievePolicy_calls s (evaluationID s w req).2 req.Repository req.Group
      req.PolicyName req.Version
  have hw2 : w2.calls = w1.calls ++ [Call.regoEval query req.Input] := by
    simp only [callRegoEval, Prod.mk.injEq] at he
    rw [← he.2]
  have hcalls : w3.calls = (evaluationID s w req).2.calls ++
      (l ++ [Call.regoEval query req.Input,
        Call.cacheSet (evaluationID s w req).1 "" "" jsonValue (ttlOf req)]) := by
    rw [hw3]
    simp only [callCacheSet]
    rw [hw2, hw1, hl]
    simp
  have hfresh : (req.EvaluationID = none ∨ req.EvaluationID = some "") →
      (evaluationID s w req).1 = (s.uuidNewString w.st).1 ∧
      (newCalls w w3).head? = some Call.uuidNewString := by
    intro hreq
    have hid : evaluationID s w req = callUuidNewString s w := by
      rcases hreq with hreq | hreq <;> simp [evaluationID, hreq]
    rw [hid] at hcalls
    refine ⟨by rw [hid]; rfl, ?_⟩
    simp [newCalls, hcalls, callUuidNewString]
  refine ⟨?_, ?_, ?_⟩
  · intro id hid hne
    rw [hETag]
    simp [evaluationID, hid, hne]
  · intro hreq
    rw [hETag]
    exact hfresh hreq
  · rw [hETag]
    cases hreq : req.EvaluationID with
    | none =>
      rw [(hfresh (Or.inl hreq)).1]
      exact huuid
    | some id =>
      by_cases hne : id = ""
      · rw [(hfresh (Or.inr (by rw [hreq, hne]))).1]
        exact huuid
      · simp [evaluationID, hreq, hne]

/-- Two runs on the in-memory backend: a request carrying its own evaluation
ID gets it back as eTag, and a request without one gets the generated one. -/
theorem Evaluate_eTag_witness :
    ((∀ id, testReqWithID.EvaluationID = some id → id ≠ "" → "my-evaluation" = id) ∧
      "my-evaluation" ≠ "") ∧
    (((testReq.EvaluationID = none ∨ testReq.EvaluationID = some "") →
        "id-1" = (memService.uuidNewString (memWith [testPolicy]).st).1 ∧
        (newCalls (memWith [testPolicy])
          (Evaluate memService [] testReq (memWith [testPolicy])).2).head?
            = some Call.uuidNewString) ∧
      "id-1" ≠ "") :=
  ⟨⟨(Evaluate_eTag memService [] testReqWithID (memWith [testPolicy]) _
        { Result := Value.object [("allow", Value.string "yes")], ETag := "my-evaluation" }
        (by decide) rfl).1,
     (Evaluate_eTag memService [] testReqWithID (memWith [testPolicy]) _
        { Result := Value.object [("allow", Value.string "yes")], ETag := "my-evaluation" }
        (by decide) rfl).2.2⟩,
   (Evaluate_eTag memService [] testReq (memWith [testPolicy]) _
      { Result := Value.object [("allow", Value.string "yes")], ETag := "id-1" }
      (by decide) rfl).2⟩

/-- C4: a failing result cache. When the query has been evaluated and the
result encoded, and `Cache.Set` fails with `e`: if `e` is of kind
ServiceUnavailable, Evaluate succeeds and returns the result and eTag it
returns with a working cache; if `e` is of any other kind, Evaluate fails with
"error storing policy result in cache" and returns no result. -/
theorem Evaluate_cache_failure (s : Service σ) (ctx : Headers) (req : EvaluateRequest)
    (w w1 w2 : World σ) (query : List RegoArg) (value : Value) (rest : List Value)
    (more : ResultSet) (jsonValue : String) (e : Error) (st3 : σ)
    (hq : prepareQuery s (evaluationID s w req).2 req.Repository req.Group req.PolicyName
      req.Version ctx = (Except.ok query, w1))
    (he : callRegoEval s w1 query req.Input = (Except.ok ((value :: rest) :: more), w2))
    (hm : s.jsonMarshal (normalizeResult value) = Except.ok jsonValue)
    (hc : s.cacheSet w2.st (evaluationID s w req).1 "" "" jsonValue (ttlOf req) = (some e, st3)) :
    (errors.Is Kind.ServiceUnavailable e = true →
      (Evaluate s ctx req w).1
        = Except.ok { Result := normalizeResult value, ETag := (evaluationID s w req).1 } ∧
      (Evaluate (workingCache s) ctx req w).1 = (Evaluate s ctx req w).1) ∧
    (errors.Is Kind.ServiceUnavailable e = false →
      (Evaluate s ctx req w).1
        = Except.error (Error.leaf Kind.Unknown "error storing policy result in cache")) := by
  have hs := Evaluate_of_steps s ctx req w query w1 w2 value rest more jsonValue hq he hm
  have hw := Evaluate_of_steps (workingCache s) ctx req w query w1 w2 value rest more jsonValue
    hq he hm
  simp only [callCacheSet, hc] at hs
  constructor
  · intro hIs
    simp only [hIs, Bool.not_true, Bool.false_eq_true, if_false] at hs
    rw [hs, hw]
    exact ⟨rfl, rfl⟩
  · intro hIs
    simp only [hIs, Bool.not_false, if_true] at hs
    rw [hs]
    rfl

/-- Two runs on the in-memory backend: with a cache that is not available the
result of the policy of the tests is returned all the same, and with a cache
failing otherwise the request fails. -/
theorem Evaluate_cache_failure_witness :
    ((Evaluate cacheUnavailableService [] testReq (memWith [testPolicy])).1
        = Except.ok { Result := Value.object [("allow", Value.string "yes")], ETag := "id-1" } ∧
      (Evaluate (workingCache cacheUnavailableService) [] testReq (memWith [testPolicy])).1
        = (Evaluate cacheUnavailableService [] testReq (memWith [testPolicy])).1) ∧
    (Evaluate cacheBrokenService [] testReq (memWith [testPolicy])).1
      = Except.error (Error.leaf Kind.Unknown "error storing policy result in cache") :=
  ⟨(Evaluate_cache_failure cacheUnavailableService [] testReq (memWith [testPolicy]) _ _ _
      (Value.object [("allow", Value.string "yes")]) [] [] "\x7b\x7d"
      (Error.leaf Kind.ServiceUnavailable "cache is not available") _ rfl rfl rfl rfl).1 rfl,
   (Evaluate_cache_failure cacheBrokenService [] testReq (memWith [testPolicy]) _ _ _
      (Value.object [("allow", Value.string "yes")]) [] [] "\x7b\x7d"
      (Error.leaf Kind.Unknown "some error") _ rfl rfl rfl rfl).2 rfl⟩

/-- The calls of a successful Evaluate: those of deriving the ID and
retrieving the policy, then one run of the engine, then one `Cache.Set`. -/
theorem Evaluate_ok_calls (s : Service σ) (ctx : Headers) (req : EvaluateRequest)
    (w w3 : World σ) (res : EvaluateResult) (h : Evaluate s ctx req w = (Except.ok res, w3)) :
    ∃ l query jsonValue, Quiet l ∧ s.jsonMarshal res.Result = Except.ok jsonValue ∧
      w3.calls = w.calls ++ (l ++ [Call.regoEval query req.Input,
        Call.cacheSet res.ETag "" "" jsonValue (ttlOf req)]) := by
  obtain ⟨query, w1, value, rest, more, w2, jsonValue, hq, he, hm, hres, hw3, _⟩ :=
    Evaluate_ok_inv s ctx req w w3 res h
  have hw1 : w1 = (retrievePolicy s (evaluationID s w req).2 req.Repository req.Group
      req.PolicyName req.Version).2 := by
    have := prepareQuery_world s (evaluationID s w req).2 req.Repository req.Group
      req.PolicyName req.Version ctx
    rw [hq] at this
    exact this
  obtain ⟨l0, hl0, hq0⟩ := evaluationID_calls s w req
  obtain ⟨l, hl, hql⟩ := retrievePolicy_calls s (evaluationID s w req).2 req.Repository req.Group
      req.PolicyName req.Version
  have hw2 : w2.calls = w1.calls ++ [Call.regoEval query req.Input] := by
    simp only [callRegoEval, Prod.mk.injEq] at he
    rw [← he.2]
  refine ⟨l0 ++ l, query, jsonValue, ?_, ?_, ?_⟩
  · intro c hc
    rcases List.mem_append.mp hc with hc | hc
    · exact hq0 c hc
    · exact hql c hc
  · rw [hres]
    exact hm
  · rw [hw3]
    simp only [callCacheSet]
    rw [hw2, hw1, hl, hl0, hres]
    simp

theorem filter_isCacheSet_quiet (l : List Call) (hl : Quiet l) :
    l.filter Call.isCacheSet = [] := by
  rw [List.filter_eq_nil_iff]
  intro c hc
  simp [(hl c hc).1]

/-- C5: a successful Evaluate calls `Cache.Set` exactly once: with the
returned eTag as key, empty namespace and scope, the JSON encoding of the
returned result as value, and the TTL of the request, or zero when it has
none. -/
theorem Evaluate_cache_set_once (s : Service σ) (ctx : Headers) (req : EvaluateRequest)
    (w w3 : World σ) (res : EvaluateResult) (h : Evaluate s ctx req w = (Except.ok res, w3)) :
    ∃ jsonValue, s.jsonMarshal res.Result = Except.ok jsonValue ∧
      (newCalls w w3).filter Call.isCacheSet
        = [Call.cacheSet res.ETag "" "" jsonValue (req.TTL.getD 0)] := by
  obtain ⟨l, query, jsonValue, hl, hm, hcalls⟩ := Evaluate_ok_calls s ctx req w w3 res h
  refine ⟨jsonValue, hm, ?_⟩
  have httl : ttlOf req = req.TTL.getD 0 := by
    unfold ttlOf
    cases req.TTL <;> rfl
  simp [newCalls, hcalls, List.filter_append, filter_isCacheSet_quiet l hl, Call.isCacheSet,
    List.filter, httl]

/-- The run of the tests on the in-memory backend: one `Cache.Set`, under the
generated ID, with the encoded result and the TTL of the request. -/
theorem Evaluate_cache_set_once_witness :
    ∃ jsonValue,
      memService.jsonMarshal (Value.object [("allow", Value.string "yes")])
        = Except.ok jsonValue ∧
      (newCalls (memWith [testPolicy])
          (Evaluate memService [] testReq (memWith [testPolicy])).2).filter Call.isCacheSet
        = [Call.cacheSet "id-1" "" "" jsonValue 30] :=
  Evaluate_cache_set_once memService [] testReq (memWith [testPolicy]) _
    { Result := Value.object [("allow", Value.string "yes")], ETag := "id-1" } rfl

/-- What retrieval returns when the cache misses and storage fails. -/
theorem retrievePolicy_storage_error (s : Service σ) (w : World σ) (r g n v : String)
    (e : Error) (st1 st2 : σ)
    (hmiss : s.policyCacheGet w.st (queryCacheKey r g n v) = (none, st1))
    (hstore : s.storagePolicy st1 r g n v = (Except.error e, st2)) :
    (retrievePolicy s w r g n v).1 =
      if errors.Is Kind.NotFound e then Except.error e
      else Except.error (errors.New Kind.Unknown "error getting policy from storage" (some e)) := by
  by_cases hnf : errors.Is Kind.NotFound e = true <;>
    simp [retrievePolicy, callPolicyCacheGet, callStoragePolicy, hmiss, hstore, hnf]

/-- An error of retrieval is what preparing the query returns. -/
theorem prepareQuery_error (s : Service σ) (w : World σ) (r g n v : String) (h : Headers)
    (e : Error) (hret : (retrievePolicy s w r g n v).1 = Except.error e) :
    (prepareQuery s w r g n v h).1 = Except.error e := by
  rcases hr : retrievePolicy s w r g n v with ⟨rp, w1⟩
  rw [hr] at hret
  simp only at hret
  subst hret
  simp only [prepareQuery, hr]

/-- An error of preparing the query is wrapped by Evaluate. -/
theorem Evaluate_prepare_error (s : Service σ) (ctx : Headers) (req : EvaluateRequest)
    (w : World σ) (e : Error)
    (hq : (prepareQuery s (evaluationID s w req).2 req.Repository req.Group req.PolicyName
      req.Version ctx).1 = Except.error e) :
    (Evaluate s ctx req w).1
      = Except.error (errors.New Kind.Unknown "error evaluating policy" (some e)) := by
  rcases hr : prepareQuery s (evaluationID s w req).2 req.Repository req.Group req.PolicyName
      req.Version ctx with ⟨rp, w1⟩
  rw [hr] at hq
  simp only at hq
  subst hq
  simp only [Evaluate, hr]

/-- C6, as the code has it: when the compiled-policy cache misses and
`Storage.Policy` fails with `e`: if `e` is of kind NotFound, retrieval returns
`e` itself and Evaluate returns `e` wrapped under "error evaluating policy",
an error that is still of kind NotFound; otherwise Evaluate returns `e`
wrapped under "error getting policy from storage" and then under "error
evaluating policy", an error that is of the kinds `e` is of. -/
theorem Evaluate_storage_error (s : Service σ) (ctx : Headers) (req : EvaluateRequest)
    (w : World σ) (e : Error) (st1 st2 : σ)
    (hmiss : s.policyCacheGet (evaluationID s w req).2.st
      (queryCacheKey req.Repository req.Group req.PolicyName req.Version) = (none, st1))
    (hstore : s.storagePolicy st1 req.Repository req.Group req.PolicyName req.Version
      = (Except.error e, st2)) :
    (errors.Is Kind.NotFound e = true →
      (retrievePolicy s (evaluationID s w req).2 req.Repository req.Group req.PolicyName
        req.Version).1 = Except.error e ∧
      (Evaluate s ctx req w).1
        = Except.error (errors.New Kind.Unknown "error evaluating policy" (some e)) ∧
      errors.Is Kind.NotFound (errors.New Kind.Unknown "error evaluating policy" (some e))
        = true ∧
      (errors.New Kind.Unknown "error evaluating policy" (some e)).messages
        = "error evaluating policy" :: e.messages) ∧
    (errors.Is Kind.NotFound e = false →
      (Evaluate s ctx req w).1
        = Except.error (errors.New Kind.Unknown "error evaluating policy"
            (some (errors.New Kind.Unknown "error getting policy from storage" (some e)))) ∧
      (∀ k, errors.Is k (errors.New Kind.Unknown "error evaluating policy"
            (some (errors.New Kind.Unknown "error getting policy from storage" (some e))))
        = errors.Is k e) ∧
      (errors.New Kind.Unknown "error evaluating policy"
            (some (errors.New Kind.Unknown "error getting policy from storage" (some e)))).messages
        = "error evaluating policy" :: "error getting policy from storage" :: e.messages) := by
  have hret := retrievePolicy_storage_error s (evaluationID s w req).2 req.Repository req.Group
    req.PolicyName req.Version e st1 st2 hmiss hstore
  constructor
  · intro hnf
    simp only [hnf, if_true] at hret
    refine ⟨hret, ?_, ?_, ?_⟩
    · exact Evaluate_prepare_error s ctx req w e (prepareQuery_error s _ _ _ _ _ ctx e hret)
    · rw [errors.Is_New_unknown]
      exact hnf
    · exact errors.messages_New _ _ _
  · intro hnf
    simp only [hnf, Bool.false_eq_true, if_false] at hret
    refine ⟨?_, ?_, ?_⟩
    · exact Evaluate_prepare_error s ctx req w _ (prepareQuery_error s _ _ _ _ _ ctx _ hret)
    · intro k
      rw [errors.Is_New_unknown, errors.Is_New_unknown]
    · rw [errors.messages_New, errors.messages_New]

/-- Two runs on the in-memory backend: a policy that is not stored, and a
storage that is down. -/
theorem Evaluate_storage_error_witness :
    ((retrievePolicy memService (evaluationID memService (memWith []) testReq).2
        "policies" "testgroup" "example" "1.0").1
        = Except.error (Error.leaf Kind.NotFound "policy not found") ∧
      (Evaluate memService [] testReq (memWith [])).1
        = Except.error (Error.wrap Kind.NotFound "error evaluating policy"
            (Error.leaf Kind.Unknown "policy not found")) ∧
      errors.Is Kind.NotFound (Error.wrap Kind.NotFound "error evaluating policy"
            (Error.leaf Kind.Unknown "policy not found")) = true ∧
      (Error.wrap Kind.NotFound "error evaluating policy"
            (Error.leaf Kind.Unknown "policy not found")).messages
        = ["error evaluating policy", "policy not found"]) ∧
    (Evaluate storageDownService [] testReq (memWith [])).1
      = Except.error (Error.wrap Kind.Unknown "error evaluating policy"
          (Error.wrap Kind.Unknown "error getting policy from storage"
            (Error.leaf Kind.Unknown "some error"))) :=
  ⟨(Evaluate_storage_error memService [] testReq (memWith [])
      (Error.leaf Kind.NotFound "policy not found") _ _ rfl rfl).1 rfl,
   ((Evaluate_storage_error storageDownService [] testReq (memWith [])
      (Error.leaf Kind.Unknown "some error") _ _ rfl rfl).2 rfl).1⟩

/-- C6, as stated, fails: the policy of the request is not stored, the cache
misses, storage fails with a NotFound error, and the error Evaluate returns
is not that error but a new one wrapping it. -/
theorem Evaluate_notfound_not_verbatim :
    (memService.policyCacheGet (evaluationID memService (memWith []) testReq).2.st
        (queryCacheKey "policies" "testgroup" "example" "1.0")).1 = none ∧
    (memService.storagePolicy (evaluationID memService (memWith []) testReq).2.st
        "policies" "testgroup" "example" "1.0").1
      = Except.error (Error.leaf Kind.NotFound "policy not found") ∧
    errors.Is Kind.NotFound (Error.leaf Kind.NotFound "policy not found") = true ∧
    (Evaluate memService [] testReq (memWith [])).1
      = Except.error (Error.wrap Kind.NotFound "error evaluating policy"
          (Error.leaf Kind.Unknown "policy not found")) ∧
    (Evaluate memService [] testReq (memWith [])).1
      ≠ Except.error (Error.leaf Kind.NotFound "policy not found") := by
  refine ⟨rfl, rfl, rfl, rfl, ?_⟩
  intro h
  have h2 : (Evaluate memService [] testReq (memWith [])).1
      = Except.error (Error.wrap Kind.NotFound "error evaluating policy"
          (Error.leaf Kind.Unknown "policy not found")) := rfl
  rw [h2] at h
  cases h

/-- Once the query is prepared, Evaluate runs the engine on it exactly once,
whatever happens afterwards. -/
theorem Evaluate_calls_of_prepared (s : Service σ) (ctx : Headers) (req : EvaluateRequest)
    (w w1 : World σ) (query : List RegoArg)
    (hq : prepareQuery s (evaluationID s w req).2 req.Repository req.Group req.PolicyName
      req.Version ctx = (Except.ok query, w1)) :
    ∃ tail, (Evaluate s ctx req w).2.calls = w1.calls ++ Call.regoEval query req.Input :: tail ∧
      ∀ c ∈ tail, c.isRegoEval = false := by
  rcases he : s.regoEval w1.st query req.Input with ⟨re, st2⟩
  cases re with
  | error err =>
    exact ⟨[], by simp [Evaluate, hq, callRegoEval, he], by simp⟩
  | ok rs =>
    match rs, he with
    | [], he => exact ⟨[], by simp [Evaluate, hq, callRegoEval, he], by simp⟩
    | [] :: _, he => exact ⟨[], by simp [Evaluate, hq, callRegoEval, he], by simp⟩
    | (value :: rest) :: more, he =>
      cases hm : s.jsonMarshal (normalizeResult value) with
      | error err => exact ⟨[], by simp [Evaluate, hq, callRegoEval, he, hm], by simp⟩
      | ok jsonValue =>
        refine ⟨[Call.cacheSet (evaluationID s w req).1 "" "" jsonValue (ttlOf req)], ?_,
          by simp [Call.isRegoEval]⟩
        rcases hc : s.cacheSet st2 (evaluationID s w req).1 "" "" jsonValue (ttlOf req)
          with ⟨rc, st3⟩
        cases rc with
        | none => simp [Evaluate, hq, callRegoEval, he, hm, callCacheSet, hc]
        | some e =>
          by_cases hIs : errors.Is Kind.ServiceUnavailable e = true <;>
            simp [Evaluate, hq, callRegoEval, he, hm, callCacheSet, hc, hIs]

/-- C7, as the code has it: when the compiled-policy cache holds no entry
under the key of the request and storage returns the policy `P` (as it does
after a successful SavePolicy of `P`), Evaluate runs the engine exactly once,
on the rule text of `P` and, when `P` has static data, on that data. -/
theorem Evaluate_after_save_on_miss (s : Service σ) (ctx : Headers) (req : EvaluateRequest)
    (w : World σ) (P : Policy) (st1 st2 : σ) (args : List RegoArg)
    (hmiss : s.policyCacheGet (evaluationID s w req).2.st
      (queryCacheKey req.Repository req.Group req.PolicyName req.Version) = (none, st1))
    (hstore : s.storagePolicy st1 req.Repository req.Group req.PolicyName req.Version
      = (Except.ok P, st2))
    (hunlocked : P.Locked = false)
    (hargs : buildRegoArgs s P.Filename P.Rego ("data." ++ req.Group ++ "." ++ req.PolicyName)
      P.Data = Except.ok args)
    (hprep : s.regoPrepareForEval (args ++ [RegoArg.Function1 ctx]) = none) :
    (newCalls w (Evaluate s ctx req w).2).filter Call.isRegoEval
      = [Call.regoEval (args ++ [RegoArg.Function1 ctx]) req.Input] ∧
    args.head? = some (RegoArg.Module P.Filename P.Rego) ∧
    (P.Data = "" → ∀ d, RegoArg.Store d ∉ args) ∧
    (P.Data ≠ "" → ∃ data, s.jsonUnmarshalObject P.Data = Except.ok data ∧
      args.getLast? = some (RegoArg.Store data)) := by
  obtain ⟨l0, hl0, hq0⟩ := evaluationID_calls s w req
  have hq : prepareQuery s (evaluationID s w req).2 req.Repository req.Group req.PolicyName
      req.Version ctx = (Except.ok (args ++ [RegoArg.Function1 ctx]),
        callPolicyCacheSet s
          { st := st2,
            calls := (evaluationID s w req).2.calls ++
              [Call.policyCacheGet
                (queryCacheKey req.Repository req.Group req.PolicyName req.Version)] ++
              [Call.storagePolicy req.Repository req.Group req.PolicyName req.Version] }
          (queryCacheKey req.Repository req.Group req.PolicyName req.Version) P) := by
    simp [prepareQuery, retrievePolicy, callPolicyCacheGet, callStoragePolicy, hmiss, hstore,
      hunlocked, hargs, hprep]
  obtain ⟨tail, htail, hno⟩ := Evaluate_calls_of_prepared s ctx req w _ _ hq
  have hfl0 : l0.filter Call.isRegoEval = [] := by
    rw [List.filter_eq_nil_iff]
    intro c hc
    simp [(hq0 c hc).2.2]
  have hft : tail.filter Call.isRegoEval = [] := by
    rw [List.filter_eq_nil_iff]
    intro c hc
    simp [hno c hc]
  refine ⟨?_, ?_, ?_, ?_⟩
  · simp [newCalls, htail, callPolicyCacheSet, hl0, List.filter_append, hfl0, hft,
      Call.isRegoEval, List.filter]
  · unfold buildRegoArgs at hargs
    by_cases hd : P.Data = ""
    · simp [hd] at hargs
      rw [← hargs]
      rfl
    · simp only [ne_eq, hd, not_false_eq_true, if_true] at hargs
      cases hu : s.jsonUnmarshalObject P.Data with
      | error e => simp [hu] at hargs
      | ok data =>
        simp only [hu, Except.ok.injEq] at hargs
        rw [← hargs]
        rfl
  · intro hd d
    unfold buildRegoArgs at hargs
    simp [hd] at hargs
    rw [← hargs]
    simp
  · intro hd
    unfold buildRegoArgs at hargs
    simp only [ne_eq, hd, not_false_eq_true, if_true] at hargs
    cases hu : s.jsonUnmarshalObject P.Data with
    | error e => simp [hu] at hargs
    | ok data =>
      simp only [hu, Except.ok.injEq] at hargs
      refine ⟨data, rfl, ?_⟩
      rw [← hargs]
      exact List.getLast?_concat _

/-- The in-memory backend after a save and a purge: Evaluate runs the engine
on the new rule text. -/
theorem Evaluate_after_save_on_miss_witness :
    (newCalls purgedAfterSave (Evaluate memService [] testReq purgedAfterSave).2).filter
        Call.isRegoEval
      = [Call.regoEval
          ([RegoArg.Module "policy.rego" "deny", RegoArg.Query "data.testgroup.example",
            RegoArg.StrictBuiltinErrors true] ++ [RegoArg.Function1 []])
          (some (Value.string "yes"))] ∧
    [RegoArg.Module "policy.rego" "deny", RegoArg.Query "data.testgroup.example",
        RegoArg.StrictBuiltinErrors true].head?
      = some (RegoArg.Module newPolicy.Filename newPolicy.Rego) :=
  ⟨(Evaluate_after_save_on_miss memService [] testReq purgedAfterSave newPolicy _ _
      [RegoArg.Module "policy.rego" "deny", RegoArg.Query "data.testgroup.example",
        RegoArg.StrictBuiltinErrors true] rfl rfl rfl rfl rfl).1,
   (Evaluate_after_save_on_miss memService [] testReq purgedAfterSave newPolicy _ _
      [RegoArg.Module "policy.rego" "deny", RegoArg.Query "data.testgroup.example",
        RegoArg.StrictBuiltinErrors true] rfl rfl rfl rfl rfl).2.1⟩

/-- C7, as stated, fails: the policy of the tests is evaluated once, which
caches it; the policy with the new rule text is saved under the same
coordinates and storage returns it; the next Evaluate still runs the engine on
the rule text cached before the save and returns its result. -/
theorem Evaluate_after_save_stale :
    (callSavePolicy memService (Evaluate memService [] testReq (memWith [testPolicy])).2
        newPolicy).1 = none ∧
    (memService.storagePolicy afterSave.st "policies" "testgroup" "example" "1.0").1
      = Except.ok newPolicy ∧
    newPolicy.Rego = "deny" ∧
    (newCalls afterSave (Evaluate memService [] testReq afterSave).2).filter Call.isRegoEval
      = [Call.regoEval
          [RegoArg.Module "policy.rego" "allow", RegoArg.Query "data.testgroup.example",
            RegoArg.StrictBuiltinErrors true, RegoArg.Function1 []]
          (some (Value.string "yes"))] ∧
    (Evaluate memService [] testReq afterSave).1
      = Except.ok { Result := Value.object [("allow", Value.string "yes")], ETag := "id-2" } ∧
    (newCalls afterSave (Evaluate memService [] testReq afterSave).2).filter Call.isStoragePolicy
      = [] :=
  ⟨rfl, rfl, rfl, rfl, rfl, rfl⟩

/-- C10: a policy without output schema is not validated: Validate fails with
an error of kind BadRequest and the message "validation schema for policy
output is not found", and between its start and its end calls neither
`Cache.Set` nor `SetPolicyLock` nor the rule engine. -/
theorem Validate_empty_schema (s : Service σ) (ctx : Headers) (req : EvaluateRequest)
    (w w1 : World σ) (pol : Policy)
    (hret : retrievePolicy s w req.Repository req.Group req.PolicyName req.Version
      = (Except.ok pol, w1))
    (hschema : pol.OutputSchema = "") :
    (Validate s ctx req w).1
      = Except.error
          (Error.leaf Kind.BadRequest "validation schema for policy output is not found") ∧
    (∀ c ∈ newCalls w (Validate s ctx req w).2,
      c.isCacheSet = false ∧ c.isSetPolicyLock = false ∧ c.isRegoEval = false) := by
  have hv : Validate s ctx req w
      = (Except.error
          (Error.leaf Kind.BadRequest "validation schema for policy output is not found"),
         w1) := by
    simp [Validate, hret, hschema, errors.New]
  obtain ⟨l, hl, hquiet⟩ := retrievePolicy_calls s w req.Repository req.Group req.PolicyName
    req.Version
  rw [hret] at hl
  simp only at hl
  rw [hv]
  refine ⟨rfl, ?_⟩
  intro c hc
  simp only [newCalls, hl, List.drop_left] at hc
  exact hquiet c hc

/-- The policy of the tests has no output schema: its validation is refused
and nothing is evaluated, cached or locked. -/
theorem Validate_empty_schema_witness :
    (Validate memService [] testReq (memWith [testPolicy])).1
      = Except.error
          (Error.leaf Kind.BadRequest "validation schema for policy output is not found") ∧
    (∀ c ∈ newCalls (memWith [testPolicy]) (Validate memService [] testReq (memWith [testPolicy])).2,
      c.isCacheSet = false ∧ c.isSetPolicyLock = false ∧ c.isRegoEval = false) :=
  Validate_empty_schema memService [] testReq (memWith [testPolicy]) _ testPolicy rfl rfl

end Evaluation

/-! ## Validate -/

section Validation

variable {σ : Type}

/-- Validate, once the policy is retrieved, has an output schema that
compiles, and is evaluated: what remains is the validation of the result. -/
theorem Validate_of_steps (s : Service σ) (ctx : Headers) (req : EvaluateRequest)
    (w w1 w2 : World σ) (pol : Policy) (res : EvaluateResult)
    (hret : retrievePolicy s w req.Repository req.Group req.PolicyName req.Version
      = (Except.ok pol, w1))
    (hschema : pol.OutputSchema ≠ "")
    (heval : Evaluate s ctx req w1 = (Except.ok res, w2))
    (hcompile : s.jsonschemaCompileString pol.OutputSchema = none) :
    Validate s ctx req w =
      match s.jsonschemaValidate pol.OutputSchema res.Result with
      | some err =>
        (Except.error
          (errors.New Kind.Unknown "policy output schema validation failed" (some err)),
         if s.validationLock then (lock s w2 pol).2 else w2)
      | none => (Except.ok res, w2) := by
  simp only [Validate, hret, hschema, if_false, heval, hcompile]

/-- The calls of Validate up to the validation of the result reach neither
the policy lock nor anything but retrieval, one run of the engine and one
`Cache.Set`. -/
theorem Validate_calls_before_validation (s : Service σ) (ctx : Headers)
    (req : EvaluateRequest) (w w1 w2 : World σ) (pol : Policy) (res : EvaluateResult)
    (hret : retrievePolicy s w req.Repository req.Group req.PolicyName req.Version
      = (Except.ok pol, w1))
    (heval : Evaluate s ctx req w1 = (Except.ok res, w2)) :
    ∃ l, w2.calls = w.calls ++ l ∧ l.filter Call.isSetPolicyLock = [] := by
  obtain ⟨l1, hl1, hq1⟩ := retrievePolicy_calls s w req.Repository req.Group req.PolicyName
    req.Version
  rw [hret] at hl1
  simp only at hl1
  obtain ⟨l2, query, jsonValue, hq2, _, hcalls⟩ := Evaluate_ok_calls s ctx req w1 w2 res heval
  refine ⟨l1 ++ (l2 ++ [Call.regoEval query req.Input,
    Call.cacheSet res.ETag "" "" jsonValue (ttlOf req)]), ?_, ?_⟩
  · rw [hcalls, hl1, List.append_assoc]
  · rw [List.filter_eq_nil_iff]
    intro c hc
    simp only [List.mem_append, List.mem_cons, List.mem_singleton, List.not_mem_nil,
      or_false] at hc
    rcases hc with hc | hc | hc | hc
    · simp [(hq1 c hc).2.1]
    · simp [(hq2 c hc).2.1]
    · subst hc
      simp [Call.isSetPolicyLock]
    · subst hc
      simp [Call.isSetPolicyLock]

/-- C11: a result that violates the output schema. When the policy has an
output schema that compiles and Evaluate succeeds with a result the schema
validator rejects with an error of its own, Validate returns no result and
fails with the error "policy output schema validation failed" of kind Unknown
wrapping that validation error, under both settings of validationLock and
whatever the lock attempt returns. -/
theorem Validate_schema_violation (s : Service σ) (ctx : Headers) (req : EvaluateRequest)
    (w w1 w2 : World σ) (pol : Policy) (res : EvaluateResult) (t : String)
    (hret : retrievePolicy s w req.Repository req.Group req.PolicyName req.Version
      = (Except.ok pol, w1))
    (hschema : pol.OutputSchema ≠ "")
    (heval : Evaluate s ctx req w1 = (Except.ok res, w2))
    (hcompile : s.jsonschemaCompileString pol.OutputSchema = none)
    (hviolate : s.jsonschemaValidate pol.OutputSchema res.Result = some (Error.foreign t)) :
    ∀ b, (Validate (withValidationLock s b) ctx req w).1
      = Except.error (Error.wrap Kind.Unknown "policy output schema validation failed"
          (Error.foreign t)) := by
  intro b
  have h := Validate_of_steps (withValidationLock s b) ctx req w w1 w2 pol res hret hschema
    heval hcompile
  rw [h]
  have hv : (withValidationLock s b).jsonschemaValidate pol.OutputSchema res.Result
      = some (Error.foreign t) := hviolate
  rw [hv]
  rfl

/-- A run on the in-memory backend with a validator that rejects the result:
the validation error is returned with and without validationLock, also with a
storage whose `SetPolicyLock` fails. -/
theorem Validate_schema_violation_witness :
    (∀ b, (Validate (withValidationLock schemaViolationService b) [] testReq
        (memWith [schemaPolicy])).1
      = Except.error (Error.wrap Kind.Unknown "policy output schema validation failed"
          (Error.foreign "missing properties: foo"))) ∧
    (∀ b, (Validate
        (withValidationLock
          { schemaViolationService with
            storageSetPolicyLock := lockFailsService.storageSetPolicyLock } b)
        [] testReq (memWith [schemaPolicy])).1
      = Except.error (Error.wrap Kind.Unknown "policy output schema validation failed"
          (Error.foreign "missing properties: foo"))) :=
  ⟨Validate_schema_violation schemaViolationService [] testReq (memWith [schemaPolicy]) _ _
      schemaPolicy { Result := Value.object [("allow", Value.string "yes")], ETag := "id-1" }
      "missing properties: foo" rfl (by decide) rfl rfl rfl,
   Validate_schema_violation
      { schemaViolationService with
        storageSetPolicyLock := lockFailsService.storageSetPolicyLock }
      [] testReq (memWith [schemaPolicy]) _ _
      schemaPolicy { Result := Value.object [("allow", Value.string "yes")], ETag := "id-1" }
      "missing properties: foo" rfl (by decide) rfl rfl rfl⟩

/-- C12: the automatic lock. When Validate finds that the result of an
unlocked policy violates the output schema, `SetPolicyLock` is called exactly
once, on the coordinates of the policy and with lock set, if validationLock is
configured, and is not called if it is not; when the result passes the
validation, `SetPolicyLock` is not called under either setting. -/
theorem Validate_lock_effect (s : Service σ) (ctx : Headers) (req : EvaluateRequest)
    (w w1 w2 : World σ) (pol : Policy) (res : EvaluateResult)
    (hret : retrievePolicy s w req.Repository req.Group req.PolicyName req.Version
      = (Except.ok pol, w1))
    (hschema : pol.OutputSchema ≠ "")
    (heval : Evaluate s ctx req w1 = (Except.ok res, w2))
    (hcompile : s.jsonschemaCompileString pol.OutputSchema = none) :
    (∀ verr, s.jsonschemaValidate pol.OutputSchema res.Result = some verr →
      pol.Locked = false →
      (newCalls w (Validate (withValidationLock s true) ctx req w).2).filter
          Call.isSetPolicyLock
        = [Call.storageSetPolicyLock pol.Repository pol.Group pol.Name pol.Version true] ∧
      (newCalls w (Validate (withValidationLock s false) ctx req w).2).filter
          Call.isSetPolicyLock = []) ∧
    (s.jsonschemaValidate pol.OutputSchema res.Result = none →
      ∀ b, (newCalls w (Validate (withValidationLock s b) ctx req w).2).filter
          Call.isSetPolicyLock = []) := by
  obtain ⟨l, hl, hfl⟩ := Validate_calls_before_validation s ctx req w w1 w2 pol res hret heval
  have hsteps : ∀ b, Validate (withValidationLock s b) ctx req w =
      match s.jsonschemaValidate pol.OutputSchema res.Result with
      | some err =>
        (Except.error
          (errors.New Kind.Unknown "policy output schema validation failed" (some err)),
         if b then (lock s w2 pol).2 else w2)
      | none => (Except.ok res, w2) := fun b =>
    Validate_of_steps (withValidationLock s b) ctx req w w1 w2 pol res hret hschema heval
      hcompile
  constructor
  · intro verr hv hunlocked
    constructor
    · rw [hsteps true, hv]
      rcases hset : s.storageSetPolicyLock w2.st pol.Repository pol.Group pol.Name pol.Version
        true with ⟨r, st3⟩
      cases r <;>
        simp [lock, hunlocked, callSetPolicyLock, hset, newCalls, hl, List.filter_append, hfl,
          Call.isSetPolicyLock, List.filter]
    · rw [hsteps false, hv]
      simp [newCalls, hl, hfl]
  · intro hv b
    rw [hsteps b, hv]
    simp [newCalls, hl, hfl]

/-- A run on the in-memory backend with a validator that rejects the result:
with validationLock the policy is locked by one call and is locked in storage
afterwards, without it no call is made. -/
theorem Validate_lock_effect_witness :
    ((newCalls (memWith [schemaPolicy])
          (Validate (withValidationLock schemaViolationService true) [] testReq
            (memWith [schemaPolicy])).2).filter Call.isSetPolicyLock
        = [Call.storageSetPolicyLock "policies" "testgroup" "example" "1.0" true] ∧
      (newCalls (memWith [schemaPolicy])
          (Validate (withValidationLock schemaViolationService false) [] testReq
            (memWith [schemaPolicy])).2).filter Call.isSetPolicyLock = []) ∧
    (memService.storagePolicy
        (Validate (withValidationLock schemaViolationService true) [] testReq
          (memWith [schemaPolicy])).2.st "policies" "testgroup" "example" "1.0").1
      = Except.ok { schemaPolicy with Locked := true } :=
  ⟨(Validate_lock_effect schemaViolationService [] testReq (memWith [schemaPolicy]) _ _
      schemaPolicy { Result := Value.object [("allow", Value.string "yes")], ETag := "id-1" }
      rfl (by decide) rfl rfl).1 (Error.foreign "missing properties: foo") rfl rfl,
   rfl⟩

end Validation

/-! ## ListPolicies -/

section Listing

variable {σ : Type}

/-- Appending one row per element is mapping. -/
theorem foldl_append_singleton {α β : Type} (f : α → β) (xs : List α) (init : List β) :
    xs.foldl (fun acc x => acc ++ [f x]) init = init ++ xs.map f := by
  induction xs generalizing init with
  | nil => simp
  | cons x xs ih => simp [ih]

/-- The rows of a successful ListPolicies. -/
theorem ListPolicies_ok (s : Service σ) (req : PoliciesRequest) (w : World σ)
    (ps : List Policy) (st1 : σ)
    (h : s.storageGetPolicies w.st req.Locked req.PolicyName = (Except.ok ps, st1)) :
    (ListPolicies s req w).1 = Except.ok { Policies := ps.map (listRow req) } := by
  simp [ListPolicies, callGetPolicies, h, foldl_append_singleton]

/-- C13: the rows of ListPolicies. When storage returns the list `ps`,
ListPolicies returns as many rows, the row at each position being made from
the policy at that position: it copies repository, group, name, version and
locked, carries lastUpdate in whole Unix seconds, and has rego, data and
dataConfig set, to the field of the policy, exactly when the flag of the
request for that field is set and true. -/
theorem ListPolicies_rows (s : Service σ) (req : PoliciesRequest) (w : World σ)
    (ps : List Policy) (st1 : σ)
    (h : s.storageGetPolicies w.st req.Locked req.PolicyName = (Except.ok ps, st1)) :
    ∃ rows : List policy.Policy, (ListPolicies s req w).1 = Except.ok { Policies := rows } ∧
      rows.length = ps.length ∧
      ∀ (i : Nat) (p : Policy), ps[i]? = some p →
        ∃ r : policy.Policy, rows[i]? = some r ∧
          r.Repository = p.Repository ∧ r.Group = p.Group ∧ r.PolicyName = p.Name ∧
          r.Version = p.Version ∧ r.Locked = p.Locked ∧
          (1000000000 * r.LastUpdate ≤ p.LastUpdate ∧
            p.LastUpdate < 1000000000 * (r.LastUpdate + 1)) ∧
          (r.Rego = if req.Rego = some true then some p.Rego else none) ∧
          (r.Data = if req.Data = some true then some p.Data else none) ∧
          (r.DataConfig = if req.DataConfig = some true then some p.DataConfig else none) := by
  refine ⟨ps.map (listRow req), ListPolicies_ok s req w ps st1 h, by simp, ?_⟩
  intro i p hp
  refine ⟨listRow req p, by simp [hp], ?_⟩
  have hunix : 1000000000 * timeUnix p.LastUpdate ≤ p.LastUpdate ∧
      p.LastUpdate < 1000000000 * (timeUnix p.LastUpdate + 1) := by
    unfold timeUnix
    rw [Int.fdiv_eq_ediv _ (by decide)]
    omega
  by_cases h1 : req.Rego = some true <;> by_cases h2 : req.Data = some true <;>
    by_cases h3 : req.DataConfig = some true <;>
    simp [listRow, h1, h2, h3, hunix]

/-- The in-memory backend with two policies, listed with their rule text and
without data and data configuration. -/
theorem ListPolicies_rows_witness :
    ∃ rows : List policy.Policy,
      (ListPolicies memService listReq (memWith [testPolicy, lockedPolicy])).1
        = Except.ok { Policies := rows } ∧
      rows.length = [testPolicy, lockedPolicy].length ∧
      ∀ (i : Nat) (p : Policy), [testPolicy, lockedPolicy][i]? = some p →
        ∃ r : policy.Policy, rows[i]? = some r ∧
          r.Repository = p.Repository ∧ r.Group = p.Group ∧ r.PolicyName = p.Name ∧
          r.Version = p.Version ∧ r.Locked = p.Locked ∧
          (1000000000 * r.LastUpdate ≤ p.LastUpdate ∧
            p.LastUpdate < 1000000000 * (r.LastUpdate + 1)) ∧
          (r.Rego = if listReq.Rego = some true then some p.Rego else none) ∧
          (r.Data = if listReq.Data = some true then some p.Data else none) ∧
          (r.DataConfig
            = if listReq.DataConfig = some true then some p.DataConfig else none) :=
  ListPolicies_rows memService listReq (memWith [testPolicy, lockedPolicy])
    [testPolicy, lockedPolicy] _ rfl

end Listing

/-! ## Bundles -/

section Bundles

variable {σ : Type}

/-- A successful ExportBundle went through every step. -/
theorem ExportBundle_ok_inv (s : Service σ) (req : ExportBundleRequest) (w w2 : World σ)
    (res : ExportBundleResult) (archive : Bytes)
    (h : ExportBundle s req w = (Except.ok (res, archive), w2)) :
    ∃ pol st1 cfg bundle signature st2,
      s.storagePolicy w.st req.Repository req.Group req.PolicyName req.Version
        = (Except.ok pol, st1) ∧
      s.policyExportConfig pol = Except.ok cfg ∧
      s.createPolicyBundle pol = Except.ok bundle ∧
      s.signerSign st1 cfg.Namespace cfg.Key (s.sha256Sum256 bundle).val
        = (Except.ok signature, st2) ∧
      s.createZipArchive
        [{ Name := BundleFilename, Content := bundle },
         { Name := BundleSignatureFilename, Content := signature }] = Except.ok archive ∧
      res = { ContentType := "application/zip",
              ContentLength := archive.length,
              ContentDisposition := "attachment; filename=\"" ++
                stringsTrimSpace (pol.Repository ++ "_" ++ pol.Group ++ "_" ++ pol.Name ++ "_" ++
                  pol.Version ++ ".zip") ++ "\"" } ∧
      w2 = { st := st2,
             calls := w.calls ++
               [Call.storagePolicy req.Repository req.Group req.PolicyName req.Version,
                Call.signerSign cfg.Namespace cfg.Key (s.sha256Sum256 bundle).val] } := by
  rcases hp : s.storagePolicy w.st req.Repository req.Group req.PolicyName req.Version
    with ⟨rp, st1⟩
  cases rp with
  | error e => simp [ExportBundle, callStoragePolicy, hp] at h
  | ok pol =>
    cases hc : s.policyExportConfig pol with
    | error e =>
      by_cases hnf : e = errExportConfigNotFound <;>
        simp [ExportBundle, callStoragePolicy, hp, hc, hnf] at h
    | ok cfg =>
      cases hb : s.createPolicyBundle pol with
      | error e => simp [ExportBundle, callStoragePolicy, hp, hc, hb] at h
      | ok bundle =>
        rcases hs : s.signerSign st1 cfg.Namespace cfg.Key (s.sha256Sum256 bundle).val
          with ⟨rs, st2⟩
        cases rs with
        | error e => simp [ExportBundle, callStoragePolicy, hp, hc, hb, callSignerSign, hs] at h
        | ok signature =>
          cases hz : s.createZipArchive
              [{ Name := BundleFilename, Content := bundle },
               { Name := BundleSignatureFilename, Content := signature }] with
          | error e =>
            simp [ExportBundle, callStoragePolicy, hp, hc, hb, callSignerSign, hs, hz] at h
          | ok signedBundle =>
            simp only [ExportBundle, callStoragePolicy, hp, hc, hb, callSignerSign, hs, hz,
              Prod.mk.injEq, Except.ok.injEq] at h
            obtain ⟨⟨hres, harch⟩, hw⟩ := h
            subst harch
            refine ⟨pol, st1, cfg, bundle, signature, st2, rfl, hc, hb, hs, hz,
              hres.symm, ?_⟩
            rw [← hw]
            simp

/-- ExportBundle, once the policy is fetched, its export configuration read
and its bundle made: what remains is signing and the outer archive. -/
theorem ExportBundle_of_steps (s : Service σ) (req : ExportBundleRequest) (w : World σ)
    (pol : Policy) (st1 : σ) (cfg : ExportConfig) (bundle : Bytes)
    (hp : s.storagePolicy w.st req.Repository req.Group req.PolicyName req.Version
      = (Except.ok pol, st1))
    (hc : s.policyExportConfig pol = Except.ok cfg)
    (hb : s.createPolicyBundle pol = Except.ok bundle) :
    ExportBundle s req w =
      match callSignerSign s
        { st := st1,
          calls := w.calls ++
            [Call.storagePolicy req.Repository req.Group req.PolicyName req.Version] }
        cfg.Namespace cfg.Key (s.sha256Sum256 bundle).val with
      | (Except.error err, w2) => (Except.error err, w2)
      | (Except.ok signature, w2) =>
        match s.createZipArchive
          [{ Name := BundleFilename, Content := bundle },
           { Name := BundleSignatureFilename, Content := signature }] with
        | Except.error err => (Except.error err, w2)
        | Except.ok signedBundle =>
          (Except.ok
            ({ ContentType := "application/zip",
               ContentLength := signedBundle.length,
               ContentDisposition := "attachment; filename=\"" ++
                 stringsTrimSpace (pol.Repository ++ "_" ++ pol.Group ++ "_" ++ pol.Name ++ "_" ++
                   pol.Version ++ ".zip") ++ "\"" },
             signedBundle), w2) := by
  simp only [ExportBundle, callStoragePolicy, hp, hc, hb]

/-- C15: a policy without export configuration is not exported. When storage
returns a policy for which the export configuration is reported as not
defined, ExportBundle and PolicyPublicKey both fail with an error of kind
Forbidden whose cause is "policy export configuration is not defined", so
there is no archive and no key, and the signer is not called. -/
theorem export_without_config_forbidden (s : Service σ) (reqE : ExportBundleRequest)
    (reqK : PolicyPublicKeyRequest) (w : World σ) (polE polK : Policy) (stE stK : σ)
    (hE : s.storagePolicy w.st reqE.Repository reqE.Group reqE.PolicyName reqE.Version
      = (Except.ok polE, stE))
    (hK : s.storagePolicy w.st reqK.Repository reqK.Group reqK.PolicyName reqK.Version
      = (Except.ok polK, stK))
    (hcfgE : s.policyExportConfig polE = Except.error errExportConfigNotFound)
    (hcfgK : s.policyExportConfig polK = Except.error errExportConfigNotFound) :
    ∃ err : Error,
      err.kind = Kind.Forbidden ∧ errors.Is Kind.Forbidden err = true ∧
      err.messages = ["", "policy export configuration is not defined"] ∧
      (ExportBundle s reqE w).1 = Except.error err ∧
      (newCalls w (ExportBundle s reqE w).2).filter Call.isSigner = [] ∧
      (PolicyPublicKey s reqK w).1 = Except.error err ∧
      (newCalls w (PolicyPublicKey s reqK w).2).filter Call.isSigner = [] := by
  refine ⟨errors.New Kind.Forbidden "" (some errExportConfigNotFound), rfl, rfl, rfl, ?_, ?_,
    ?_, ?_⟩
  · simp [ExportBundle, callStoragePolicy, hE, hcfgE]
  · simp [ExportBundle, callStoragePolicy, hE, hcfgE, newCalls, Call.isSigner]
  · simp [PolicyPublicKey, callStoragePolicy, hK, hcfgK]
  · simp [PolicyPublicKey, callStoragePolicy, hK, hcfgK, newCalls, Call.isSigner]

/-- The policy of the export tests without export configuration, on the
in-memory backend: neither the bundle nor the key is given out. -/
theorem export_without_config_forbidden_witness :
    ∃ err : Error,
      err.kind = Kind.Forbidden ∧ errors.Is Kind.Forbidden err = true ∧
      err.messages = ["", "policy export configuration is not defined"] ∧
      (ExportBundle memService exportReq (memWith [unexportablePolicy])).1 = Except.error err ∧
      (newCalls (memWith [unexportablePolicy])
        (ExportBundle memService exportReq (memWith [unexportablePolicy])).2).filter
          Call.isSigner = [] ∧
      (PolicyPublicKey memService keyReq (memWith [unexportablePolicy])).1 = Except.error err ∧
      (newCalls (memWith [unexportablePolicy])
        (PolicyPublicKey memService keyReq (memWith [unexportablePolicy])).2).filter
          Call.isSigner = [] :=
  export_without_config_forbidden memService exportReq keyReq (memWith [unexportablePolicy])
    unexportablePolicy unexportablePolicy _ _ rfl rfl rfl rfl

/-- C16: the outer archive of a successful ExportBundle is the archive made
of two files, in this order: `policy_bundle.zip` holding the bytes of the
inner bundle of the stored policy, and `signature.raw` holding the bytes
`Signer.Sign` returned. -/
theorem ExportBundle_archive_entries (s : Service σ) (req : ExportBundleRequest)
    (w w2 : World σ) (res : ExportBundleResult) (archive : Bytes)
    (h : ExportBundle s req w = (Except.ok (res, archive), w2)) :
    ∃ (pol : Policy) (st1 : σ) (cfg : ExportConfig) (bundle signature : Bytes) (st2 : σ),
      s.storagePolicy w.st req.Repository req.Group req.PolicyName req.Version
        = (Except.ok pol, st1) ∧
      s.createPolicyBundle pol = Except.ok bundle ∧
      s.signerSign st1 cfg.Namespace cfg.Key (s.sha256Sum256 bundle).val
        = (Except.ok signature, st2) ∧
      s.createZipArchive
        [{ Name := "policy_bundle.zip", Content := bundle },
         { Name := "signature.raw", Content := signature }] = Except.ok archive := by
  obtain ⟨pol, st1, cfg, bundle, signature, st2, hp, _, hb, hs, hz, _, _⟩ :=
    ExportBundle_ok_inv s req w w2 res archive h
  exact ⟨pol, st1, cfg, bundle, signature, st2, hp, hb, hs, hz⟩

/-- The export of the policy of the export tests on the in-memory backend:
the second file of the archive holds the signature of the stand-in signer. -/
theorem ExportBundle_archive_entries_witness :
    ∃ (pol : Policy) (st1 : Mem) (cfg : ExportConfig) (bundle signature : Bytes) (st2 : Mem),
      memService.storagePolicy (memWith [exportPolicy]).st "myrepo" "mygroup" "myname" "1.52"
        = (Except.ok pol, st1) ∧
      memService.createPolicyBundle pol = Except.ok bundle ∧
      memService.signerSign st1 cfg.Namespace cfg.Key (memService.sha256Sum256 bundle).val
        = (Except.ok signature, st2) ∧
      memService.createZipArchive
        [{ Name := "policy_bundle.zip", Content := bundle },
         { Name := "signature.raw", Content := signature }] = Except.ok exportedArchive :=
  ExportBundle_archive_entries memService exportReq (memWith [exportPolicy]) _ exportedResult
    exportedArchive rfl

/-- C17: signing in ExportBundle. Once the policy is fetched, its export
configuration read and its inner bundle made, the signer is called exactly
once, with the namespace and key of the export configuration and with the
32-byte digest of the inner bundle, not with the bundle; an error of `Sign` is
returned as it is, with no result; and on success the bytes that were digested
are the content of the `policy_bundle.zip` file. -/
theorem ExportBundle_signs_digest (s : Service σ) (req : ExportBundleRequest) (w : World σ)
    (pol : Policy) (st1 : σ) (cfg : ExportConfig) (bundle : Bytes)
    (hp : s.storagePolicy w.st req.Repository req.Group req.PolicyName req.Version
      = (Except.ok pol, st1))
    (hc : s.policyExportConfig pol = Except.ok cfg)
    (hb : s.createPolicyBundle pol = Except.ok bundle) :
    (newCalls w (ExportBundle s req w).2).filter Call.isSigner
      = [Call.signerSign cfg.Namespace cfg.Key (s.sha256Sum256 bundle).val] ∧
    (s.sha256Sum256 bundle).val.length = 32 ∧
    (bundle.length ≠ 32 → (s.sha256Sum256 bundle).val ≠ bundle) ∧
    (∀ e st2, s.signerSign st1 cfg.Namespace cfg.Key (s.sha256Sum256 bundle).val
        = (Except.error e, st2) →
      (ExportBundle s req w).1 = Except.error e) ∧
    (∀ res archive, (ExportBundle s req w).1 = Except.ok (res, archive) →
      ∃ signature st2,
        s.signerSign st1 cfg.Namespace cfg.Key (s.sha256Sum256 bundle).val
          = (Except.ok signature, st2) ∧
        s.createZipArchive
          [{ Name := "policy_bundle.zip", Content := bundle },
           { Name := "signature.raw", Content := signature }] = Except.ok archive) := by
  have hsteps := ExportBundle_of_steps s req w pol st1 cfg bundle hp hc hb
  rcases hs : s.signerSign st1 cfg.Namespace cfg.Key (s.sha256Sum256 bundle).val with ⟨rs, st2⟩
  simp only [callSignerSign, hs] at hsteps
  refine ⟨?_, (s.sha256Sum256 bundle).property, ?_, ?_, ?_⟩
  · cases rs with
    | error e => simp [hsteps, newCalls, Call.isSigner, List.filter]
    | ok signature =>
      simp only at hsteps
      cases hz : s.createZipArchive
          [{ Name := BundleFilename, Content := bundle },
           { Name := BundleSignatureFilename, Content := signature }] <;>
        simp [hsteps, hz, newCalls, Call.isSigner, List.filter]
  · intro hlen heq
    exact hlen (heq ▸ (s.sha256Sum256 bundle).property)
  · intro e st3 he
    simp only [Prod.mk.injEq] at he
    rw [hsteps, he.1]
  · intro res archive hok
    cases rs with
    | error e => simp [hsteps] at hok
    | ok signature =>
      simp only at hsteps
      cases hz : s.createZipArchive
          [{ Name := BundleFilename, Content := bundle },
           { Name := BundleSignatureFilename, Content := signature }] with
      | error e => simp [hsteps, hz] at hok
      | ok signedBundle =>
        simp only [hsteps, hz, Except.ok.injEq, Prod.mk.injEq] at hok
        refine ⟨signature, st2, rfl, ?_⟩
        rw [← hok.2]
        exact hz

/-- Two runs on the in-memory backend: the export of the policy of the export
tests calls the signer once, with the namespace, the key and the digest; with
a signer that fails, the error of the signer is returned. -/
theorem ExportBundle_signs_digest_witness :
    ((newCalls (memWith [exportPolicy])
        (ExportBundle memService exportReq (memWith [exportPolicy])).2).filter Call.isSigner
      = [Call.signerSign "transit" "key1" (memService.sha256Sum256 exportedBundle).val] ∧
      (memService.sha256Sum256 exportedBundle).val.length = 32) ∧
    (ExportBundle signFailsService exportReq (memWith [exportPolicy])).1
      = Except.error (Error.foreign "error signing data") :=
  ⟨⟨(ExportBundle_signs_digest memService exportReq (memWith [exportPolicy]) exportPolicy
        (memWith [exportPolicy]).st { Namespace := "transit", Key := "key1" } exportedBundle
        rfl rfl rfl).1,
     (ExportBundle_signs_digest memService exportReq (memWith [exportPolicy]) exportPolicy
        (memWith [exportPolicy]).st { Namespace := "transit", Key := "key1" } exportedBundle
        rfl rfl rfl).2.1⟩,
   (ExportBundle_signs_digest signFailsService exportReq (memWith [exportPolicy]) exportPolicy
      (memWith [exportPolicy]).st { Namespace := "transit", Key := "key1" } exportedBundle
      rfl rfl rfl).2.2.2.1
      (Error.foreign "error signing data") (memWith [exportPolicy]).st rfl⟩

/-- Trimming leaves a text that neither begins nor ends with white space as
it is. -/
theorem dropWhile_both_ends (l : List Char)
    (hfirst : ∀ c rest, l = c :: rest → unicodeIsSpace c = false)
    (hlast : ∀ c init, l = init ++ [c] → unicodeIsSpace c = false) :
    ((l.dropWhile unicodeIsSpace).reverse.dropWhile unicodeIsSpace).reverse = l := by
  have h1 : l.dropWhile unicodeIsSpace = l := by
    cases l with
    | nil => rfl
    | cons c rest => simp [List.dropWhile, hfirst c rest rfl]
  rw [h1]
  have h2 : l.reverse.dropWhile unicodeIsSpace = l.reverse := by
    cases hr : l.reverse with
    | nil => rfl
    | cons c rest =>
      have hl : l = rest.reverse ++ [c] := by
        have := congrArg List.reverse hr
        simpa using this
      simp [List.dropWhile, hlast c rest.reverse hl]
  rw [h2, List.reverse_reverse]

/-- The file name of an export is left as it is by trimming when the name of
the repository does not begin with white space. -/
theorem stringsTrimSpace_filename (repository group name version : String)
    (hrepo : ∀ c rest, repository.data = c :: rest → unicodeIsSpace c = false) :
    stringsTrimSpace (repository ++ "_" ++ group ++ "_" ++ name ++ "_" ++ version ++ ".zip")
      = repository ++ "_" ++ group ++ "_" ++ name ++ "_" ++ version ++ ".zip" := by
  unfold stringsTrimSpace
  rw [dropWhile_both_ends]
  · intro c rest hl
    simp only [String.data_append] at hl
    cases hr : repository.data with
    | nil =>
      rw [hr] at hl
      have hc : c = '_' := by
        have := congrArg List.head? hl
        simpa using this.symm
      rw [hc]
      decide
    | cons a as =>
      rw [hr] at hl
      have hc : c = a := by
        have := congrArg List.head? hl
        simpa using this.symm
      rw [hc]
      exact hrepo a as hr
  · intro c init hl
    simp only [String.data_append] at hl
    have hc : c = 'p' := by
      have := congrArg List.reverse hl
      simp only [List.reverse_append, List.reverse_cons, List.reverse_nil, List.nil_append,
        List.singleton_append, List.cons_append, List.cons.injEq] at this
      exact this.1.symm
    rw [hc]
    decide

/-- C18, as the code has it: a successful ExportBundle of the stored policy
has content-type `application/zip`, a content length equal to the number of
bytes of the archive its reader yields, and the content-disposition
`attachment; filename="F"` where `F` is `<repo>_<group>_<name>_<version>.zip`,
built from the coordinates of the stored policy, with leading white space
trimmed; `F` is that text itself when the name of the repository does not
begin with white space. -/
theorem ExportBundle_result_headers (s : Service σ) (req : ExportBundleRequest)
    (w w2 : World σ) (res : ExportBundleResult) (archive : Bytes)
    (h : ExportBundle s req w = (Except.ok (res, archive), w2)) :
    ∃ pol st1,
      s.storagePolicy w.st req.Repository req.Group req.PolicyName req.Version
        = (Except.ok pol, st1) ∧
      res.ContentType = "application/zip" ∧
      res.ContentLength = archive.length ∧
      res.ContentDisposition = "attachment; filename=\"" ++
        stringsTrimSpace (pol.Repository ++ "_" ++ pol.Group ++ "_" ++ pol.Name ++ "_" ++
          pol.Version ++ ".zip") ++ "\"" ∧
      ((∀ c rest, pol.Repository.data = c :: rest → unicodeIsSpace c = false) →
        res.ContentDisposition = "attachment; filename=\"" ++
          (pol.Repository ++ "_" ++ pol.Group ++ "_" ++ pol.Name ++ "_" ++ pol.Version ++ ".zip")
          ++ "\"") := by
  obtain ⟨pol, st1, cfg, bundle, signature, st2, hp, _, _, _, _, hres, _⟩ :=
    ExportBundle_ok_inv s req w w2 res archive h
  refine ⟨pol, st1, hp, by rw [hres], by rw [hres], by rw [hres], ?_⟩
  intro hrepo
  rw [hres]
  simp only
  rw [stringsTrimSpace_filename _ _ _ _ hrepo]

/-- The export of the policy of the export tests on the in-memory backend has
the headers of the tests. -/
theorem ExportBundle_result_headers_witness :
    ∃ pol st1,
      memService.storagePolicy (memWith [exportPolicy]).st "myrepo" "mygroup" "myname" "1.52"
        = (Except.ok pol, st1) ∧
      exportedResult.ContentType = "application/zip" ∧
      exportedResult.ContentLength = exportedArchive.length ∧
      exportedResult.ContentDisposition = "attachment; filename=\"" ++
        stringsTrimSpace (pol.Repository ++ "_" ++ pol.Group ++ "_" ++ pol.Name ++ "_" ++
          pol.Version ++ ".zip") ++ "\"" ∧
      ((∀ c rest, pol.Repository.data = c :: rest → unicodeIsSpace c = false) →
        exportedResult.ContentDisposition = "attachment; filename=\"" ++
          (pol.Repository ++ "_" ++ pol.Group ++ "_" ++ pol.Name ++ "_" ++ pol.Version ++ ".zip")
          ++ "\"") :=
  ExportBundle_result_headers memService exportReq (memWith [exportPolicy]) _ exportedResult
    exportedArchive rfl

/-- C18, as stated, fails: the stored policy is in the repository ` myrepo`,
whose name begins with a blank; its export succeeds and the file name of the
content-disposition begins with `myrepo`, so it is not the text built from the
coordinates of the stored policy. -/
theorem ExportBundle_filename_trimmed :
    (memService.storagePolicy (memWith [spacedPolicy]).st " myrepo" "mygroup" "myname" "1.52").1
      = Except.ok spacedPolicy ∧
    (ExportBundle memService spacedReq (memWith [spacedPolicy])).1.map
        (fun r => r.1.ContentDisposition)
      = Except.ok "attachment; filename=\"myrepo_mygroup_myname_1.52.zip\"" ∧
    "attachment; filename=\"myrepo_mygroup_myname_1.52.zip\"" ≠
      "attachment; filename=\"" ++
        (spacedPolicy.Repository ++ "_" ++ spacedPolicy.Group ++ "_" ++ spacedPolicy.Name ++ "_" ++
          spacedPolicy.Version ++ ".zip") ++ "\"" :=
  ⟨rfl, rfl, by decide⟩

end Bundles

/-! ## SubscribeForPolicyChange -/

section Subscriptions

variable {σ : Type}

/-- A subscriber that storage reports is not created again. -/
theorem Subscribe_existing (s : Service σ) (req : SubscribeRequest) (w : World σ)
    (pol : Policy) (st1 st2 : σ) (sub : Subscriber) (oerr : Option Error)
    (hpol : s.storagePolicy w.st req.Repository req.Group req.PolicyName req.Version
      = (Except.ok pol, st1))
    (hsub : s.storageSubscriber st1 req.Repository req.Group req.PolicyName req.Version
      req.WebhookURL req.Subscriber = ((some sub, oerr), st2))
    (hnf : ∀ e, oerr = some e → errors.Is Kind.NotFound e = true) :
    SubscribeForPolicyChange s req w
      = (Except.error subscriberExists,
         { st := st2,
           calls := w.calls ++
             [Call.storagePolicy req.Repository req.Group req.PolicyName req.Version,
              Call.storageSubscriber req.Repository req.Group req.PolicyName req.Version
                req.WebhookURL req.Subscriber] }) := by
  cases oerr with
  | none =>
    simp [SubscribeForPolicyChange, callStoragePolicy, callSubscriber, hpol, hsub, errors.New,
      subscriberExists]
  | some e =>
    simp [SubscribeForPolicyChange, callStoragePolicy, callSubscriber, hpol, hsub, errors.New,
      subscriberExists, hnf e rfl]

/-- On the in-memory backend, a subscribe request for a stored policy whose
subscriber is not recorded records it. -/
theorem memService_subscribe_new (req : SubscribeRequest) (w : World Mem) (p : Policy)
    (hpol : w.st.find req.Repository req.Group req.PolicyName req.Version = some p)
    (hnone : w.st.subscribers.find? (Mem.sameSubscription req.Repository req.Group
      req.PolicyName req.Version req.WebhookURL req.Subscriber) = none) :
    SubscribeForPolicyChange memService req w
      = (Except.ok (subscriberOf req),
         { st := { w.st with subscribers := w.st.subscribers ++ [subscriberOf req] },
           calls := w.calls ++
             [Call.storagePolicy req.Repository req.Group req.PolicyName req.Version,
              Call.storageSubscriber req.Repository req.Group req.PolicyName req.Version
                req.WebhookURL req.Subscriber,
              Call.storageCreateSubscriber (subscriberOf req)] }) := by
  simp [SubscribeForPolicyChange, callStoragePolicy, callSubscriber, callCreateSubscriber,
    memService, Mem.policy, Mem.subscriber, Mem.createSubscriber, hpol, hnone, errors.New,
    errors.Is, subscriberOf]

/-- On the in-memory backend, a subscribe request for a stored policy whose
subscriber is recorded fails and changes nothing in storage. -/
theorem memService_subscribe_again (req : SubscribeRequest) (w : World Mem) (p : Policy)
    (x : Subscriber)
    (hpol : w.st.find req.Repository req.Group req.PolicyName req.Version = some p)
    (hsome : w.st.subscribers.find? (Mem.sameSubscription req.Repository req.Group
      req.PolicyName req.Version req.WebhookURL req.Subscriber) = some x) :
    SubscribeForPolicyChange memService req w
      = (Except.error subscriberExists,
         { st := w.st,
           calls := w.calls ++
             [Call.storagePolicy req.Repository req.Group req.PolicyName req.Version,
              Call.storageSubscriber req.Repository req.Group req.PolicyName req.Version
                req.WebhookURL req.Subscriber] }) := by
  apply Subscribe_existing memService req w p w.st w.st x none
  · simp [memService, Mem.policy, hpol]
  · simp [memService, Mem.subscriber, hsome]
  · intro e he
    cases he

/-- On the in-memory backend, any number of subscribe requests for a recorded
subscriber all fail, change nothing in storage and create nothing. -/
theorem memService_subscribeTimes_again (req : SubscribeRequest) (p : Policy) (x : Subscriber)
    (n : Nat) (w : World Mem)
    (hpol : w.st.find req.Repository req.Group req.PolicyName req.Version = some p)
    (hsome : w.st.subscribers.find? (Mem.sameSubscription req.Repository req.Group
      req.PolicyName req.Version req.WebhookURL req.Subscriber) = some x) :
    (subscribeTimes memService req n w).1 = List.replicate n (Except.error subscriberExists) ∧
    (subscribeTimes memService req n w).2.st = w.st ∧
    ∃ l, (subscribeTimes memService req n w).2.calls = w.calls ++ l ∧
      l.filter Call.isCreateSubscriber = [] := by
  induction n generalizing w with
  | zero => exact ⟨rfl, rfl, [], by simp [subscribeTimes], rfl⟩
  | succ n ih =>
    have hstep := memService_subscribe_again req w p x hpol hsome
    obtain ⟨h1, h2, l, h3, h4⟩ := ih (SubscribeForPolicyChange memService req w).2
      (by rw [hstep]; exact hpol) (by rw [hstep]; exact hsome)
    rw [hstep] at h1 h2 h3
    simp only at h1 h2 h3
    refine ⟨?_, ?_, ?_⟩
    · simp only [subscribeTimes, hstep, h1, List.replicate_succ]
    · simp only [subscribeTimes, hstep, h2]
    · refine ⟨[Call.storagePolicy req.Repository req.Group req.PolicyName req.Version,
        Call.storageSubscriber req.Repository req.Group req.PolicyName req.Version
          req.WebhookURL req.Subscriber] ++ l, ?_, ?_⟩
      · simp only [subscribeTimes, hstep, h3, List.append_assoc]
      · simp [List.filter_append, h4, Call.isCreateSubscriber, List.filter]

/-- C14: no duplicate subscribers. Whenever storage reports a subscriber for
the subscription of the request, SubscribeForPolicyChange fails with the error
"subscriber already exist" of kind Exist and `CreateSubscriber` is not called.
So over the in-memory storage, which records created subscribers, a sequence
of identical subscribe requests for a stored policy records one subscriber:
when it is not recorded yet, the first request succeeds, every later one fails
with Exist, and `CreateSubscriber` is called once; when it is recorded
already, every request fails with Exist and storage is left as it was. -/
theorem Subscribe_no_duplicates :
    (∀ (σ : Type) (s : Service σ) (req : SubscribeRequest) (w : World σ) (pol : Policy)
        (st1 st2 : σ) (sub : Subscriber) (oerr : Option Error),
      s.storagePolicy w.st req.Repository req.Group req.PolicyName req.Version
        = (Except.ok pol, st1) →
      s.storageSubscriber st1 req.Repository req.Group req.PolicyName req.Version
        req.WebhookURL req.Subscriber = ((some sub, oerr), st2) →
      (∀ e, oerr = some e → errors.Is Kind.NotFound e = true) →
      (SubscribeForPolicyChange s req w).1
        = Except.error (Error.leaf Kind.Exist "subscriber already exist") ∧
      (newCalls w (SubscribeForPolicyChange s req w).2).filter Call.isCreateSubscriber = []) ∧
    (∀ (req : SubscribeRequest) (w : World Mem) (p : Policy) (n : Nat),
      w.st.find req.Repository req.Group req.PolicyName req.Version = some p →
      w.st.subscribers.find? (Mem.sameSubscription req.Repository req.Group
        req.PolicyName req.Version req.WebhookURL req.Subscriber) = none →
      (subscribeTimes memService req (n + 1) w).1
        = Except.ok (subscriberOf req) ::
            List.replicate n (Except.error (Error.leaf Kind.Exist "subscriber already exist")) ∧
      (subscribeTimes memService req (n + 1) w).2.st.subscribers
        = w.st.subscribers ++ [subscriberOf req] ∧
      (newCalls w (subscribeTimes memService req (n + 1) w).2).filter Call.isCreateSubscriber
        = [Call.storageCreateSubscriber (subscriberOf req)]) ∧
    (∀ (req : SubscribeRequest) (w : World Mem) (p : Policy) (x : Subscriber) (n : Nat),
      w.st.find req.Repository req.Group req.PolicyName req.Version = some p →
      w.st.subscribers.find? (Mem.sameSubscription req.Repository req.Group
        req.PolicyName req.Version req.WebhookURL req.Subscriber) = some x →
      (subscribeTimes memService req n w).1
        = List.replicate n (Except.error (Error.leaf Kind.Exist "subscriber already exist")) ∧
      (subscribeTimes memService req n w).2.st = w.st ∧
      (newCalls w (subscribeTimes memService req n w).2).filter Call.isCreateSubscriber
        = []) := by
  refine ⟨?_, ?_, ?_⟩
  · intro σ s req w pol st1 st2 sub oerr hpol hsub hnf
    rw [Subscribe_existing s req w pol st1 st2 sub oerr hpol hsub hnf]
    exact ⟨rfl, by simp [newCalls, Call.isCreateSubscriber, List.filter]⟩
  · intro req w p n hpol hnone
    have hstep := memService_subscribe_new req w p hpol hnone
    have hfound : (SubscribeForPolicyChange memService req w).2.st.subscribers.find?
        (Mem.sameSubscription req.Repository req.Group req.PolicyName req.Version
          req.WebhookURL req.Subscriber) = some (subscriberOf req) := by
      rw [hstep]
      simp [List.find?_append, hnone, Mem.sameSubscription, subscriberOf]
    obtain ⟨h1, h2, l, h3, h4⟩ := memService_subscribeTimes_again req p (subscriberOf req) n
      (SubscribeForPolicyChange memService req w).2 (by rw [hstep]; exact hpol) hfound
    rw [hstep] at h1 h2 h3
    simp only at h1 h2 h3
    refine ⟨?_, ?_, ?_⟩
    · simp only [subscribeTimes, hstep, h1]
      rfl
    · simp only [subscribeTimes, hstep, h2]
    · simp only [subscribeTimes, newCalls, hstep, h3]
      simp [List.filter_append, h4, Call.isCreateSubscriber, List.filter]
  · intro req w p x n hpol hsome
    obtain ⟨h1, h2, l, h3, h4⟩ := memService_subscribeTimes_again req p x n w hpol hsome
    exact ⟨h1, h2, by simp [newCalls, h3, h4]⟩

/-- A storage that reports a subscriber, as in the tests, and three identical
requests on the in-memory backend: the first records the subscriber, the two
after it fail. -/
theorem Subscribe_no_duplicates_witness :
    ((SubscribeForPolicyChange subscriberFoundService testSubscribeReq (memWith [testPolicy])).1
        = Except.error (Error.leaf Kind.Exist "subscriber already exist") ∧
      (newCalls (memWith [testPolicy])
        (SubscribeForPolicyChange subscriberFoundService testSubscribeReq
          (memWith [testPolicy])).2).filter Call.isCreateSubscriber = []) ∧
    ((subscribeTimes memService testSubscribeReq (2 + 1) (memWith [testPolicy])).1
        = Except.ok (subscriberOf testSubscribeReq) ::
            List.replicate 2 (Except.error (Error.leaf Kind.Exist "subscriber already exist")) ∧
      (subscribeTimes memService testSubscribeReq (2 + 1) (memWith [testPolicy])).2.st.subscribers
        = (memWith [testPolicy]).st.subscribers ++ [subscriberOf testSubscribeReq] ∧
      (newCalls (memWith [testPolicy])
        (subscribeTimes memService testSubscribeReq (2 + 1) (memWith [testPolicy])).2).filter
          Call.isCreateSubscriber
        = [Call.storageCreateSubscriber (subscriberOf testSubscribeReq)]) :=
  ⟨Subscribe_no_duplicates.1 Mem subscriberFoundService testSubscribeReq (memWith [testPolicy])
      testPolicy (memWith [testPolicy]).st (memWith [testPolicy]).st
      { subscriberOf testSubscribeReq with Name := "subscriber" } none rfl rfl
      (fun _ h => nomatch h),
   Subscribe_no_duplicates.2.1 testSubscribeReq (memWith [testPolicy]) testPolicy 2 rfl rfl⟩

end Subscriptions

/-! ## ImportBundle -/

section Import

variable {σ : Type}

/-- C20: malformed bundles. A payload that cannot be read, an archive that
cannot be unzipped and an archive whose number of files is not two all make
ImportBundle fail with an error of kind BadRequest, in a world left as it was:
neither the verification of the bundle nor `SavePolicy` is called. -/
theorem ImportBundle_malformed (s : Service σ) (w : World σ) :
    (∀ e, ∃ err, ImportBundle s (Except.error e) w = (Except.error err, w) ∧
      err.kind = Kind.BadRequest ∧ errors.Is Kind.BadRequest err = true ∧
      (newCalls w (ImportBundle s (Except.error e) w).2).filter
        (fun c => c.isVerifyBundle || c.isSavePolicy) = []) ∧
    (∀ archive e, s.unzip archive = Except.error e →
      ∃ err, ImportBundle s (Except.ok archive) w = (Except.error err, w) ∧
        err.kind = Kind.BadRequest ∧ errors.Is Kind.BadRequest err = true ∧
        (newCalls w (ImportBundle s (Except.ok archive) w).2).filter
          (fun c => c.isVerifyBundle || c.isSavePolicy) = []) ∧
    (∀ archive files, s.unzip archive = Except.ok files → files.length ≠ 2 →
      ∃ err, ImportBundle s (Except.ok archive) w = (Except.error err, w) ∧
        err.kind = Kind.BadRequest ∧ errors.Is Kind.BadRequest err = true ∧
        err.message = "invalid bundle" ∧
        (newCalls w (ImportBundle s (Except.ok archive) w).2).filter
          (fun c => c.isVerifyBundle || c.isSavePolicy) = []) := by
  have hnew : newCalls w w = [] := by simp [newCalls]
  refine ⟨?_, ?_, ?_⟩
  · intro e
    refine ⟨_, rfl, rfl, rfl, ?_⟩
    simp [ImportBundle, hnew]
  · intro archive e hu
    have h : ImportBundle s (Except.ok archive) w
        = (Except.error (errors.New Kind.BadRequest ""
            (some (Error.foreign ("failed to unzip bundle: " ++ s.errorString e)))), w) := by
      simp [ImportBundle, hu]
    rw [h]
    exact ⟨_, rfl, rfl, rfl, by simp [hnew]⟩
  · intro archive files hu hlen
    have h : ImportBundle s (Except.ok archive) w
        = (Except.error (errors.New Kind.BadRequest "invalid bundle"
            (some (Error.foreign
              ("expected to contain two files, but has: " ++ toString files.length)))), w) := by
      match files, hlen with
      | [], _ => simp [ImportBundle, hu]
      | [_], _ => simp [ImportBundle, hu]
      | [_, _], hlen => exact absurd rfl hlen
      | _ :: _ :: _ :: _, _ => simp [ImportBundle, hu]
    rw [h]
    exact ⟨_, rfl, rfl, rfl, rfl, by simp [hnew]⟩

/-- Four payloads on the in-memory backend: one that cannot be read, one that
is no archive, the archive of no file and an archive of three files. -/
theorem ImportBundle_malformed_witness :
    (∃ err, ImportBundle memService (Except.error (Error.foreign "unexpected EOF")) (memWith [])
        = (Except.error err, memWith []) ∧
      err.kind = Kind.BadRequest ∧ errors.Is Kind.BadRequest err = true ∧
      (newCalls (memWith [])
        (ImportBundle memService (Except.error (Error.foreign "unexpected EOF"))
          (memWith [])).2).filter (fun c => c.isVerifyBundle || c.isSavePolicy) = []) ∧
    (∃ err, ImportBundle memService (Except.ok [1, 2, 3]) (memWith [])
        = (Except.error err, memWith []) ∧
      err.kind = Kind.BadRequest ∧ errors.Is Kind.BadRequest err = true ∧
      (newCalls (memWith [])
        (ImportBundle memService (Except.ok [1, 2, 3]) (memWith [])).2).filter
          (fun c => c.isVerifyBundle || c.isSavePolicy) = []) ∧
    (∃ err, ImportBundle memService (Except.ok [0]) (memWith [])
        = (Except.error err, memWith []) ∧
      err.kind = Kind.BadRequest ∧ errors.Is Kind.BadRequest err = true ∧
      err.message = "invalid bundle" ∧
      (newCalls (memWith [])
        (ImportBundle memService (Except.ok [0]) (memWith [])).2).filter
          (fun c => c.isVerifyBundle || c.isSavePolicy) = []) ∧
    (∃ err, ImportBundle memService (Except.ok [1, 0, 0, 1, 0, 0, 1, 0, 0, 0]) (memWith [])
        = (Except.error err, memWith []) ∧
      err.kind = Kind.BadRequest ∧ errors.Is Kind.BadRequest err = true ∧
      err.message = "invalid bundle" ∧
      (newCalls (memWith [])
        (ImportBundle memService (Except.ok [1, 0, 0, 1, 0, 0, 1, 0, 0, 0])
          (memWith [])).2).filter
          (fun c => c.isVerifyBundle || c.isSavePolicy) = []) :=
  ⟨(ImportBundle_malformed memService (memWith [])).1 (Error.foreign "unexpected EOF"),
   (ImportBundle_malformed memService (memWith [])).2.1 [1, 2, 3]
      (Error.foreign "zip: not a valid zip file") rfl,
   (ImportBundle_malformed memService (memWith [])).2.2 [0] [] rfl (by decide),
   (ImportBundle_malformed memService (memWith [])).2.2 [1, 0, 0, 1, 0, 0, 1, 0, 0, 0]
      [{ Name := "", Content := [] }, { Name := "", Content := [] },
       { Name := "", Content := [] }] rfl (by decide)⟩

end Import

/-! ## The stand-in codecs read back what they write -/

section Codecs

theorem Mem.chars_bytes (cs : List Char) : Mem.chars (Mem.bytes (String.mk cs)) = cs := by
  induction cs with
  | nil => rfl
  | cons c cs ih =>
    have hlt : c.toNat < 1114112 := by
      have hv : c.val.toNat < 55296 ∨ (57343 < c.val.toNat ∧ c.val.toNat < 1114112) := c.valid
      have : c.toNat = c.val.toNat := rfl
      omega
    have hstep : Mem.bytes (String.mk (c :: cs))
        = UInt8.ofNat (c.toNat / 65536) :: UInt8.ofNat (c.toNat / 256 % 256) ::
            UInt8.ofNat (c.toNat % 256) :: Mem.bytes (String.mk cs) := rfl
    rw [hstep, Mem.chars, ih]
    have hnum : (UInt8.ofNat (c.toNat / 65536)).toNat * 65536 +
        (UInt8.ofNat (c.toNat / 256 % 256)).toNat * 256 + (UInt8.ofNat (c.toNat % 256)).toNat
        = c.toNat := by
      rw [UInt8.toNat_ofNat_of_lt (show c.toNat / 65536 < UInt8.size by
            simp only [UInt8.size]; omega),
        UInt8.toNat_ofNat_of_lt (show c.toNat / 256 % 256 < UInt8.size by
            simp only [UInt8.size]; omega),
        UInt8.toNat_ofNat_of_lt (show c.toNat % 256 < UInt8.size by
            simp only [UInt8.size]; omega)]
      omega
    rw [hnum, Char.ofNat_toNat]

/-- The stand-in conversions of texts: the text of the bytes of a text is the
text. -/
theorem Mem.text_bytes (t : String) : Mem.text (Mem.bytes t) = t := by
  cases t with
  | mk cs => simp [Mem.text, Mem.chars_bytes]

/-- Framed bytes are found again, with what follows them. -/
theorem Mem.unframe_frame (l rest : Bytes) :
    Mem.unframe (Mem.frame l ++ rest) = some (l, rest) := by
  induction l with
  | nil =>
    cases rest with
    | nil => simp [Mem.frame, Mem.unframe]
    | cons b rest => simp [Mem.frame, Mem.unframe]
  | cons b l ih =>
    simp [Mem.frame, Mem.unframe, ih]

theorem Mem.length_zipEntries (files : List ZipFile) :
    files.length < (Mem.zipEntries files).length := by
  induction files with
  | nil => simp [Mem.zipEntries]
  | cons f rest ih =>
    simp only [Mem.zipEntries, List.length_cons, List.length_append]
    omega

theorem Mem.unzipEntries_zipEntries (files : List ZipFile) (fuel : Nat)
    (h : files.length < fuel) : Mem.unzipEntries fuel (Mem.zipEntries files) = Except.ok files := by
  induction files generalizing fuel with
  | nil =>
    cases fuel with
    | zero => omega
    | succ fuel => simp [Mem.zipEntries, Mem.unzipEntries]
  | cons f rest ih =>
    cases fuel with
    | zero => omega
    | succ fuel =>
      have hrest := ih fuel (by simp only [List.length_cons] at h; omega)
      simp [Mem.zipEntries, Mem.unzipEntries, Mem.unframe_frame, hrest, Mem.text_bytes]

/-- The stand-in archives: reading an archive gives the files it was made
of. -/
theorem Mem.unzip_zip (files : List ZipFile) (archive : Bytes)
    (h : Mem.zip files = Except.ok archive) : Mem.unzip archive = Except.ok files := by
  simp only [Mem.zip, Except.ok.injEq] at h
  subst h
  exact Mem.unzipEntries_zipEntries files _ (Mem.length_zipEntries files)

/-- The stand-in metadata documents: decoding gives the metadata that was
encoded. -/
theorem Mem.unmarshal_marshal (m : spec.Metadata) (b : Bytes)
    (h : Mem.marshalMetadata m = Except.ok b) : Mem.unmarshalMetadata b = Except.ok m := by
  have hu := Mem.unzip_zip _ b h
  simp [Mem.unmarshalMetadata, hu, Mem.text_bytes]

end Codecs

/-! ## Export and import -/

section RoundTrip

variable {σ : Type}

/-- A successful ImportBundle went through every step. -/
theorem ImportBundle_ok_inv (s : Service σ) (payload : Except Error Bytes) (w w2 : World σ)
    (summary : ImportBundleResult) (h : ImportBundle s payload w = (Except.ok summary, w2)) :
    ∃ (archive : Bytes) (bundleFile signatureFile : ZipFile) (st1 : σ) (saved : Policy)
        (st2 : σ),
      payload = Except.ok archive ∧
      s.unzip archive = Except.ok [bundleFile, signatureFile] ∧
      s.verifyBundle w.st [bundleFile, signatureFile] = (none, st1) ∧
      s.policyFromBundle bundleFile.Content = Except.ok saved ∧
      s.storageSavePolicy st1 saved = (none, st2) ∧
      w2 = { st := st2,
             calls := w.calls ++
               [Call.verifyBundle [bundleFile, signatureFile], Call.storageSavePolicy saved] } ∧
      summary = { repository := saved.Repository, group := saved.Group, name := saved.Name,
                  version := saved.Version, locked := saved.Locked,
                  lastUpdate := saved.LastUpdate } := by
  cases payload with
  | error e => simp [ImportBundle] at h
  | ok archive =>
    cases hu : s.unzip archive with
    | error e => simp [ImportBundle, hu] at h
    | ok files =>
      match files, hu with
      | [], hu => simp [ImportBundle, hu] at h
      | [_], hu => simp [ImportBundle, hu] at h
      | _ :: _ :: _ :: _, hu => simp [ImportBundle, hu] at h
      | [bundleFile, signatureFile], hu =>
        rcases hv : s.verifyBundle w.st [bundleFile, signatureFile] with ⟨rv, st1⟩
        cases rv with
        | some e => simp [ImportBundle, hu, callVerifyBundle, hv] at h
        | none =>
          cases hf : s.policyFromBundle bundleFile.Content with
          | error e => simp [ImportBundle, hu, callVerifyBundle, hv, hf] at h
          | ok saved =>
            rcases hs : s.storageSavePolicy st1 saved with ⟨rs, st2⟩
            cases rs with
            | some e => simp [ImportBundle, hu, callVerifyBundle, hv, hf, callSavePolicy, hs] at h
            | none =>
              simp only [ImportBundle, hu, callVerifyBundle, hv, hf, callSavePolicy, hs,
                Prod.mk.injEq, Except.ok.injEq] at h
              refine ⟨archive, bundleFile, signatureFile, st1, saved, st2, rfl, hu, hv, hf,
                hs, ?_, h.1.symm⟩
              rw [← h.2]
              simp

/-- C19: export then import is a round trip. With the bundle functions as
the spec describes them, over codecs that read back what they write, if
ExportBundle of the stored policy `P` succeeds and ImportBundle of the archive
it produced succeeds, then `SavePolicy` is called once, with a policy that
equals `P` on repository, group, name, version, rego, data, dataConfig and
exportConfig. -/
theorem export_import_roundtrip (s : Service σ)
    (marshal : spec.Metadata → Except Error Bytes)
    (unmarshal : Bytes → Except Error spec.Metadata)
    (toBytes : String → Bytes) (toText : Bytes → String) (blank : Policy)
    (req : ExportBundleRequest) (w w2 w3 w4 : World σ)
    (res : ExportBundleResult) (archive : Bytes) (summary : ImportBundleResult)
    (hzip : ∀ files a, s.createZipArchive files = Except.ok a → s.unzip a = Except.ok files)
    (hjson : ∀ m b, marshal m = Except.ok b → unmarshal b = Except.ok m)
    (htext : ∀ t, toText (toBytes t) = t)
    (hcreate : ∀ pol, s.createPolicyBundle pol
      = spec.createPolicyBundle s.createZipArchive marshal toBytes s.externalHostname pol)
    (hparse : ∀ b, s.policyFromBundle b
      = spec.policyFromBundle s.unzip unmarshal toText blank b)
    (hexport : ExportBundle s req w = (Except.ok (res, archive), w2))
    (himport : ImportBundle s (Except.ok archive) w3 = (Except.ok summary, w4)) :
    ∃ (P : Policy) (st1 : σ) (saved : Policy),
      s.storagePolicy w.st req.Repository req.Group req.PolicyName req.Version
        = (Except.ok P, st1) ∧
      (newCalls w3 w4).filter Call.isSavePolicy = [Call.storageSavePolicy saved] ∧
      saved.Repository = P.Repository ∧ saved.Group = P.Group ∧ saved.Name = P.Name ∧
      saved.Version = P.Version ∧ saved.Rego = P.Rego ∧ saved.Data = P.Data ∧
      saved.DataConfig = P.DataConfig ∧ saved.ExportConfig = P.ExportConfig := by
  obtain ⟨P, st1, cfg, bundle, signature, st2, hp, _, hb, _, hz, _, _⟩ :=
    ExportBundle_ok_inv s req w w2 res archive hexport
  obtain ⟨archive0, bundleFile, signatureFile, st3, saved, st4, hpayload, hu, _, hf, _, hw4, _⟩ :=
    ImportBundle_ok_inv s (Except.ok archive) w3 w4 summary himport
  simp only [Except.ok.injEq] at hpayload
  subst hpayload
  -- the outer archive gives back the inner bundle
  have hfiles := hzip _ _ hz
  rw [hu] at hfiles
  simp only [Except.ok.injEq, List.cons.injEq, and_true] at hfiles
  have hcontent : bundleFile.Content = bundle := by rw [hfiles.1]
  -- the inner bundle gives back the files made from the policy
  rw [hcreate] at hb
  unfold spec.createPolicyBundle at hb
  cases hm : marshal (spec.metadataOf s.externalHostname P) with
  | error e => simp [hm] at hb
  | ok metadata =>
    simp only [hm] at hb
    have hinner := hzip _ _ hb
    have hmeta := hjson _ _ hm
    rw [hcontent, hparse] at hf
    simp only [spec.policyFromBundle, hinner, spec.bundleFiles, hmeta, Except.ok.injEq] at hf
    refine ⟨P, st1, saved, hp, ?_, ?_⟩
    · rw [hw4]
      simp [newCalls, Call.isSavePolicy, List.filter]
    · rw [← hf]
      simp [spec.metadataOf, htext]

/-- The import of the exported archive into an empty in-memory storage: the
bundle is verified and the policy it carries is saved. -/
theorem memService_import_exported :
    ImportBundle memService (Except.ok exportedArchive) (memWith [])
      = (Except.ok { repository := "myrepo", group := "mygroup", name := "myname",
                     version := "1.52", locked := false, lastUpdate := zeroTime },
         afterImport) := by
  have hmu : memService.unzip = Mem.unzip := rfl
  have hmp : memService.policyFromBundle
      = spec.policyFromBundle Mem.unzip Mem.unmarshalMetadata Mem.text zeroPolicy := rfl
  have hmv : memService.verifyBundle = Mem.verify := rfl
  have hms : memService.storageSavePolicy = Mem.savePolicy := rfl
  have harchive : Mem.zip [{ Name := BundleFilename, Content := exportedBundle },
      { Name := BundleSignatureFilename, Content := Mem.signature }]
      = Except.ok exportedArchive := rfl
  have hunzip : Mem.unzip exportedArchive
      = Except.ok [{ Name := BundleFilename, Content := exportedBundle },
          { Name := BundleSignatureFilename, Content := Mem.signature }] :=
    Mem.unzip_zip _ exportedArchive harchive
  have hbundle : Mem.zip (spec.bundleFiles Mem.bytes exportPolicy exportedMetadata)
      = Except.ok exportedBundle := rfl
  have hinner : Mem.unzip exportedBundle
      = Except.ok (spec.bundleFiles Mem.bytes exportPolicy exportedMetadata) :=
    Mem.unzip_zip _ exportedBundle hbundle
  have hmarshal : Mem.marshalMetadata (spec.metadataOf "hostname.com" exportPolicy)
      = Except.ok exportedMetadata := rfl
  have hmeta : Mem.unmarshalMetadata exportedMetadata
      = Except.ok (spec.metadataOf "hostname.com" exportPolicy) :=
    Mem.unmarshal_marshal _ exportedMetadata hmarshal
  have hparse : spec.policyFromBundle Mem.unzip Mem.unmarshalMetadata Mem.text zeroPolicy
      exportedBundle = Except.ok importedPolicy := by
    simp only [spec.policyFromBundle, hinner, spec.bundleFiles, hmeta, Mem.text_bytes]
    rfl
  have hverify : Mem.verify (memWith []).st
      [{ Name := BundleFilename, Content := exportedBundle },
       { Name := BundleSignatureFilename, Content := Mem.signature }]
      = (none, (memWith []).st) := by
    simp [Mem.verify]
  simp only [ImportBundle, hmu, hmp, hmv, hms, hunzip, callVerifyBundle, hverify, hparse,
    callSavePolicy]
  rfl

/-- The policy of the export tests, exported and imported on the in-memory
backend, whose codecs read back what they write: the policy that is saved has
the export configuration `key1` of the exported one. -/
theorem export_import_roundtrip_witness :
    (∃ (P : Policy) (st1 : Mem) (saved : Policy),
      memService.storagePolicy (memWith [exportPolicy]).st "myrepo" "mygroup" "myname" "1.52"
        = (Except.ok P, st1) ∧
      (newCalls (memWith []) afterImport).filter Call.isSavePolicy
        = [Call.storageSavePolicy saved] ∧
      saved.Repository = P.Repository ∧ saved.Group = P.Group ∧ saved.Name = P.Name ∧
      saved.Version = P.Version ∧ saved.Rego = P.Rego ∧ saved.Data = P.Data ∧
      saved.DataConfig = P.DataConfig ∧ saved.ExportConfig = P.ExportConfig) ∧
    (newCalls (memWith []) afterImport).filter Call.isSavePolicy
      = [Call.storageSavePolicy importedPolicy] ∧
    importedPolicy.ExportConfig = "key1" ∧ exportPolicy.ExportConfig = "key1" :=
  ⟨export_import_roundtrip memService Mem.marshalMetadata Mem.unmarshalMetadata Mem.bytes
    Mem.text zeroPolicy exportReq (memWith [exportPolicy]) _ (memWith []) afterImport
    exportedResult exportedArchive
    { repository := "myrepo", group := "mygroup", name := "myname", version := "1.52",
      locked := false, lastUpdate := zeroTime }
    Mem.unzip_zip Mem.unmarshal_marshal Mem.text_bytes (fun _ => rfl) (fun _ => rfl) rfl
    memService_import_exported, rfl, rfl, rfl⟩

end RoundTrip

/-! ## Bundles that are not verified -/

section Verification

variable {σ : Type}

/-- C21: a bundle whose verification fails is not imported. When the archive
holds two files and their verification fails with a cause, for whatever
reason, ImportBundle fails with the error "failed to verify bundle" of kind
Forbidden wrapping that cause; the only call made is the verification, so
`SavePolicy` is not called and storage is left as the verification left
it. -/
theorem ImportBundle_unverified (s : Service σ) (w : World σ) (archive : Bytes)
    (bundleFile signatureFile : ZipFile) (cause : Error) (st1 : σ)
    (hu : s.unzip archive = Except.ok [bundleFile, signatureFile])
    (hv : s.verifyBundle w.st [bundleFile, signatureFile] = (some cause, st1)) :
    ImportBundle s (Except.ok archive) w
      = (Except.error (Error.wrap Kind.Forbidden "failed to verify bundle" cause),
         { st := st1, calls := w.calls ++ [Call.verifyBundle [bundleFile, signatureFile]] }) ∧
    errors.Is Kind.Forbidden (Error.wrap Kind.Forbidden "failed to verify bundle" cause) = true ∧
    (newCalls w (ImportBundle s (Except.ok archive) w).2).filter Call.isSavePolicy = [] := by
  have hnew : errors.New Kind.Forbidden "failed to verify bundle" (some cause)
      = Error.wrap Kind.Forbidden "failed to verify bundle" cause := by
    cases cause <;> simp [errors.New]
  have h : ImportBundle s (Except.ok archive) w
      = (Except.error (Error.wrap Kind.Forbidden "failed to verify bundle" cause),
         { st := st1, calls := w.calls ++ [Call.verifyBundle [bundleFile, signatureFile]] }) := by
    simp only [ImportBundle, hu, callVerifyBundle, hv, hnew]
  refine ⟨h, by simp [errors.Is], ?_⟩
  rw [h]
  simp [newCalls, Call.isSavePolicy]

/-- The in-memory backend holding the policy of the tests, and an archive
whose signature differs from the one of the stand-in signer in one bit: the
archive is refused and the stored policies are the same. -/
theorem ImportBundle_unverified_witness :
    tamperedSignature ≠ Mem.signature ∧
    (ImportBundle memService (Except.ok tamperedArchive) (memWith [testPolicy])
      = (Except.error
          (Error.wrap Kind.Forbidden "failed to verify bundle"
            (Error.foreign "invalid signature")),
         { st := (memWith [testPolicy]).st,
           calls := (memWith [testPolicy]).calls ++ [Call.verifyBundle tamperedFiles] }) ∧
      errors.Is Kind.Forbidden
        (Error.wrap Kind.Forbidden "failed to verify bundle"
          (Error.foreign "invalid signature")) = true ∧
      (newCalls (memWith [testPolicy])
        (ImportBundle memService (Except.ok tamperedArchive) (memWith [testPolicy])).2).filter
          Call.isSavePolicy = []) ∧
    (ImportBundle memService (Except.ok tamperedArchive) (memWith [testPolicy])).2.st.policies
      = [testPolicy] := by
  have hne : tamperedSignature ≠ Mem.signature := by decide
  have hmu : memService.unzip = Mem.unzip := rfl
  have hmv : memService.verifyBundle = Mem.verify := rfl
  have hu : memService.unzip tamperedArchive = Except.ok tamperedFiles := by
    rw [hmu]
    exact Mem.unzip_zip tamperedFiles tamperedArchive rfl
  have hv : memService.verifyBundle (memWith [testPolicy]).st tamperedFiles
      = (some (Error.foreign "invalid signature"), (memWith [testPolicy]).st) := by
    rw [hmv]
    simp only [Mem.verify, tamperedFiles, hne, if_false]
  have h := ImportBundle_unverified memService (memWith [testPolicy]) tamperedArchive
    { Name := BundleFilename, Content := [80, 75, 5, 6] }
    { Name := BundleSignatureFilename, Content := tamperedSignature }
    (Error.foreign "invalid signature") (memWith [testPolicy]).st hu hv
  refine ⟨hne, h, ?_⟩
  rw [h.1]
  rfl

end Verification

/-! ## The order of evaluation and schema compilation -/

section SchemaOrder

variable {σ : Type}

/-- The calls a quiet step adds to the log are neither runs of the engine nor
calls of the result cache. -/
theorem filter_eval_or_cache_quiet (l : List Call) (hl : Quiet l) :
    l.filter (fun c => c.isRegoEval || c.isCacheSet) = [] := by
  rw [List.filter_eq_nil_iff]
  intro c hc
  simp [(hl c hc).1, (hl c hc).2.2]

/-- C27, as the code has it: Validate evaluates the policy before it compiles
the output schema. When the policy has an output schema that does not
compile: if Evaluate succeeds, Validate fails with the error "error compiling
output validation schema", of no kind and with no cause, in the world Evaluate
left, in which the engine has run once and `Cache.Set` has been called once
with the result; if Evaluate fails, Validate returns the error of
Evaluate. -/
theorem Validate_invalid_schema (s : Service σ) (ctx : Headers) (req : EvaluateRequest)
    (w w1 : World σ) (pol : Policy) (cerr : Error)
    (hret : retrievePolicy s w req.Repository req.Group req.PolicyName req.Version
      = (Except.ok pol, w1))
    (hschema : pol.OutputSchema ≠ "")
    (hcompile : s.jsonschemaCompileString pol.OutputSchema = some cerr) :
    (∀ (res : EvaluateResult) (w2 : World σ), Evaluate s ctx req w1 = (Except.ok res, w2) →
      Validate s ctx req w
        = (Except.error (Error.leaf Kind.Unknown "error compiling output validation schema"),
           w2) ∧
      ∃ (query : List RegoArg) (jsonValue : String),
        s.jsonMarshal res.Result = Except.ok jsonValue ∧
        (newCalls w w2).filter (fun c => c.isRegoEval || c.isCacheSet)
          = [Call.regoEval query req.Input,
             Call.cacheSet res.ETag "" "" jsonValue (ttlOf req)]) ∧
    (∀ (e : Error) (w2 : World σ), Evaluate s ctx req w1 = (Except.error e, w2) →
      Validate s ctx req w = (Except.error e, w2)) := by
  constructor
  · intro res w2 heval
    constructor
    · simp only [Validate, hret, hschema, if_false, heval, hcompile]
      rfl
    · obtain ⟨l1, hl1, hq1⟩ := retrievePolicy_calls s w req.Repository req.Group
        req.PolicyName req.Version
      rw [hret] at hl1
      simp only at hl1
      obtain ⟨l2, query, jsonValue, hq2, hm, hcalls⟩ :=
        Evaluate_ok_calls s ctx req w1 w2 res heval
      refine ⟨query, jsonValue, hm, ?_⟩
      rw [newCalls, hcalls, hl1, List.append_assoc, List.drop_left]
      simp only [List.filter_append, filter_eval_or_cache_quiet l1 hq1,
        filter_eval_or_cache_quiet l2 hq2, List.nil_append]
      rfl
  · intro e w2 heval
    simp only [Validate, hret, hschema, if_false, heval]

/-- The policy of the tests with the output schema of the tests that is no
JSON schema, on the in-memory backend with a compiler that rejects it. -/
theorem Validate_invalid_schema_witness :
    Validate invalidSchemaService [] testReq (memWith [invalidSchemaPolicy])
      = (Except.error (Error.leaf Kind.Unknown "error compiling output validation schema"),
         (Evaluate invalidSchemaService [] testReq
           (retrievePolicy invalidSchemaService (memWith [invalidSchemaPolicy])
             "policies" "testgroup" "example" "1.0").2).2) ∧
    ∃ (query : List RegoArg) (jsonValue : String),
      invalidSchemaService.jsonMarshal (Value.object [("allow", Value.string "yes")])
        = Except.ok jsonValue ∧
      (newCalls (memWith [invalidSchemaPolicy])
        (Evaluate invalidSchemaService [] testReq
          (retrievePolicy invalidSchemaService (memWith [invalidSchemaPolicy])
            "policies" "testgroup" "example" "1.0").2).2).filter
          (fun c => c.isRegoEval || c.isCacheSet)
        = [Call.regoEval query (some (Value.string "yes")),
           Call.cacheSet "id-1" "" "" jsonValue 30] :=
  (Validate_invalid_schema invalidSchemaService [] testReq (memWith [invalidSchemaPolicy]) _
    invalidSchemaPolicy (Error.foreign "jsonschema: invalid json") rfl (by decide) rfl).1
    { Result := Value.object [("allow", Value.string "yes")], ETag := "id-1" } _ rfl

/-- C27, as stated, fails: the policy of the tests has an output schema that
does not compile; Validate fails with the error of the compilation, and by
then the policy has been evaluated: the engine has run, `Cache.Set` has been
called and the result is in the result cache. -/
theorem Validate_evaluates_before_compiling :
    invalidSchemaPolicy.OutputSchema ≠ "" ∧
    (invalidSchemaService.jsonschemaCompileString invalidSchemaPolicy.OutputSchema).isSome
      = true ∧
    (Validate invalidSchemaService [] testReq (memWith [invalidSchemaPolicy])).1
      = Except.error (Error.leaf Kind.Unknown "error compiling output validation schema") ∧
    (newCalls (memWith [invalidSchemaPolicy])
      (Validate invalidSchemaService [] testReq (memWith [invalidSchemaPolicy])).2).filter
        (fun c => c.isRegoEval || c.isCacheSet)
      = [Call.regoEval
          [RegoArg.Module "policy.rego" "allow", RegoArg.Query "data.testgroup.example",
            RegoArg.StrictBuiltinErrors true, RegoArg.Function1 []]
          (some (Value.string "yes")),
         Call.cacheSet "id-1" "" "" "\x7b\x7d" 30] ∧
    (Validate invalidSchemaService [] testReq (memWith [invalidSchemaPolicy])).2.st.results
      = [("id-1", "\x7b\x7d", 30)] :=
  ⟨by decide, rfl, rfl, rfl, rfl⟩

end SchemaOrder

/-! ## The fingerprint of a policy -/

section Fingerprint

/-- A text without comma, followed by a comma, is read back from the front of
a list of characters in one way only. -/
theorem append_comma_inj (a b rest rest2 : List Char) (ha : ',' ∉ a) (hb : ',' ∉ b)
    (h : a ++ ',' :: rest = b ++ ',' :: rest2) : a = b ∧ rest = rest2 := by
  induction a generalizing b with
  | nil =>
    cases b with
    | nil => simpa using h
    | cons c cs =>
      simp only [List.nil_append, List.cons_append, List.cons.injEq] at h
      exact absurd h.1 (fun hc => hb (by simp [← hc]))
  | cons c cs ih =>
    cases b with
    | nil =>
      simp only [List.nil_append, List.cons_append, List.cons.injEq] at h
      exact absurd h.1 (fun hc => ha (by simp [hc]))
    | cons d ds =>
      simp only [List.cons_append, List.cons.injEq] at h
      have hcs : ',' ∉ cs := fun hm => ha (List.mem_cons_of_mem _ hm)
      have hds : ',' ∉ ds := fun hm => hb (List.mem_cons_of_mem _ hm)
      obtain ⟨h1, h2⟩ := ih ds hcs hds h.2
      exact ⟨by rw [h.1, h1], h2⟩

/-- The characters of the fingerprint. -/
theorem queryCacheKey_data (r g n v : String) :
    (queryCacheKey r g n v).data
      = r.data ++ ',' :: (g.data ++ ',' :: (n.data ++ ',' :: v.data)) := by
  simp [queryCacheKey, String.data_append]

/-- C28: the fingerprint of a policy. `queryCacheKey` is the four coordinates
joined by single commas; on coordinates without comma it is injective: equal
keys come from equal coordinates; and without that restriction it is not:
two different tuples of coordinates, with a comma in one of them, have the
same key. -/
theorem queryCacheKey_injective :
    (∀ r g n v : String, queryCacheKey r g n v = ",".intercalate [r, g, n, v]) ∧
    (∀ r g n v r2 g2 n2 v2 : String,
      ',' ∉ r.data → ',' ∉ g.data → ',' ∉ n.data → ',' ∉ v.data →
      ',' ∉ r2.data → ',' ∉ g2.data → ',' ∉ n2.data → ',' ∉ v2.data →
      queryCacheKey r g n v = queryCacheKey r2 g2 n2 v2 →
      r = r2 ∧ g = g2 ∧ n = n2 ∧ v = v2) ∧
    (∃ r g n v r2 g2 n2 v2 : String,
      (r, g, n, v) ≠ (r2, g2, n2, v2) ∧
      queryCacheKey r g n v = queryCacheKey r2 g2 n2 v2) := by
  refine ⟨fun r g n v => rfl, ?_, ?_⟩
  · intro r g n v r2 g2 n2 v2 hr hg hn _ hr2 hg2 hn2 _ h
    have hd := congrArg String.data h
    rw [queryCacheKey_data, queryCacheKey_data] at hd
    obtain ⟨h1, hd1⟩ := append_comma_inj _ _ _ _ hr hr2 hd
    obtain ⟨h2, hd2⟩ := append_comma_inj _ _ _ _ hg hg2 hd1
    obtain ⟨h3, h4⟩ := append_comma_inj _ _ _ _ hn hn2 hd2
    exact ⟨String.ext h1, String.ext h2, String.ext h3, String.ext h4⟩
  · exact ⟨"a,b", "c", "d", "1.0", "a", "b,c", "d", "1.0", by decide, by decide⟩

/-- The coordinates of the policy of the tests, which have no comma, and the
key `policies,testgroup,example,1.0` they give. -/
theorem queryCacheKey_injective_witness :
    queryCacheKey "policies" "testgroup" "example" "1.0" = "policies,testgroup,example,1.0" ∧
    ("policies" = "policies" ∧ "testgroup" = "testgroup" ∧ "example" = "example" ∧
      "1.0" = "1.0") :=
  ⟨by decide,
   queryCacheKey_injective.2.1 "policies" "testgroup" "example" "1.0"
     "policies" "testgroup" "example" "1.0"
     (by decide) (by decide) (by decide) (by decide) (by decide) (by decide) (by decide)
     (by decide) rfl⟩

end Fingerprint

/-! ## Retrieval through the compiled-policy cache -/

section Retrieval

variable {σ : Type}

/-- Deriving the evaluation ID calls nothing or the UUID generator. -/
theorem evaluationID_calls_uuid (s : Service σ) (w : World σ) (req : EvaluateRequest) :
    (evaluationID s w req).2.calls = w.calls ∨
      (evaluationID s w req).2.calls = w.calls ++ [Call.uuidNewString] := by
  unfold evaluationID
  cases req.EvaluationID with
  | none => exact Or.inr (by simp [callUuidNewString])
  | some id =>
    by_cases hid : id = ""
    · exact Or.inr (by simp [callUuidNewString, hid])
    · exact Or.inl (by simp [hid])

/-- After retrieving the policy, Evaluate calls neither storage nor the
compiled-policy cache. -/
theorem Evaluate_calls_after_retrieval (s : Service σ) (ctx : Headers) (req : EvaluateRequest)
    (w : World σ) :
    ∃ tail, (Evaluate s ctx req w).2.calls
        = (retrievePolicy s (evaluationID s w req).2 req.Repository req.Group req.PolicyName
            req.Version).2.calls ++ tail ∧
      ∀ c ∈ tail, c.isStoragePolicy = false ∧ c.isPolicyCacheSet = false := by
  have hworld := prepareQuery_world s (evaluationID s w req).2 req.Repository req.Group
    req.PolicyName req.Version ctx
  rcases hq : prepareQuery s (evaluationID s w req).2 req.Repository req.Group req.PolicyName
    req.Version ctx with ⟨rq, w1⟩
  rw [hq] at hworld
  simp only at hworld
  rw [← hworld]
  cases rq with
  | error err => exact ⟨[], by simp [Evaluate, hq], by simp⟩
  | ok query =>
    rcases he : s.regoEval w1.st query req.Input with ⟨re, st2⟩
    have hone : ∀ c ∈ [Call.regoEval query req.Input],
        c.isStoragePolicy = false ∧ c.isPolicyCacheSet = false := by
      simp [Call.isStoragePolicy, Call.isPolicyCacheSet]
    cases re with
    | error err =>
      exact ⟨[Call.regoEval query req.Input], by simp [Evaluate, hq, callRegoEval, he], hone⟩
    | ok rs =>
      match rs, he with
      | [], he =>
        exact ⟨[Call.regoEval query req.Input], by simp [Evaluate, hq, callRegoEval, he], hone⟩
      | [] :: _, he =>
        exact ⟨[Call.regoEval query req.Input], by simp [Evaluate, hq, callRegoEval, he], hone⟩
      | (value :: rest) :: more, he =>
        cases hm : s.jsonMarshal (normalizeResult value) with
        | error err =>
          exact ⟨[Call.regoEval query req.Input],
            by simp [Evaluate, hq, callRegoEval, he, hm], hone⟩
        | ok jsonValue =>
          refine ⟨[Call.regoEval query req.Input,
            Call.cacheSet (evaluationID s w req).1 "" "" jsonValue (ttlOf req)], ?_,
            by simp [Call.isStoragePolicy, Call.isPolicyCacheSet]⟩
          rcases hc : s.cacheSet st2 (evaluationID s w req).1 "" "" jsonValue (ttlOf req)
            with ⟨rc, st3⟩
          cases rc with
          | none => simp [Evaluate, hq, callRegoEval, he, hm, callCacheSet, hc]
          | some e =>
            by_cases hIs : errors.Is Kind.ServiceUnavailable e = true <;>
              simp [Evaluate, hq, callRegoEval, he, hm, callCacheSet, hc, hIs]

/-- The calls of Evaluate that reach storage or the compiled-policy cache
with a `Set` are those of its retrieval of the policy. -/
theorem Evaluate_retrieval_calls (s : Service σ) (ctx : Headers) (req : EvaluateRequest)
    (w : World σ) (f : Call → Bool)
    (hf : ∀ c, c.isStoragePolicy = false ∧ c.isPolicyCacheSet = false → f c = false)
    (hu : f Call.uuidNewString = false) :
    (newCalls w (Evaluate s ctx req w).2).filter f
      = (newCalls (evaluationID s w req).2
          (retrievePolicy s (evaluationID s w req).2 req.Repository req.Group req.PolicyName
            req.Version).2).filter f := by
  obtain ⟨tail, htail, hno⟩ := Evaluate_calls_after_retrieval s ctx req w
  obtain ⟨l, hl, _⟩ := retrievePolicy_calls s (evaluationID s w req).2 req.Repository req.Group
    req.PolicyName req.Version
  have htf : tail.filter f = [] := by
    rw [List.filter_eq_nil_iff]
    intro c hc
    simp [hf c (hno c hc)]
  rw [newCalls, newCalls, htail, hl]
  rcases evaluationID_calls_uuid s w req with h0 | h0
  · rw [h0, List.append_assoc, List.drop_left, List.drop_left, List.filter_append, htf,
      List.append_nil]
  · rw [h0, List.append_assoc, List.append_assoc, List.drop_left, List.drop_left,
      List.filter_append, List.filter_append, htf, List.append_nil]
    simp [hu]

/-- What retrieval returns on a hit: the cached snapshot, after the one call
of the cache. -/
theorem retrievePolicy_hit (s : Service σ) (w : World σ) (r g n v : String) (p : Policy)
    (st1 : σ) (hhit : s.policyCacheGet w.st (queryCacheKey r g n v) = (some p, st1)) :
    retrievePolicy s w r g n v
      = (Except.ok p,
         { st := st1, calls := w.calls ++ [Call.policyCacheGet (queryCacheKey r g n v)] }) := by
  simp [retrievePolicy, callPolicyCacheGet, hhit]

/-- The calls of `Storage.Policy` in one retrieval: none on a hit, one on a
miss. -/
theorem retrievePolicy_storage_calls (s : Service σ) (w : World σ) (r g n v : String) :
    (newCalls w (retrievePolicy s w r g n v).2).filter Call.isStoragePolicy
      = match (s.policyCacheGet w.st (queryCacheKey r g n v)).1 with
        | some _ => []
        | none => [Call.storagePolicy r g n v] := by
  rcases hget : s.policyCacheGet w.st (queryCacheKey r g n v) with ⟨og, st1⟩
  cases og with
  | some p =>
    rw [retrievePolicy_hit s w r g n v p st1 hget]
    simp [newCalls, Call.isStoragePolicy]
  | none =>
    rcases hst : s.storagePolicy st1 r g n v with ⟨rs, st2⟩
    cases rs with
    | error e =>
      by_cases hnf : errors.Is Kind.NotFound e = true <;>
        simp [retrievePolicy, callPolicyCacheGet, callStoragePolicy, hget, hst, hnf, newCalls,
          Call.isStoragePolicy, List.filter]
    | ok p =>
      simp [retrievePolicy, callPolicyCacheGet, callStoragePolicy, callPolicyCacheSet, hget, hst,
        newCalls, Call.isStoragePolicy, List.filter]

/-- The insertions into the compiled-policy cache in one retrieval: the
policy storage returned on a miss, and nothing else. -/
theorem retrievePolicy_cache_sets (s : Service σ) (w : World σ) (r g n v : String) :
    (newCalls w (retrievePolicy s w r g n v).2).filter Call.isPolicyCacheSet
      = match (s.policyCacheGet w.st (queryCacheKey r g n v)).1 with
        | some _ => []
        | none =>
          match (s.storagePolicy (s.policyCacheGet w.st (queryCacheKey r g n v)).2 r g n v).1 with
          | Except.ok p => [Call.policyCacheSet (queryCacheKey r g n v) p]
          | Except.error _ => [] := by
  rcases hget : s.policyCacheGet w.st (queryCacheKey r g n v) with ⟨og, st1⟩
  cases og with
  | some p =>
    rw [retrievePolicy_hit s w r g n v p st1 hget]
    simp [newCalls, Call.isPolicyCacheSet]
  | none =>
    rcases hst : s.storagePolicy st1 r g n v with ⟨rs, st2⟩
    cases rs with
    | error e =>
      by_cases hnf : errors.Is Kind.NotFound e = true <;>
        simp [retrievePolicy, callPolicyCacheGet, callStoragePolicy, hget, hst, hnf, newCalls,
          Call.isPolicyCacheSet, List.filter]
    | ok p =>
      simp [retrievePolicy, callPolicyCacheGet, callStoragePolicy, callPolicyCacheSet, hget, hst,
        newCalls, Call.isPolicyCacheSet, List.filter]

/-- After Evaluate, Validate calls neither storage's `Policy` nor the
compiled-policy cache. -/
theorem Validate_calls_after_evaluate (s : Service σ) (ctx : Headers) (req : EvaluateRequest)
    (w w1 : World σ) (pol : Policy)
    (hret : retrievePolicy s w req.Repository req.Group req.PolicyName req.Version
      = (Except.ok pol, w1))
    (hschema : pol.OutputSchema ≠ "") :
    ∃ extra, (Validate s ctx req w).2.calls = (Evaluate s ctx req w1).2.calls ++ extra ∧
      ∀ c ∈ extra, c.isStoragePolicy = false ∧ c.isPolicyCacheSet = false := by
  rcases heval : Evaluate s ctx req w1 with ⟨re, w2⟩
  cases re with
  | error e => exact ⟨[], by simp [Validate, hret, hschema, heval], by simp⟩
  | ok res =>
    cases hcompile : s.jsonschemaCompileString pol.OutputSchema with
    | some cerr => exact ⟨[], by simp [Validate, hret, hschema, heval, hcompile], by simp⟩
    | none =>
      cases hval : s.jsonschemaValidate pol.OutputSchema res.Result with
      | none => exact ⟨[], by simp [Validate, hret, hschema, heval, hcompile, hval], by simp⟩
      | some verr =>
        by_cases hvl : s.validationLock = true
        · by_cases hlocked : pol.Locked = true
          · exact ⟨[], by simp [Validate, hret, hschema, heval, hcompile, hval, hvl, lock,
              hlocked], by simp⟩
          · rcases hset : s.storageSetPolicyLock w2.st pol.Repository pol.Group pol.Name
              pol.Version true with ⟨rl, st3⟩
            refine ⟨[Call.storageSetPolicyLock pol.Repository pol.Group pol.Name pol.Version
              true], ?_, by simp [Call.isStoragePolicy, Call.isPolicyCacheSet]⟩
            cases rl <;>
              simp [Validate, hret, hschema, heval, hcompile, hval, hvl, lock, hlocked,
                callSetPolicyLock, hset]
        · exact ⟨[], by simp [Validate, hret, hschema, heval, hcompile, hval, hvl], by simp⟩

/-- C29: a hit of the compiled-policy cache. Each retrieval calls
`Storage.Policy` once on a miss and not at all on a hit. When the cache holds
a snapshot under the key of the request, Evaluate does not call
`Storage.Policy` and takes the policy from the snapshot, whatever storage
holds: a snapshot that is locked is refused, and one that is not locked is
evaluated, the engine running once on its rule text and static data. And
Validate, whose own retrieval and the one of its Evaluate both hit, does not
call `Storage.Policy` either and works on the snapshots: without an output
schema in the snapshot it fails with BadRequest; with one, it returns the
error of the Evaluate on the snapshot, a Forbidden error when that snapshot is
locked, and otherwise validates the result of that Evaluate against the
output schema of the snapshot, locking the coordinates of the snapshot when
the validation fails and validationLock is set. -/
theorem cache_hit_uses_snapshot (s : Service σ) (ctx : Headers) (req : EvaluateRequest)
    (w : World σ) (p : Policy) (st1 : σ)
    (hhit : s.policyCacheGet (evaluationID s w req).2.st
      (queryCacheKey req.Repository req.Group req.PolicyName req.Version) = (some p, st1)) :
    (∀ (w0 : World σ) (r g n v : String),
      (newCalls w0 (retrievePolicy s w0 r g n v).2).filter Call.isStoragePolicy
        = match (s.policyCacheGet w0.st (queryCacheKey r g n v)).1 with
          | some _ => []
          | none => [Call.storagePolicy r g n v]) ∧
    (newCalls w (Evaluate s ctx req w).2).filter Call.isStoragePolicy = [] ∧
    (p.Locked = true →
      (Evaluate s ctx req w).1
        = Except.error (errors.New Kind.Unknown "error evaluating policy"
            (some (errors.New Kind.Forbidden "policy is locked" none)))) ∧
    (p.Locked = false → ∀ args : List RegoArg,
      buildRegoArgs s p.Filename p.Rego ("data." ++ req.Group ++ "." ++ req.PolicyName) p.Data
        = Except.ok args →
      s.regoPrepareForEval (args ++ [RegoArg.Function1 ctx]) = none →
      (newCalls w (Evaluate s ctx req w).2).filter Call.isRegoEval
        = [Call.regoEval (args ++ [RegoArg.Function1 ctx]) req.Input] ∧
      args.head? = some (RegoArg.Module p.Filename p.Rego)) ∧
    (∀ (wv : World σ) (p0 : Policy) (st0 : σ),
      s.policyCacheGet wv.st
        (queryCacheKey req.Repository req.Group req.PolicyName req.Version) = (some p0, st0) →
      w = { st := st0,
            calls := wv.calls ++ [Call.policyCacheGet
              (queryCacheKey req.Repository req.Group req.PolicyName req.Version)] } →
      (newCalls wv (Validate s ctx req wv).2).filter Call.isStoragePolicy = [] ∧
      (p0.OutputSchema = "" →
        Validate s ctx req wv
          = (Except.error (errors.New Kind.BadRequest
              "validation schema for policy output is not found" none), w)) ∧
      (p0.OutputSchema ≠ "" →
        (∀ (e : Error) (w2 : World σ), Evaluate s ctx req w = (Except.error e, w2) →
          Validate s ctx req wv = (Except.error e, w2)) ∧
        (p.Locked = true →
          (Validate s ctx req wv).1
            = Except.error (errors.New Kind.Unknown "error evaluating policy"
                (some (errors.New Kind.Forbidden "policy is locked" none)))) ∧
        (∀ (res : EvaluateResult) (w2 : World σ),
          Evaluate s ctx req w = (Except.ok res, w2) →
          s.jsonschemaCompileString p0.OutputSchema = none →
          Validate s ctx req wv =
            match s.jsonschemaValidate p0.OutputSchema res.Result with
            | some err =>
              (Except.error
                (errors.New Kind.Unknown "policy output schema validation failed" (some err)),
               if s.validationLock then (lock s w2 p0).2 else w2)
            | none => (Except.ok res, w2)))) := by
  have hret := retrievePolicy_hit s (evaluationID s w req).2 req.Repository req.Group
    req.PolicyName req.Version p st1 hhit
  have hstore : (newCalls w (Evaluate s ctx req w).2).filter Call.isStoragePolicy = [] := by
    rw [Evaluate_retrieval_calls s ctx req w Call.isStoragePolicy (fun c hc => hc.1) rfl,
      retrievePolicy_storage_calls, hhit]
  have hlockedEval : p.Locked = true →
      (Evaluate s ctx req w).1
        = Except.error (errors.New Kind.Unknown "error evaluating policy"
            (some (errors.New Kind.Forbidden "policy is locked" none))) := by
    intro hlocked
    simp [Evaluate, prepareQuery, hret, hlocked]
  refine ⟨fun w0 r g n v => retrievePolicy_storage_calls s w0 r g n v, hstore, hlockedEval,
    ?_, ?_⟩
  · intro hunlocked args hargs hprep
    have hq : prepareQuery s (evaluationID s w req).2 req.Repository req.Group req.PolicyName
        req.Version ctx = (Except.ok (args ++ [RegoArg.Function1 ctx]),
          { st := st1,
            calls := (evaluationID s w req).2.calls ++ [Call.policyCacheGet
              (queryCacheKey req.Repository req.Group req.PolicyName req.Version)] }) := by
      simp [prepareQuery, hret, hunlocked, hargs, hprep]
    obtain ⟨tail, htail, hno⟩ := Evaluate_calls_of_prepared s ctx req w _ _ hq
    obtain ⟨l0, hl0, hq0⟩ := evaluationID_calls s w req
    have hfl0 : l0.filter Call.isRegoEval = [] := by
      rw [List.filter_eq_nil_iff]
      intro c hc
      simp [(hq0 c hc).2.2]
    have hft : tail.filter Call.isRegoEval = [] := by
      rw [List.filter_eq_nil_iff]
      intro c hc
      simp [hno c hc]
    constructor
    · simp [newCalls, htail, hl0, List.filter_append, hfl0, hft, Call.isRegoEval, List.filter]
    · unfold buildRegoArgs at hargs
      by_cases hd : p.Data = ""
      · simp [hd] at hargs
        rw [← hargs]
        rfl
      · simp only [ne_eq, hd, not_false_eq_true, if_true] at hargs
        cases hu : s.jsonUnmarshalObject p.Data with
        | error e => simp [hu] at hargs
        | ok data =>
          simp only [hu, Except.ok.injEq] at hargs
          rw [← hargs]
          rfl
  · intro wv p0 st0 hhit0 hw
    have hret0 := retrievePolicy_hit s wv req.Repository req.Group req.PolicyName req.Version
      p0 st0 hhit0
    rw [← hw] at hret0
    refine ⟨?_, ?_, ?_⟩
    rotate_left
    · intro hschema
      simp only [Validate, hret0, hschema, if_true]
    · intro hschema
      refine ⟨?_, ?_, ?_⟩
      · intro e w2 heval
        simp only [Validate, hret0, hschema, if_false, heval]
      · intro hlocked
        have hl := hlockedEval hlocked
        rcases heval : Evaluate s ctx req w with ⟨re, w2⟩
        rw [heval] at hl
        simp only at hl
        subst hl
        simp only [Validate, hret0, hschema, if_false, heval]
      · intro res w2 heval hcompile
        exact Validate_of_steps s ctx req wv w w2 p0 res hret0 hschema heval hcompile
    by_cases hschema : p0.OutputSchema = ""
    · simp [Validate, hret0, hschema, hw, newCalls, Call.isStoragePolicy]
    · obtain ⟨extra, hextra, hno⟩ :=
        Validate_calls_after_evaluate s ctx req wv w p0 hret0 hschema
      have hfe : extra.filter Call.isStoragePolicy = [] := by
        rw [List.filter_eq_nil_iff]
        intro c hc
        simp [(hno c hc).1]
      obtain ⟨tail, htail, _⟩ := Evaluate_calls_after_retrieval s ctx req w
      obtain ⟨l0, hl0, _⟩ := evaluationID_calls s w req
      rw [hret] at htail
      simp only at htail
      rw [hl0, List.append_assoc, List.append_assoc] at htail
      have hwc : w.calls = wv.calls ++ [Call.policyCacheGet
          (queryCacheKey req.Repository req.Group req.PolicyName req.Version)] := by
        rw [hw]
      rw [newCalls, htail, List.drop_left] at hstore
      rw [newCalls, hextra, htail, hwc, List.append_assoc, List.append_assoc, List.drop_left,
        List.filter_append, List.filter_append, hstore, hfe]
      rfl

/-- The policy of the tests, locked in storage and cached unlocked on the
in-memory backend: it is evaluated, and storage is not asked; and with an
output schema in the snapshot, it is validated, and storage is not asked. -/
theorem cache_hit_uses_snapshot_witness :
    ((memService.storagePolicy staleUnlocked.st "policies" "testgroup" "example" "1.0").1
        = Except.ok lockedPolicy ∧
      (Evaluate memService [] testReq staleUnlocked).1
        = Except.ok { Result := Value.object [("allow", Value.string "yes")], ETag := "id-1" } ∧
      (newCalls staleUnlocked (Evaluate memService [] testReq staleUnlocked).2).filter
        Call.isStoragePolicy = [] ∧
      (newCalls staleUnlocked (Evaluate memService [] testReq staleUnlocked).2).filter
          Call.isRegoEval
        = [Call.regoEval
            ([RegoArg.Module "policy.rego" "allow", RegoArg.Query "data.testgroup.example",
              RegoArg.StrictBuiltinErrors true] ++ [RegoArg.Function1 []])
            (some (Value.string "yes"))]) ∧
    ((memService.storagePolicy staleUnlockedSchema.st "policies" "testgroup" "example"
          "1.0").1
        = Except.ok { schemaPolicy with Locked := true } ∧
      (Validate memService [] testReq staleUnlockedSchema).1
        = Except.ok { Result := Value.object [("allow", Value.string "yes")], ETag := "id-1" } ∧
      (newCalls staleUnlockedSchema
        (Validate memService [] testReq staleUnlockedSchema).2).filter
          Call.isStoragePolicy = []) :=
  have h := cache_hit_uses_snapshot memService [] testReq staleUnlocked testPolicy _ rfl
  have hv := (cache_hit_uses_snapshot memService [] testReq
    { st := staleUnlockedSchema.st,
      calls := staleUnlockedSchema.calls ++
        [Call.policyCacheGet (queryCacheKey "policies" "testgroup" "example" "1.0")] }
    schemaPolicy _ rfl).2.2.2.2 staleUnlockedSchema schemaPolicy staleUnlockedSchema.st rfl rfl
  ⟨⟨rfl, rfl, h.2.1,
    (h.2.2.2.1 rfl
      [RegoArg.Module "policy.rego" "allow", RegoArg.Query "data.testgroup.example",
        RegoArg.StrictBuiltinErrors true] rfl rfl).1⟩,
   ⟨rfl,
    congrArg Prod.fst
      ((hv.2.2 (by decide)).2.2
        { Result := Value.object [("allow", Value.string "yes")], ETag := "id-1" } _ rfl rfl),
    hv.1⟩⟩

/-- C30: a miss of the compiled-policy cache. When the cache holds nothing
under the key of the request and storage returns a policy, Evaluate inserts
that policy into the cache under `queryCacheKey` of the coordinates of the
request, once, whatever happens afterwards: also when it then fails because
the policy is locked, because its static data is not read as JSON, or because
its rule text is not compiled. When storage fails, Evaluate inserts
nothing. -/
theorem cache_insert_on_miss (s : Service σ) (ctx : Headers) (req : EvaluateRequest)
    (w : World σ) (st1 : σ)
    (hmiss : s.policyCacheGet (evaluationID s w req).2.st
      (queryCacheKey req.Repository req.Group req.PolicyName req.Version) = (none, st1)) :
    (∀ (P : Policy) (st2 : σ),
      s.storagePolicy st1 req.Repository req.Group req.PolicyName req.Version
        = (Except.ok P, st2) →
      (newCalls w (Evaluate s ctx req w).2).filter Call.isPolicyCacheSet
        = [Call.policyCacheSet
            (queryCacheKey req.Repository req.Group req.PolicyName req.Version) P] ∧
      (P.Locked = true →
        (Evaluate s ctx req w).1
          = Except.error (errors.New Kind.Unknown "error evaluating policy"
              (some (errors.New Kind.Forbidden "policy is locked" none)))) ∧
      (P.Locked = false → P.Data ≠ "" → ∀ e : Error,
        s.jsonUnmarshalObject P.Data = Except.error e →
        (Evaluate s ctx req w).1
          = Except.error (errors.New Kind.Unknown "error evaluating policy"
              (some (errors.New Kind.Unknown "error building rego runtime functions"
                (some e))))) ∧
      (P.Locked = false → ∀ (args : List RegoArg) (e : Error),
        buildRegoArgs s P.Filename P.Rego ("data." ++ req.Group ++ "." ++ req.PolicyName)
          P.Data = Except.ok args →
        s.regoPrepareForEval (args ++ [RegoArg.Function1 ctx]) = some e →
        (Evaluate s ctx req w).1
          = Except.error (errors.New Kind.Unknown "error evaluating policy"
              (some (errors.New Kind.Unknown "error preparing rego query" (some e)))))) ∧
    (∀ (e : Error) (st2 : σ),
      s.storagePolicy st1 req.Repository req.Group req.PolicyName req.Version
        = (Except.error e, st2) →
      (newCalls w (Evaluate s ctx req w).2).filter Call.isPolicyCacheSet = []) := by
  have hsets := Evaluate_retrieval_calls s ctx req w Call.isPolicyCacheSet (fun c hc => hc.2) rfl
  rw [retrievePolicy_cache_sets, hmiss] at hsets
  simp only at hsets
  constructor
  · intro P st2 hstore
    have hret : retrievePolicy s (evaluationID s w req).2 req.Repository req.Group
        req.PolicyName req.Version
        = (Except.ok P,
           callPolicyCacheSet s
             { st := st2,
               calls := (evaluationID s w req).2.calls ++
                 [Call.policyCacheGet
                   (queryCacheKey req.Repository req.Group req.PolicyName req.Version)] ++
                 [Call.storagePolicy req.Repository req.Group req.PolicyName req.Version] }
             (queryCacheKey req.Repository req.Group req.PolicyName req.Version) P) := by
      simp [retrievePolicy, callPolicyCacheGet, callStoragePolicy, hmiss, hstore]
    rw [hstore] at hsets
    refine ⟨hsets, ?_, ?_, ?_⟩
    · intro hlocked
      simp [Evaluate, prepareQuery, hret, hlocked]
    · intro hunlocked hdata e hjson
      simp [Evaluate, prepareQuery, hret, hunlocked, buildRegoArgs, hdata, hjson]
    · intro hunlocked args e hargs hprep
      simp [Evaluate, prepareQuery, hret, hunlocked, hargs, hprep]
  · intro e st2 hstore
    rw [hstore] at hsets
    exact hsets

/-- The locked policy of the tests on the in-memory backend with an empty
cache: Evaluate refuses it, and by then has cached it. -/
theorem cache_insert_on_miss_witness :
    (newCalls (memWith [lockedPolicy])
        (Evaluate memService [] testReq (memWith [lockedPolicy])).2).filter
          Call.isPolicyCacheSet
      = [Call.policyCacheSet (queryCacheKey "policies" "testgroup" "example" "1.0")
          lockedPolicy] ∧
    (Evaluate memService [] testReq (memWith [lockedPolicy])).1
      = Except.error (errors.New Kind.Unknown "error evaluating policy"
          (some (errors.New Kind.Forbidden "policy is locked" none))) ∧
    regocache.Get (Evaluate memService [] testReq (memWith [lockedPolicy])).2.st.compiled
        (queryCacheKey "policies" "testgroup" "example" "1.0")
      = some lockedPolicy :=
  have h := (cache_insert_on_miss memService [] testReq (memWith [lockedPolicy]) _ rfl).1
    lockedPolicy _ rfl
  ⟨h.1, h.2.1 rfl, rfl⟩

end Retrieval

/-! ## The compiled-policy cache -/

section CompiledCache

/-- C24: the round trip of the compiled-policy cache. After `Set(k, p)`,
`Get(k)` finds a policy, and it is `p`; a later `Set` on the same key replaces
the value of the earlier one. -/
theorem regocache_set_get :
    (∀ (m : List (String × Policy)) (k : String) (p : Policy),
      regocache.Get (regocache.Set m k p) k = some p) ∧
    (∀ (m : List (String × Policy)) (k : String) (p q : Policy),
      regocache.Get (regocache.Set (regocache.Set m k p) k q) k = some q ∧
      regocache.Set (regocache.Set m k p) k q = regocache.Set m k q) := by
  have hget : ∀ (m : List (String × Policy)) (k : String) (p : Policy),
      regocache.Get (regocache.Set m k p) k = some p := by
    intro m k p
    simp [regocache.Get, regocache.Set]
  refine ⟨hget, fun m k p q => ⟨hget _ k q, ?_⟩⟩
  simp [regocache.Set, List.filter_filter]

/-- C25: purging the compiled-policy cache. After `Purge`, `Get` finds nothing
under any key, whatever the cache held; `PolicyDataChange` returns no error
and leaves the cache as `Purge` does, whatever its arguments are. -/
theorem regocache_purge :
    (∀ (m : List (String × Policy)) (k : String),
      regocache.Get (regocache.Purge m) k = none) ∧
    (∀ (m : List (String × Policy)) (repository group name version : String),
      (regocache.PolicyDataChange m repository group name version).1 = none ∧
      (regocache.PolicyDataChange m repository group name version).2 = regocache.Purge m ∧
      ∀ k : String,
        regocache.Get (regocache.PolicyDataChange m repository group name version).2 k
          = none) := by
  have hpurge : ∀ (m : List (String × Policy)) (k : String),
      regocache.Get (regocache.Purge m) k = none := by
    intro m k
    simp [regocache.Get, regocache.Purge]
  exact ⟨hpurge, fun m r g n v => ⟨rfl, rfl, fun k => hpurge m k⟩⟩

end CompiledCache

/-! ## The header context -/

section HeaderContext

/-- Looking up a name in a header map from which another name was
removed. -/
theorem lookup_filter_ne (m : Headers) (key name : String) (h : name ≠ key) :
    List.lookup name (m.filter (fun kv => kv.1 != key)) = List.lookup name m := by
  induction m with
  | nil => rfl
  | cons kv rest ih =>
    obtain ⟨k, v⟩ := kv
    by_cases hk : k = key
    · subst hk
      have hne : (name == k) = false := by simpa using h
      simp [List.filter, List.lookup, hne, ih]
    · have hkeep : (k != key) = true := by simpa using hk
      simp only [List.filter, hkeep, List.lookup, ih]

/-- The first values of the headers, looked up by name. -/
theorem lookup_firstValues (hs : List (String × List String)) (name : String) :
    List.lookup name (header.firstValues hs) = (List.lookup name hs).map (fun vs => vs.headD "") := by
  induction hs with
  | nil => rfl
  | cons h rest ih =>
    obtain ⟨k, vs⟩ := h
    by_cases hk : (name == k) = true
    · simp [header.firstValues, List.lookup, hk]
    · have hk2 : (name == k) = false := by simpa using hk
      simp [header.firstValues, List.lookup, hk2, ih]

/-- C26: the header middleware. For every request, `FromContext` on the
context the handler receives finds a header map; the map holds the host of
the request under `Host`, and under every other name the first value the
request has for that name, or nothing when the request has no header of that
name. So for a request without a header named `Host`, as an inbound request
is, the map holds for each header name of the request the first of its
values, `Host`, and nothing else. -/
theorem header_middleware (r : header.Request) :
    ∃ m : Headers, header.Middleware header.FromContext r = (m, true) ∧
      List.lookup "Host" m = some r.Host ∧
      (∀ name : String, name ≠ "Host" →
        List.lookup name m = (List.lookup name r.Header).map (fun vs => vs.headD "")) ∧
      (List.lookup "Host" r.Header = none →
        ∀ (name : String) (values : List String), List.lookup name r.Header = some values →
          List.lookup name m = some (values.headD "")) := by
  have hother : ∀ name : String, name ≠ "Host" →
      List.lookup name (header.setHeader (header.firstValues r.Header) "Host" r.Host)
        = (List.lookup name r.Header).map (fun vs => vs.headD "") := by
    intro name hname
    have hne : (name == "Host") = false := by simpa using hname
    simp only [header.setHeader, List.lookup, hne]
    rw [lookup_filter_ne _ _ _ hname, lookup_firstValues]
  refine ⟨header.setHeader (header.firstValues r.Header) "Host" r.Host, rfl, ?_, hother, ?_⟩
  · simp [header.setHeader, List.lookup]
  · intro hhost name values hvalues
    have hname : name ≠ "Host" := by
      intro heq
      rw [heq, hhost] at hvalues
      cases hvalues
    rw [hother name hname, hvalues]
    rfl

/-- The request of the middleware test: the handler finds the map of
`Authorization: my-token` and `Host: example.com`. -/
theorem header_middleware_witness :
    header.Middleware header.FromContext testHTTPRequest
      = ([("Host", "example.com"), ("Authorization", "my-token")], true) ∧
    List.lookup "Authorization"
        (header.Middleware header.FromContext testHTTPRequest).1 = some "my-token" :=
  ⟨by decide,
   (header_middleware testHTTPRequest).elim fun m hm =>
     (congrArg (fun x => List.lookup "Authorization" x.1) hm.1).trans
       (hm.2.2.2 (by decide) "Authorization" ["my-token"] (by decide))⟩

end HeaderContext

/-! ## SetPolicyAutoImport -/

section AutoImport

variable {σ : Type}

/-- The message of a wrapping error is the message it was given. -/
theorem errors.message_New (k : Kind) (msg : String) (err : Option Error) :
    (errors.New k msg err).message = msg := by
  cases err with
  | none => rfl
  | some e =>
    cases e with
    | foreign t => rfl
    | leaf k0 m => by_cases hk : k = Kind.Unknown <;> simp [errors.New, hk, Error.message]
    | wrap k0 m e0 => by_cases hk : k = Kind.Unknown <;> simp [errors.New, hk, Error.message]

/-- SetPolicyAutoImport on an interval that is no duration. -/
theorem SetPolicyAutoImport_rejected (s : Service σ) (req : SetPolicyAutoImportRequest)
    (w : World σ) (e : Error) (h : s.timeParseDuration req.Interval = Except.error e) :
    SetPolicyAutoImport s req w
      = (Except.error
          (Error.leaf Kind.BadRequest ("invalid interval definition: " ++ s.errorString e)),
         w) := by
  simp only [SetPolicyAutoImport, h]
  rfl

/-- SetPolicyAutoImport on an interval that is a duration: what remains is the
result of saving the configuration. -/
theorem SetPolicyAutoImport_parsed (s : Service σ) (req : SetPolicyAutoImportRequest)
    (w : World σ) (interval : Int)
    (h : s.timeParseDuration req.Interval = Except.ok interval) :
    SetPolicyAutoImport s req w
      = ((match (s.storageSaveAutoImportConfig (s.timeNow w.st).2
            { PolicyURL := req.PolicyURL, Interval := interval,
              NextImport := (s.timeNow w.st).1 + interval }).1 with
          | some err =>
            Except.error
              (errors.New Kind.Unknown "error saving auto import configuration" (some err))
          | none => Except.ok { policyURL := req.PolicyURL, interval := req.Interval }),
         { st := (s.storageSaveAutoImportConfig (s.timeNow w.st).2
              { PolicyURL := req.PolicyURL, Interval := interval,
                NextImport := (s.timeNow w.st).1 + interval }).2,
           calls := w.calls ++
             [Call.storageSaveAutoImportConfig
               { PolicyURL := req.PolicyURL, Interval := interval,
                 NextImport := (s.timeNow w.st).1 + interval }] }) := by
  simp only [SetPolicyAutoImport, h, callSaveAutoImportConfig]
  rcases s.storageSaveAutoImportConfig (s.timeNow w.st).2
    { PolicyURL := req.PolicyURL, Interval := interval,
      NextImport := (s.timeNow w.st).1 + interval } with ⟨r, st1⟩
  cases r <;> rfl

/-- The message of a failed save does not start as the message of a rejected
interval does. -/
theorem saving_message_ne (text : String) :
    "error saving auto import configuration" ≠ "invalid interval definition: " ++ text := by
  intro h
  have hd := congrArg String.data h
  rw [String.data_append] at hd
  have hhead := congrArg List.head? hd
  simp at hhead

/-- C22: the interval of SetPolicyAutoImport. When the interval of the request
is no duration, SetPolicyAutoImport fails with an error of kind BadRequest
whose message is "invalid interval definition: " followed by the message of
the duration parser, and does not call `SaveAutoImportConfig`; it fails with
such an error only then. When the interval is a duration, it calls
`SaveAutoImportConfig` once, with the URL of the request, the parsed interval
and the current time plus the interval as next import, and when that succeeds
returns the URL and the interval text of the request as they are. -/
theorem SetPolicyAutoImport_interval (s : Service σ) (req : SetPolicyAutoImportRequest)
    (w : World σ) :
    (∀ e : Error, s.timeParseDuration req.Interval = Except.error e →
      SetPolicyAutoImport s req w
        = (Except.error
            (Error.leaf Kind.BadRequest ("invalid interval definition: " ++ s.errorString e)),
           w) ∧
      (newCalls w (SetPolicyAutoImport s req w).2).filter Call.isSaveAutoImportConfig = []) ∧
    ((∃ (err : Error) (text : String), (SetPolicyAutoImport s req w).1 = Except.error err ∧
        err.kind = Kind.BadRequest ∧ err.message = "invalid interval definition: " ++ text) ↔
      ∃ e : Error, s.timeParseDuration req.Interval = Except.error e) ∧
    (∀ interval : Int, s.timeParseDuration req.Interval = Except.ok interval →
      (newCalls w (SetPolicyAutoImport s req w).2).filter Call.isSaveAutoImportConfig
        = [Call.storageSaveAutoImportConfig
            { PolicyURL := req.PolicyURL, Interval := interval,
              NextImport := (s.timeNow w.st).1 + interval }] ∧
      ((s.storageSaveAutoImportConfig (s.timeNow w.st).2
          { PolicyURL := req.PolicyURL, Interval := interval,
            NextImport := (s.timeNow w.st).1 + interval }).1 = none →
        (SetPolicyAutoImport s req w).1
          = Except.ok { policyURL := req.PolicyURL, interval := req.Interval })) := by
  refine ⟨?_, ?_, ?_⟩
  · intro e he
    have h := SetPolicyAutoImport_rejected s req w e he
    refine ⟨h, ?_⟩
    rw [h]
    simp [newCalls]
  · constructor
    · rintro ⟨err, text, herr, _, hmsg⟩
      cases hp : s.timeParseDuration req.Interval with
      | error e => exact ⟨e, rfl⟩
      | ok interval =>
        exfalso
        rw [SetPolicyAutoImport_parsed s req w interval hp] at herr
        simp only at herr
        cases hsave : (s.storageSaveAutoImportConfig (s.timeNow w.st).2
            { PolicyURL := req.PolicyURL, Interval := interval,
              NextImport := (s.timeNow w.st).1 + interval }).1 with
        | none =>
          rw [hsave] at herr
          cases herr
        | some e0 =>
          rw [hsave] at herr
          simp only [Except.error.injEq] at herr
          rw [← herr, errors.message_New] at hmsg
          exact saving_message_ne text hmsg
    · rintro ⟨e, he⟩
      refine ⟨Error.leaf Kind.BadRequest
        ("invalid interval definition: " ++ s.errorString e), s.errorString e, ?_, rfl, rfl⟩
      rw [SetPolicyAutoImport_rejected s req w e he]
  · intro interval hp
    rw [SetPolicyAutoImport_parsed s req w interval hp]
    constructor
    · simp [newCalls, Call.isSaveAutoImportConfig]
    · intro hsave
      simp only [hsave]

/-- The requests of the tests on the in-memory backend: the intervals that are
no durations are rejected with the messages of the duration parser, and the
interval of one minute is saved with the next import one minute after the
time of the call. -/
theorem SetPolicyAutoImport_interval_witness :
    (SetPolicyAutoImport memService (autoImportReq "") (memWith [])).1
      = Except.error (Error.leaf Kind.BadRequest
          "invalid interval definition: time: invalid duration \"\"") ∧
    (SetPolicyAutoImport memService (autoImportReq "s") (memWith [])).1
      = Except.error (Error.leaf Kind.BadRequest
          "invalid interval definition: time: invalid duration \"s\"") ∧
    (SetPolicyAutoImport memService (autoImportReq "1") (memWith [])).1
      = Except.error (Error.leaf Kind.BadRequest
          "invalid interval definition: time: missing unit in duration \"1\"") ∧
    (newCalls (memWith [])
        (SetPolicyAutoImport memService (autoImportReq "1") (memWith [])).2).filter
          Call.isSaveAutoImportConfig = [] ∧
    (newCalls (memWith [])
        (SetPolicyAutoImport memService (autoImportReq "1m") (memWith [])).2).filter
          Call.isSaveAutoImportConfig
      = [Call.storageSaveAutoImportConfig
          { PolicyURL := "http://example.com", Interval := 60000000000,
            NextImport := 1700000000000000000 + 60000000000 }] ∧
    (SetPolicyAutoImport memService (autoImportReq "1m") (memWith [])).1
      = Except.ok { policyURL := "http://example.com", interval := "1m" } :=
  ⟨congrArg Prod.fst
    (((SetPolicyAutoImport_interval memService (autoImportReq "") (memWith [])).1
      (Error.foreign "time: invalid duration \"\"") rfl).1),
   congrArg Prod.fst
    (((SetPolicyAutoImport_interval memService (autoImportReq "s") (memWith [])).1
      (Error.foreign "time: invalid duration \"s\"") rfl).1),
   congrArg Prod.fst
    (((SetPolicyAutoImport_interval memService (autoImportReq "1") (memWith [])).1
      (Error.foreign "time: missing unit in duration \"1\"") rfl).1),
   ((SetPolicyAutoImport_interval memService (autoImportReq "1") (memWith [])).1
      (Error.foreign "time: missing unit in duration \"1\"") rfl).2,
   ((SetPolicyAutoImport_interval memService (autoImportReq "1m") (memWith [])).2.2
      60000000000 rfl).1,
   ((SetPolicyAutoImport_interval memService (autoImportReq "1m") (memWith [])).2.2
      60000000000 rfl).2 rfl⟩

/-- C23, as the code has it: SetPolicyAutoImport saves the interval the
duration parser reads, whatever its sign. For every request, either the
interval is no duration, the request is rejected and nothing is saved; or the
one configuration passed to `SaveAutoImportConfig` has the parsed duration as
interval and the time of the call plus that duration as next import, so that
its interval is greater than zero, and its next import later than the time of
the call, exactly when the parsed duration is positive. -/
theorem SetPolicyAutoImport_saved_interval (s : Service σ)
    (req : SetPolicyAutoImportRequest) (w : World σ) :
    (∃ e : Error, s.timeParseDuration req.Interval = Except.error e ∧
      (SetPolicyAutoImport s req w).1
        = Except.error
            (Error.leaf Kind.BadRequest ("invalid interval definition: " ++ s.errorString e)) ∧
      (newCalls w (SetPolicyAutoImport s req w).2).filter Call.isSaveAutoImportConfig = []) ∨
    (∃ (interval : Int) (saved : PolicyAutoImport),
      s.timeParseDuration req.Interval = Except.ok interval ∧
      (newCalls w (SetPolicyAutoImport s req w).2).filter Call.isSaveAutoImportConfig
        = [Call.storageSaveAutoImportConfig saved] ∧
      saved.PolicyURL = req.PolicyURL ∧
      saved.Interval = interval ∧
      saved.NextImport = (s.timeNow w.st).1 + interval ∧
      (0 < saved.Interval ↔ 0 < interval) ∧
      ((s.timeNow w.st).1 < saved.NextImport ↔ 0 < interval)) := by
  cases hp : s.timeParseDuration req.Interval with
  | error e =>
    left
    have h := SetPolicyAutoImport_rejected s req w e hp
    refine ⟨e, rfl, by rw [h], ?_⟩
    rw [h]
    simp [newCalls]
  | ok interval =>
    right
    refine ⟨interval,
      { PolicyURL := req.PolicyURL, Interval := interval,
        NextImport := (s.timeNow w.st).1 + interval }, rfl, ?_, rfl, rfl, rfl, Iff.rfl, ?_⟩
    · rw [SetPolicyAutoImport_parsed s req w interval hp]
      simp [newCalls, Call.isSaveAutoImportConfig]
    · simp only
      omega

/-- The request of the tests with the interval of one minute on the in-memory
backend: the saved interval is one minute, which is positive, and the time
of the next import is later than the time of the call. -/
theorem SetPolicyAutoImport_saved_interval_witness :
    ∃ saved : PolicyAutoImport,
      (newCalls (memWith [])
          (SetPolicyAutoImport memService (autoImportReq "1m") (memWith [])).2).filter
            Call.isSaveAutoImportConfig
        = [Call.storageSaveAutoImportConfig saved] ∧
      saved.Interval = 60000000000 ∧ 0 < saved.Interval ∧
      (memService.timeNow (memWith []).st).1 < saved.NextImport :=
  (SetPolicyAutoImport_saved_interval memService (autoImportReq "1m") (memWith [])).elim
    (fun h => h.elim fun e he => by
      have hp : memService.timeParseDuration (autoImportReq "1m").Interval
          = Except.ok 60000000000 := rfl
      rw [hp] at he
      cases he.1)
    (fun h => h.elim fun interval h1 => h1.elim fun saved hs => by
      have hp : memService.timeParseDuration (autoImportReq "1m").Interval
          = Except.ok 60000000000 := rfl
      have hi : interval = 60000000000 := by
        have := hs.1
        rw [hp] at this
        simp only [Except.ok.injEq] at this
        exact this.symm
      have hpos : (0 : Int) < interval := by rw [hi]; decide
      exact ⟨saved, hs.2.1, by rw [hs.2.2.2.1, hi], hs.2.2.2.2.2.1.mpr hpos,
        hs.2.2.2.2.2.2.mpr hpos⟩)

/-- C23, as stated, fails: the intervals `0`, `0s` and `-1m` are durations, so
the requests are not rejected; the configurations saved on the in-memory
backend have the intervals 0, 0 and minus one minute, none greater than zero,
and next imports that are not later than the time of the call. -/
theorem SetPolicyAutoImport_saves_nonpositive :
    (memService.timeNow (memWith []).st).1 = 1700000000000000000 ∧
    (SetPolicyAutoImport memService (autoImportReq "0") (memWith [])).1
      = Except.ok { policyURL := "http://example.com", interval := "0" } ∧
    (SetPolicyAutoImport memService (autoImportReq "0") (memWith [])).2.st.autoImports
      = [{ PolicyURL := "http://example.com", Interval := 0,
           NextImport := 1700000000000000000 }] ∧
    (SetPolicyAutoImport memService (autoImportReq "0s") (memWith [])).1
      = Except.ok { policyURL := "http://example.com", interval := "0s" } ∧
    (SetPolicyAutoImport memService (autoImportReq "0s") (memWith [])).2.st.autoImports
      = [{ PolicyURL := "http://example.com", Interval := 0,
           NextImport := 1700000000000000000 }] ∧
    (SetPolicyAutoImport memService (autoImportReq "-1m") (memWith [])).1
      = Except.ok { policyURL := "http://example.com", interval := "-1m" } ∧
    (SetPolicyAutoImport memService (autoImportReq "-1m") (memWith [])).2.st.autoImports
      = [{ PolicyURL := "http://example.com", Interval := -60000000000,
           NextImport := 1699999940000000000 }] ∧
    ¬ ((0 : Int) < -60000000000) ∧ ¬ ((1700000000000000000 : Int) < 1699999940000000000) :=
  ⟨rfl, rfl, rfl, rfl, rfl, rfl, rfl, by decide, by decide⟩

end AutoImport

end PolicyAgent
